import Mathlib

/-!
# Narrow-phase collision callbacks of `tutorials/collide/collide.cpp`

A shallow embedding of the callbacks of the tutorial

* `intersect_triangle_triangle` (self-pair exclusion, adjacency filter, intersector call),
* `CollideFunc` (in-place compaction of a candidate batch, locked append),
* `triangle_bounds_func` (bounding box of a triangle of the user-geometry adapter),
* `triangle_intersect_func` (non-culled ray/triangle test of the user-geometry adapter),

followed by theorems about them.  Besides the direct embedding there are an
iteration-by-iteration reading of the filtering loop, a bounds-checked reading of all four
functions, the ray callback over an arbitrary arithmetic with a model of single precision,
and an interleaving model of several threads running `CollideFunc`.

Conventions of the embedding.

* `unsigned` ids and vertex indices are natural numbers; they are only compared for equality
  and used as offsets, so no wrap-around is involved.
* `std::vector` and the candidate array are lists.  The source indexes without bounds checks;
  the embedding reads with `List.getD _ _ default`, and theorems that speak about the
  stored values name them through `xs[i]? = some _` hypotheses.
* The ray callback is embedded twice.  `triangle_intersect_func` idealises the floats as
  elements of a linear ordered field `K` (for instance `ℚ`), `rcp` being the exact inverse;
  it serves the statements about the geometry of the test.  `triangle_intersect_func_arith`
  takes the arithmetic as a parameter (`FloatOps`), so that what is proved of it holds of
  the single-precision computation of the code; `F32` is a model of single precision in
  which the callback can be evaluated.
* The global variables `meshes`, `mutex` and the list behind `userPtr` are explicit
  arguments and results.
-/

namespace embree

/-! ## Data model -/

/-- Modelled from the spec: the `Triangle` of the mesh headers (absent from `src/`), three
indices `v0, v1, v2` into the vertex array of its mesh. -/
structure Triangle where
  v0 : Nat
  v1 : Nat
  v2 : Nat
  deriving DecidableEq, Repr, Inhabited

/-- Modelled from the spec: a mesh of the registry, `collide2::Mesh` (declared in a header
absent from `src/`): the ordered vertex positions `x_` and the ordered triangles `tris_`. -/
structure Mesh (V : Type) where
  x_ : List V
  tris_ : List Triangle

instance {V : Type} : Inhabited (Mesh V) := ⟨⟨[], []⟩⟩

/-- Modelled from the spec: one candidate of a batch, `RTCCollision` (declared in a header
absent from `src/`): geometry id and primitive id on each side. -/
structure RTCCollision where
  geomID0 : Nat
  primID0 : Nat
  geomID1 : Nat
  primID1 : Nat
  deriving DecidableEq, Repr, Inhabited

/-- The handle `std::pair<unsigned,unsigned>` of one triangle on one mesh. -/
abbrev SurfacePoint := Nat × Nat

/-- A confirmed pair, `std::pair<SurfacePoint, SurfacePoint>`. -/
abbrev Collision := SurfacePoint × SurfacePoint

/-- The result list, `std::vector<Collision>`. -/
abbrev Collisions := List Collision

/-! ## The 4-lane integer vector used by the adjacency test -/

/-- Modelled from the spec: the 4-lane mask type of the SIMD library (absent from `src/`),
the result of a lanewise comparison. -/
structure vboolf4 where
  m0 : Bool
  m1 : Bool
  m2 : Bool
  m3 : Bool
  deriving DecidableEq, Repr

/-- Modelled from the spec: the 4-lane integer vector type of the SIMD library (absent
from `src/`); the lanes hold the vertex indices that are compared. -/
structure vint4 where
  i0 : Nat
  i1 : Nat
  i2 : Nat
  i3 : Nat
  deriving DecidableEq, Repr

/-- Modelled from the spec: the broadcasting constructor `vint4(a)`, all four lanes equal
to `a`. -/
def vint4.broadcast (a : Nat) : vint4 := ⟨a, a, a, a⟩

/-- Modelled from the spec: the lanewise comparison `a == b` of two `vint4`. -/
def vint4.eq (a b : vint4) : vboolf4 :=
  ⟨a.i0 == b.i0, a.i1 == b.i1, a.i2 == b.i2, a.i3 == b.i3⟩

/-- Modelled from the spec: the mask reduction `any(m)`, true when some lane is set. -/
def any (m : vboolf4) : Bool := m.m0 || m.m1 || m.m2 || m.m3

/-! ## `intersect_triangle_triangle` -/

/-- The test of the block "ignore intersection with topological neighbors": each index of
`tri1` is broadcast and compared lanewise with `vint4(tri0.v0,tri0.v1,tri0.v2,tri0.v2)`;
it is true when one of the three `if (any(...)) return false;` fires. -/
def topological_neighbors (tri0 tri1 : Triangle) : Bool :=
  let t0 : vint4 := ⟨tri0.v0, tri0.v1, tri0.v2, tri0.v2⟩
  any ((vint4.broadcast tri1.v0).eq t0) ||
  any ((vint4.broadcast tri1.v1).eq t0) ||
  any ((vint4.broadcast tri1.v2).eq t0)

/-- The adjacency test in the words of the specification: the 3×3 comparison of every
index of triangle 1 with every index of triangle 0. -/
def shares_vertex_index (tri0 tri1 : Triangle) : Bool :=
  [tri1.v0, tri1.v1, tri1.v2].any (fun i => [tri0.v0, tri0.v1, tri0.v2].any (fun j => i == j))

/-- The narrow-phase predicate of one candidate.  `isect` stands for
`isa::TriangleTriangleIntersector::intersect_triangle_triangle`, whose code is not part of
the tutorial. -/
def intersect_triangle_triangle {V : Type} [Inhabited V]
    (isect : V → V → V → V → V → V → Bool) (meshes : List (Mesh V))
    (geomID0 primID0 geomID1 primID1 : Nat) : Bool :=
  /- special culling for scene intersection with itself -/
  if geomID0 == geomID1 && primID0 == primID1 then false
  else
    let mesh0 := meshes.getD geomID0 default
    let mesh1 := meshes.getD geomID1 default
    let tri0 := mesh0.tris_.getD primID0 default
    let tri1 := mesh1.tris_.getD primID1 default
    /- ignore intersection with topological neighbors -/
    if geomID0 == geomID1 && topological_neighbors tri0 tri1 then false
    else
      let a0 := mesh0.x_.getD tri0.v0 default
      let a1 := mesh0.x_.getD tri0.v1 default
      let a2 := mesh0.x_.getD tri0.v2 default
      let b0 := mesh1.x_.getD tri1.v0 default
      let b1 := mesh1.x_.getD tri1.v1 default
      let b2 := mesh1.x_.getD tri1.v2 default
      isect a0 a1 a2 b0 b1 b2

/-- The call `intersect_triangle_triangle(collisions[i].geomID0, collisions[i].primID0,
collisions[i].geomID1, collisions[i].primID1)` made by `CollideFunc` on one array entry. -/
def intersect_candidate {V : Type} [Inhabited V]
    (isect : V → V → V → V → V → V → Bool) (meshes : List (Mesh V)) (c : RTCCollision) : Bool :=
  intersect_triangle_triangle isect meshes c.geomID0 c.primID0 c.geomID1 c.primID1

/-! ## `CollideFunc` -/

/-- The filtering loop `for (size_t i=0; i<num_collisions;)` of `CollideFunc`, started at
index `i` with `num_collisions = n`.  Every iteration either advances `i` or lowers `n`, so
`n - i` iterations suffice; the first argument bounds the number of iterations.  The result
is the array and the final `num_collisions`. -/
def filterLoop (pred : RTCCollision → Bool) :
    Nat → List RTCCollision → Nat → Nat → List RTCCollision × Nat
  | 0, collisions, _, n => (collisions, n)
  | steps + 1, collisions, i, n =>
    if i < n then
      if pred (collisions.getD i default) then filterLoop pred steps collisions (i + 1) n
      else filterLoop pred steps (collisions.set i (collisions.getD (n - 1) default)) i (n - 1)
    else (collisions, n)

/-- Modelled from the spec: what one call does to the lock and to the shared list, in
program order.  `Lock<SpinLock>` (absent from `src/`) is a scoped lock, acquired where it
is declared and released when its scope is left. -/
inductive Event where
  | acquire
  | push_back (c : Collision)
  | release
  deriving DecidableEq, Repr

/-- The pair built by `std::make_pair(std::make_pair(geomID0,primID0),
std::make_pair(geomID1,primID1))`. -/
def make_collision (c : RTCCollision) : Collision :=
  ((c.geomID0, c.primID0), (c.geomID1, c.primID1))

/-- Everything a call of `CollideFunc` can touch: the registry `meshes`, the candidate
array with the final value of the local `num_collisions`, the list behind `userPtr`, and
the trace of lock and list events. -/
structure CollideState (V : Type) where
  meshes : List (Mesh V)
  collisions : List RTCCollision
  num_collisions : Nat
  userPtr : Collisions
  trace : List Event

/-- The append loop `for (size_t i=0; i<num_collisions; i++) ... push_back(...)`, run under
the lock: the list and the trace after the pushes of indices `0 .. n-1`. -/
def pushLoop (collisions : List RTCCollision) (n : Nat) (userPtr : Collisions)
    (trace : List Event) : Collisions × List Event :=
  (List.range n).foldl
    (fun st i =>
      let c := make_collision (collisions.getD i default)
      (st.1 ++ [c], st.2 ++ [Event.push_back c]))
    (userPtr, trace)

/-- The collision callback.  `userPtr` is the list it points to; `collisions` and
`num_collisions` are the candidate array and its length. -/
def CollideFunc {V : Type} [Inhabited V]
    (isect : V → V → V → V → V → V → Bool) (meshes : List (Mesh V))
    (userPtr : Collisions) (collisions : List RTCCollision) (num_collisions : Nat) :
    CollideState V :=
  let r := filterLoop (intersect_candidate isect meshes) num_collisions collisions 0
    num_collisions
  if r.2 == 0 then
    ⟨meshes, r.1, r.2, userPtr, []⟩
  else
    /- Lock<SpinLock> lock(mutex): acquired here, released when the scope is left -/
    let out := pushLoop r.1 r.2 userPtr [Event.acquire]
    ⟨meshes, r.1, r.2, out.1, out.2 ++ [Event.release]⟩

/-! ## `triangle_intersect_func` -/

/-- Modelled from the spec: a 3-component vector, `Vec3fa` (absent from `src/`), over the
scalar type `K`. -/
structure Vec3 (K : Type) where
  x : K
  y : K
  z : K
  deriving DecidableEq, Repr

instance {K : Type} [Zero K] : Inhabited (Vec3 K) := ⟨⟨0, 0, 0⟩⟩

/-- Modelled from the spec: componentwise difference `a - b` of `Vec3fa`. -/
def Vec3.sub {K : Type} [Sub K] (a b : Vec3 K) : Vec3 K := ⟨a.x - b.x, a.y - b.y, a.z - b.z⟩

/-- Modelled from the spec: componentwise negation `-a` of `Vec3fa`. -/
def Vec3.neg {K : Type} [Neg K] (a : Vec3 K) : Vec3 K := ⟨-a.x, -a.y, -a.z⟩

/-- Modelled from the spec: the cross product `cross(a,b)` of the math library. -/
def cross {K : Type} [Mul K] [Sub K] (a b : Vec3 K) : Vec3 K :=
  ⟨a.y * b.z - a.z * b.y, a.z * b.x - a.x * b.z, a.x * b.y - a.y * b.x⟩

/-- Modelled from the spec: the dot product `dot(a,b)` of the math library. -/
def dot {K : Type} [Mul K] [Add K] (a b : Vec3 K) : K := a.x * b.x + a.y * b.y + a.z * b.z

/-- Modelled from the spec: the reciprocal `rcp(x)` of the math library, exact in the
idealised arithmetic. -/
def rcp {K : Type} [Inv K] (x : K) : K := x⁻¹

/-- Modelled from the spec: the `Ray` of the tutorial headers (absent from `src/`), reduced
to what `triangle_intersect_func` reads or writes: origin, direction, the interval bounds
`tnear()` and `tfar`, and the hit record `u, v, geomID, primID, Ng`. -/
structure Ray (K : Type) where
  org : Vec3 K
  dir : Vec3 K
  tnear : K
  tfar : K
  u : K
  v : K
  geomID : Nat
  primID : Nat
  Ng : Vec3 K
  deriving DecidableEq, Repr

/-- The ray callback of the user-geometry adapter.  `geomID` is the value carried by
`args->geometryUserPtr`, `primID` is `args->primID`, `ray` is `*args->rayhit`; the result
is the ray after the call. -/
def triangle_intersect_func {K : Type} [LinearOrderedField K]
    (meshes : List (Mesh (Vec3 K))) (geomID primID : Nat) (ray : Ray K) : Ray K :=
  let mesh := meshes.getD geomID default
  let v0 := mesh.x_.getD (mesh.tris_.getD primID default).v0 default
  let v1 := mesh.x_.getD (mesh.tris_.getD primID default).v1 default
  let v2 := mesh.x_.getD (mesh.tris_.getD primID default).v2 default
  let e1 := v0.sub v1
  let e2 := v2.sub v0
  let Ng := cross e1 e2
  /- calculate denominator -/
  let O := ray.org
  let D := ray.dir
  let C := v0.sub O
  let R := cross D C
  let den := dot Ng D
  let rcpDen := rcp den
  /- perform edge tests -/
  let u := dot R e2 * rcpDen
  let v := dot R e1 * rcpDen
  /- perform backface culling -/
  let valid := decide (den ≠ 0) && decide (u ≥ 0) && decide (v ≥ 0) && decide (u + v ≤ 1)
  if !valid then ray
  else
    /- perform depth test -/
    let t := dot Ng C * rcpDen
    let valid := valid && (decide (t > ray.tnear) && decide (t < ray.tfar))
    if !valid then ray
    else
      /- update hit -/
      { ray with tfar := t, u := u, v := v, geomID := geomID, primID := primID, Ng := Ng }

/-- Modelled from the spec: componentwise sum `a + b` of `Vec3fa`. -/
def Vec3.add {K : Type} [Add K] (a b : Vec3 K) : Vec3 K := ⟨a.x + b.x, a.y + b.y, a.z + b.z⟩

/-- Modelled from the spec: the scaling `s * a` of `Vec3fa`. -/
def Vec3.smul {K : Type} [Mul K] (a : Vec3 K) (s : K) : Vec3 K := ⟨s * a.x, s * a.y, s * a.z⟩

/-! ## The ray test in the words of the specification -/

/-- The denominator `den = dot(cross(v0-v1, v2-v0), dir)`. -/
def hit_den {K : Type} [LinearOrderedField K] (v0 v1 v2 : Vec3 K) (ray : Ray K) : K :=
  dot (cross (v0.sub v1) (v2.sub v0)) ray.dir

/-- The first barycentric coordinate `u = dot(cross(dir, v0-org), v2-v0) / den`. -/
def hit_u {K : Type} [LinearOrderedField K] (v0 v1 v2 : Vec3 K) (ray : Ray K) : K :=
  dot (cross ray.dir (v0.sub ray.org)) (v2.sub v0) / hit_den v0 v1 v2 ray

/-- The second barycentric coordinate `v = dot(cross(dir, v0-org), v0-v1) / den`. -/
def hit_v {K : Type} [LinearOrderedField K] (v0 v1 v2 : Vec3 K) (ray : Ray K) : K :=
  dot (cross ray.dir (v0.sub ray.org)) (v0.sub v1) / hit_den v0 v1 v2 ray

/-- The ray parameter `t = dot(Ng, v0-org) / den` with `Ng = cross(v0-v1, v2-v0)`. -/
def hit_t {K : Type} [LinearOrderedField K] (v0 v1 v2 : Vec3 K) (ray : Ray K) : K :=
  dot (cross (v0.sub v1) (v2.sub v0)) (v0.sub ray.org) / hit_den v0 v1 v2 ray

/-- The hit condition: `den ≠ 0`, `u ≥ 0`, `v ≥ 0`, `u+v ≤ 1` and `tnear < t < tfar`. -/
def is_hit {K : Type} [LinearOrderedField K] (v0 v1 v2 : Vec3 K) (ray : Ray K) : Prop :=
  hit_den v0 v1 v2 ray ≠ 0 ∧ hit_u v0 v1 v2 ray ≥ 0 ∧ hit_v v0 v1 v2 ray ≥ 0
    ∧ hit_u v0 v1 v2 ray + hit_v v0 v1 v2 ray ≤ 1
    ∧ ray.tnear < hit_t v0 v1 v2 ray ∧ hit_t v0 v1 v2 ray < ray.tfar

/-! ## Sample data

Concrete registries, candidates and a stand-in for the absent intersector, used to
instantiate the theorems below. -/

/-- A stand-in for the absent triangle/triangle intersector: it answers true when the edge
`b0 b1` of the second triangle passes strictly through the height `a0.z` of the first. -/
def straddle_oracle {K : Type} [LinearOrder K] (a0 _a1 _a2 b0 b1 _b2 : Vec3 K) : Bool :=
  decide (b0.z < a0.z) && decide (a0.z < b1.z)

/-- Triangle `A = ((0,0,0),(1,0,0),(0,1,0))` as a one-triangle mesh. -/
def meshA : Mesh (Vec3 ℚ) := ⟨[⟨0, 0, 0⟩, ⟨1, 0, 0⟩, ⟨0, 1, 0⟩], [⟨0, 1, 2⟩]⟩

/-- Triangle `B = ((0.5,0.5,-0.5),(0.5,0.5,0.5),(0.5,-0.5,0))` as a one-triangle mesh. -/
def meshB : Mesh (Vec3 ℚ) :=
  ⟨[⟨1/2, 1/2, -1/2⟩, ⟨1/2, 1/2, 1/2⟩, ⟨1/2, -1/2, 0⟩], [⟨0, 1, 2⟩]⟩

/-- A strip of three triangles over integer positions: triangles 0 and 1 share an edge,
triangle 2 shares no index with triangle 0 and rises through its plane. -/
def meshStrip : Mesh (Vec3 ℤ) :=
  ⟨[⟨0, 0, 0⟩, ⟨2, 0, 0⟩, ⟨0, 2, 0⟩, ⟨2, 2, 0⟩, ⟨1, 1, -1⟩, ⟨1, 1, 1⟩, ⟨1, -1, 0⟩],
   [⟨0, 1, 2⟩, ⟨1, 3, 2⟩, ⟨4, 5, 6⟩]⟩

/-- A second integer mesh, one triangle lying flat at height 5. -/
def meshFlat : Mesh (Vec3 ℤ) := ⟨[⟨0, 0, 5⟩, ⟨2, 0, 5⟩, ⟨0, 2, 5⟩], [⟨0, 1, 2⟩]⟩

/-- A batch over `[meshStrip, meshFlat]`: a crossing pair, a self-pair, a pair of
neighbours, a separated pair of different meshes, and the crossing pair once more. -/
def sampleBatch : List RTCCollision :=
  [⟨0, 0, 0, 2⟩, ⟨0, 1, 0, 1⟩, ⟨0, 0, 0, 1⟩, ⟨0, 0, 1, 0⟩, ⟨0, 0, 0, 2⟩]

/-- A ray falling from height 1 onto triangle `A` at `(1/4,1/4,0)`, with the interval
`(0,10)` and a hit record still naming geometry 99, primitive 99. -/
def sampleRay : Ray ℚ := ⟨⟨1/4, 1/4, 1⟩, ⟨0, 0, -1⟩, 0, 10, 0, 0, 99, 99, ⟨0, 0, 0⟩⟩

/-! ## Further models of the ray callbacks -/

/-- A mesh holding triangle `A` with both windings: primitive 0 is `(v0,v1,v2)`,
primitive 1 is `(v0,v2,v1)`. -/
def meshTwoSided : Mesh (Vec3 ℚ) :=
  ⟨[⟨0, 0, 0⟩, ⟨1, 0, 0⟩, ⟨0, 1, 0⟩], [⟨0, 1, 2⟩, ⟨0, 2, 1⟩]⟩

/-- A ray along the normal `(0,0,1)` of triangle `A` through its centroid `(1/3,1/3,0)`,
started at distance 2 below the plane, with the interval `(0,10)`. -/
def sampleCentroidRay : Ray ℚ :=
  ⟨⟨1/3, 1/3, -2⟩, ⟨0, 0, 1⟩, 0, 10, 0, 0, 99, 99, ⟨0, 0, 0⟩⟩

/-! ## `triangle_bounds_func` -/

/-- Modelled from the spec: the axis-aligned box `BBox3fa` (absent from `src/`), a lower
and an upper corner.  The empty box has the lower corner at plus infinity and the upper
corner at minus infinity, so the coordinates of the corners are extended by a top,
respectively a bottom element. -/
structure BBox3fa (K : Type) where
  lower : Vec3 (WithTop K)
  upper : Vec3 (WithBot K)

/-- Modelled from the spec: the box `empty`, lower corner `+inf`, upper corner `-inf`. -/
def BBox3fa.empty {K : Type} : BBox3fa K := ⟨⟨⊤, ⊤, ⊤⟩, ⟨⊥, ⊥, ⊥⟩⟩

/-- Modelled from the spec: `bounds.extend(p)`, the componentwise minimum of the lower
corner with `p` and the componentwise maximum of the upper corner with `p`. -/
def BBox3fa.extend {K : Type} [LinearOrder K] (b : BBox3fa K) (p : Vec3 K) : BBox3fa K :=
  ⟨⟨min b.lower.x (p.x : WithTop K), min b.lower.y (p.y : WithTop K),
      min b.lower.z (p.z : WithTop K)⟩,
   ⟨max b.upper.x (p.x : WithBot K), max b.upper.y (p.y : WithBot K),
      max b.upper.z (p.z : WithBot K)⟩⟩

/-- The point `p` lies in the box `b`, bounds included. -/
def BBox3fa.contains {K : Type} [LinearOrder K] (b : BBox3fa K) (p : Vec3 K) : Prop :=
  b.lower.x ≤ (p.x : WithTop K) ∧ b.lower.y ≤ (p.y : WithTop K) ∧ b.lower.z ≤ (p.z : WithTop K)
    ∧ (p.x : WithBot K) ≤ b.upper.x ∧ (p.y : WithBot K) ≤ b.upper.y
    ∧ (p.z : WithBot K) ≤ b.upper.z

/-- The box `a` lies in the box `b`. -/
def BBox3fa.within {K : Type} [LinearOrder K] (a b : BBox3fa K) : Prop :=
  b.lower.x ≤ a.lower.x ∧ b.lower.y ≤ a.lower.y ∧ b.lower.z ≤ a.lower.z
    ∧ a.upper.x ≤ b.upper.x ∧ a.upper.y ≤ b.upper.y ∧ a.upper.z ≤ b.upper.z

/-- The bounds callback of the user-geometry adapter.  `geomID` is the value carried by
`args->geometryUserPtr`, `primID` is `args->primID`; the result is the box written to
`*args->bounds_o`. -/
def triangle_bounds_func {K : Type} [LinearOrderedField K]
    (meshes : List (Mesh (Vec3 K))) (geomID primID : Nat) : BBox3fa K :=
  let mesh := meshes.getD geomID default
  let bounds : BBox3fa K := BBox3fa.empty
  let bounds := bounds.extend (mesh.x_.getD (mesh.tris_.getD primID default).v0 default)
  let bounds := bounds.extend (mesh.x_.getD (mesh.tris_.getD primID default).v1 default)
  let bounds := bounds.extend (mesh.x_.getD (mesh.tris_.getD primID default).v2 default)
  bounds

/-! ## Lock traces -/

/-- A trace respects the lock when, read from left to right with the flag `held` telling
whether the lock is held, every `acquire` finds the lock free, every `push_back` and every
`release` finds it held, and the lock is free at the end. -/
def lock_respected : Bool → List Event → Bool
  | held, [] => !held
  | held, Event.acquire :: t => !held && lock_respected true t
  | held, Event.push_back _ :: t => held && lock_respected true t
  | held, Event.release :: t => held && lock_respected false t

/-- The entries appended according to a trace, in order. -/
def pushed_entries : List Event → List Collision
  | [] => []
  | Event.push_back c :: t => c :: pushed_entries t
  | _ :: t => pushed_entries t

/-- A batch over `[meshStrip, meshStrip]`: a passing pair, a pair of neighbours, and two
further passing pairs. -/
def orderBatch : List RTCCollision :=
  [⟨0, 0, 0, 2⟩, ⟨0, 0, 0, 1⟩, ⟨0, 1, 0, 2⟩, ⟨1, 0, 0, 2⟩]

/-! ## The filtering loop, iteration by iteration -/

/-- The variables of the filtering loop: the array, the index `i` and `num_collisions`. -/
structure LoopState where
  collisions : List RTCCollision
  i : Nat
  num_collisions : Nat
  deriving DecidableEq, Repr

/-- One execution of the loop body
`if (intersect) i++; else collisions[i] = collisions[--num_collisions];`,
entered with `i < num_collisions`; the predicate is evaluated once, on `collisions[i]`. -/
def filterBody (pred : RTCCollision → Bool) (st : LoopState) : LoopState :=
  if pred (st.collisions.getD st.i default) then { st with i := st.i + 1 }
  else
    { st with
      collisions :=
        st.collisions.set st.i (st.collisions.getD (st.num_collisions - 1) default)
      num_collisions := st.num_collisions - 1 }

/-- The state after at most `k` iterations: before each one the loop condition
`i < num_collisions` is tested, and the loop is left when it fails. -/
def filterIter (pred : RTCCollision → Bool) : Nat → LoopState → LoopState
  | 0, st => st
  | k + 1, st =>
    if st.i < st.num_collisions then filterIter pred k (filterBody pred st) else st

/-- The candidates on which the predicate is evaluated during the first `k` iterations, in
the order of evaluation. -/
def evaluated (pred : RTCCollision → Bool) : Nat → LoopState → List RTCCollision
  | 0, _ => []
  | k + 1, st =>
    if st.i < st.num_collisions then
      st.collisions.getD st.i default :: evaluated pred k (filterBody pred st)
    else []

/-! ## Bounds-checked embedding

The same functions with every array access checked: a read or write outside the array, a
decrement of `num_collisions` at zero, or an exhausted iteration bound give `none`. -/

/-- `intersect_triangle_triangle` with checked accesses to `meshes`, `tris_` and `x_`. -/
def intersect_triangle_triangle_checked {V : Type}
    (isect : V → V → V → V → V → V → Bool) (meshes : List (Mesh V))
    (geomID0 primID0 geomID1 primID1 : Nat) : Option Bool :=
  /- special culling for scene intersection with itself -/
  if geomID0 == geomID1 && primID0 == primID1 then some false
  else do
    let mesh0 ← meshes[geomID0]?
    let mesh1 ← meshes[geomID1]?
    let tri0 ← mesh0.tris_[primID0]?
    let tri1 ← mesh1.tris_[primID1]?
    /- ignore intersection with topological neighbors -/
    if geomID0 == geomID1 && topological_neighbors tri0 tri1 then some false
    else do
      let a0 ← mesh0.x_[tri0.v0]?
      let a1 ← mesh0.x_[tri0.v1]?
      let a2 ← mesh0.x_[tri0.v2]?
      let b0 ← mesh1.x_[tri1.v0]?
      let b1 ← mesh1.x_[tri1.v1]?
      let b2 ← mesh1.x_[tri1.v2]?
      some (isect a0 a1 a2 b0 b1 b2)

/-- The filtering loop with checked accesses `collisions[i]` (read and write) and
`collisions[--num_collisions]`, a checked decrement, and `none` when the iteration bound
is used up before the loop condition fails. -/
def filterLoop_checked (pred : RTCCollision → Option Bool) :
    Nat → List RTCCollision → Nat → Nat → Option (List RTCCollision × Nat)
  | 0, collisions, i, n => if i < n then none else some (collisions, n)
  | steps + 1, collisions, i, n =>
    if i < n then do
      let c ← collisions[i]?
      let b ← pred c
      if b then filterLoop_checked pred steps collisions (i + 1) n
      else if n = 0 then none
      else do
        let last ← collisions[n - 1]?
        filterLoop_checked pred steps (collisions.set i last) i (n - 1)
    else some (collisions, n)

/-- The append loop with checked reads `collisions[i]`. -/
def pushLoop_checked (collisions : List RTCCollision) (n : Nat) (userPtr : Collisions)
    (trace : List Event) : Option (Collisions × List Event) :=
  (List.range n).foldlM
    (fun st i => do
      let e ← collisions[i]?
      let c := make_collision e
      some (st.1 ++ [c], st.2 ++ [Event.push_back c]))
    (userPtr, trace)

/-- `CollideFunc` with checked accesses. -/
def CollideFunc_checked {V : Type}
    (isect : V → V → V → V → V → V → Bool) (meshes : List (Mesh V))
    (userPtr : Collisions) (collisions : List RTCCollision) (num_collisions : Nat) :
    Option (CollideState V) := do
  let r ← filterLoop_checked
    (fun c => intersect_triangle_triangle_checked isect meshes c.geomID0 c.primID0 c.geomID1
      c.primID1) num_collisions collisions 0 num_collisions
  if r.2 == 0 then
    some ⟨meshes, r.1, r.2, userPtr, []⟩
  else do
    let out ← pushLoop_checked r.1 r.2 userPtr [Event.acquire]
    some ⟨meshes, r.1, r.2, out.1, out.2 ++ [Event.release]⟩

/-- `triangle_bounds_func` with checked accesses. -/
def triangle_bounds_func_checked {K : Type} [LinearOrderedField K]
    (meshes : List (Mesh (Vec3 K))) (geomID primID : Nat) : Option (BBox3fa K) := do
  let mesh ← meshes[geomID]?
  let bounds : BBox3fa K := BBox3fa.empty
  let bounds := bounds.extend (← mesh.x_[(← mesh.tris_[primID]?).v0]?)
  let bounds := bounds.extend (← mesh.x_[(← mesh.tris_[primID]?).v1]?)
  let bounds := bounds.extend (← mesh.x_[(← mesh.tris_[primID]?).v2]?)
  some bounds

/-- `triangle_intersect_func` with checked accesses. -/
def triangle_intersect_func_checked {K : Type} [LinearOrderedField K]
    (meshes : List (Mesh (Vec3 K))) (geomID primID : Nat) (ray : Ray K) : Option (Ray K) := do
  let mesh ← meshes[geomID]?
  let v0 ← mesh.x_[(← mesh.tris_[primID]?).v0]?
  let v1 ← mesh.x_[(← mesh.tris_[primID]?).v1]?
  let v2 ← mesh.x_[(← mesh.tris_[primID]?).v2]?
  let e1 := v0.sub v1
  let e2 := v2.sub v0
  let Ng := cross e1 e2
  let O := ray.org
  let D := ray.dir
  let C := v0.sub O
  let R := cross D C
  let den := dot Ng D
  let rcpDen := rcp den
  let u := dot R e2 * rcpDen
  let v := dot R e1 * rcpDen
  let valid := decide (den ≠ 0) && decide (u ≥ 0) && decide (v ≥ 0) && decide (u + v ≤ 1)
  if !valid then some ray
  else
    let t := dot Ng C * rcpDen
    let valid := valid && (decide (t > ray.tnear) && decide (t < ray.tfar))
    if !valid then some ray
    else
      some { ray with tfar := t, u := u, v := v, geomID := geomID, primID := primID, Ng := Ng }

/-- Every triangle of every mesh of the registry has its three indices inside the vertex
array of its mesh. -/
def valid_registry {V : Type} (meshes : List (Mesh V)) : Prop :=
  ∀ mesh ∈ meshes, ∀ tri ∈ mesh.tris_,
    tri.v0 < mesh.x_.length ∧ tri.v1 < mesh.x_.length ∧ tri.v2 < mesh.x_.length

/-- The geometry id indexes the registry and the primitive id indexes the triangle array of
that mesh. -/
def valid_prim {V : Type} (meshes : List (Mesh V)) (geomID primID : Nat) : Prop :=
  ∃ mesh, meshes[geomID]? = some mesh ∧ primID < mesh.tris_.length

/-- Both sides of a candidate are valid. -/
def valid_candidate {V : Type} (meshes : List (Mesh V)) (c : RTCCollision) : Prop :=
  valid_prim meshes c.geomID0 c.primID0 ∧ valid_prim meshes c.geomID1 c.primID1

/-! ## The ray callback over the arithmetic of the code

`triangle_intersect_func` above computes in an exact ordered field.  The source computes in
single precision, with the vector operations and `rcp` of a math library that is not part
of the tutorial.  Here the arithmetic is a parameter: the scalar type, `+`, `*`, the
comparisons, `rcp`, and the vector operations `-`, `cross`, `dot`.  What is proved for
every such arithmetic holds for the floats of the code, whatever the rounding, the order of
evaluation inside `cross` and `dot`, and the accuracy of `rcp`. -/

/-- Modelled from the spec: the arithmetic of the ray callback.  `add`, `mul`, `eq`, `lt`,
`le` are the operators `+`, `*`, `==`, `<`, `<=` of `float`; `rcp`, `vsub`, `cross`, `dot`
are `rcp`, `operator-`, `cross`, `dot` of the math library, absent from `src/`. -/
structure FloatOps (F : Type) where
  zero : F
  one : F
  add : F → F → F
  mul : F → F → F
  rcp : F → F
  vsub : Vec3 F → Vec3 F → Vec3 F
  cross : Vec3 F → Vec3 F → Vec3 F
  dot : Vec3 F → Vec3 F → F
  eq : F → F → Bool
  lt : F → F → Bool
  le : F → F → Bool

/-- Modelled from the spec: what the comparisons of floats satisfy, NaN included (every
comparison with a NaN is false): `<` is irreflexive and transitive, `a < b` excludes
`b <= a`, `a == b` excludes `a < b` and `b < a`, and two values above a common value are
comparable. -/
structure FloatOps.Lawful {F : Type} (A : FloatOps F) : Prop where
  lt_irrefl : ∀ a : F, A.lt a a = false
  lt_trans : ∀ a b c : F, A.lt a b = true → A.lt b c = true → A.lt a c = true
  lt_not_le : ∀ a b : F, A.lt a b = true → A.le b a = false
  eq_not_lt : ∀ a b : F, A.eq a b = true → A.lt a b = false ∧ A.lt b a = false
  lt_connex : ∀ c a b : F, A.lt c a = true → A.lt c b = true →
    A.lt a b = true ∨ A.lt b a = true ∨ A.eq a b = true

/-- The ray callback with the arithmetic `A`.  `den != 0.0f` is the negation of `==`,
`u >= 0.0f` is `0.0f <= u`, `t > ray->tnear()` is `ray->tnear() < t`; `&` evaluates both
sides. -/
def triangle_intersect_func_arith {F : Type} (A : FloatOps F)
    (meshes : List (Mesh (Vec3 F))) (geomID primID : Nat) (ray : Ray F) : Ray F :=
  let mesh := meshes.getD geomID default
  let v0 := mesh.x_.getD (mesh.tris_.getD primID default).v0 ⟨A.zero, A.zero, A.zero⟩
  let v1 := mesh.x_.getD (mesh.tris_.getD primID default).v1 ⟨A.zero, A.zero, A.zero⟩
  let v2 := mesh.x_.getD (mesh.tris_.getD primID default).v2 ⟨A.zero, A.zero, A.zero⟩
  let e1 := A.vsub v0 v1
  let e2 := A.vsub v2 v0
  let Ng := A.cross e1 e2
  /- calculate denominator -/
  let O := ray.org
  let D := ray.dir
  let C := A.vsub v0 O
  let R := A.cross D C
  let den := A.dot Ng D
  let rcpDen := A.rcp den
  /- perform edge tests -/
  let u := A.mul (A.dot R e2) rcpDen
  let v := A.mul (A.dot R e1) rcpDen
  /- perform backface culling -/
  let valid := !(A.eq den A.zero) && A.le A.zero u && A.le A.zero v
    && A.le (A.add u v) A.one
  if !valid then ray
  else
    /- perform depth test -/
    let t := A.mul (A.dot Ng C) rcpDen
    let valid := valid && (A.lt ray.tnear t && A.lt t ray.tfar)
    if !valid then ray
    else
      /- update hit -/
      { ray with tfar := t, u := u, v := v, geomID := geomID, primID := primID, Ng := Ng }

/-- The denominator as the code computes it, `den = dot(cross(v0-v1, v2-v0), dir)`. -/
def computed_den {F : Type} (A : FloatOps F) (v0 v1 v2 : Vec3 F) (ray : Ray F) : F :=
  A.dot (A.cross (A.vsub v0 v1) (A.vsub v2 v0)) ray.dir

/-- The coordinate `u` as the code computes it: `dot(cross(dir, v0-org), v2-v0)` times the
reciprocal `rcp(den)`. -/
def computed_u {F : Type} (A : FloatOps F) (v0 v1 v2 : Vec3 F) (ray : Ray F) : F :=
  A.mul (A.dot (A.cross ray.dir (A.vsub v0 ray.org)) (A.vsub v2 v0))
    (A.rcp (computed_den A v0 v1 v2 ray))

/-- The coordinate `v` as the code computes it: `dot(cross(dir, v0-org), v0-v1)` times the
reciprocal `rcp(den)`. -/
def computed_v {F : Type} (A : FloatOps F) (v0 v1 v2 : Vec3 F) (ray : Ray F) : F :=
  A.mul (A.dot (A.cross ray.dir (A.vsub v0 ray.org)) (A.vsub v0 v1))
    (A.rcp (computed_den A v0 v1 v2 ray))

/-- The distance `t` as the code computes it: `dot(Ng, v0-org)` times the reciprocal
`rcp(den)`, with `Ng = cross(v0-v1, v2-v0)`. -/
def computed_t {F : Type} (A : FloatOps F) (v0 v1 v2 : Vec3 F) (ray : Ray F) : F :=
  A.mul (A.dot (A.cross (A.vsub v0 v1) (A.vsub v2 v0)) (A.vsub v0 ray.org))
    (A.rcp (computed_den A v0 v1 v2 ray))

/-- The four range checks `den != 0`, `u >= 0`, `v >= 0`, `u+v <= 1` on the computed
values. -/
def range_checks {F : Type} (A : FloatOps F) (v0 v1 v2 : Vec3 F) (ray : Ray F) : Bool :=
  !(A.eq (computed_den A v0 v1 v2 ray) A.zero) && A.le A.zero (computed_u A v0 v1 v2 ray)
    && A.le A.zero (computed_v A v0 v1 v2 ray)
    && A.le (A.add (computed_u A v0 v1 v2 ray) (computed_v A v0 v1 v2 ray)) A.one

/-- The hit condition on the computed values: the range checks and `tnear < t < tfar`. -/
def computed_hit {F : Type} (A : FloatOps F) (v0 v1 v2 : Vec3 F) (ray : Ray F) : Bool :=
  range_checks A v0 v1 v2 ray
    && (A.lt ray.tnear (computed_t A v0 v1 v2 ray) && A.lt (computed_t A v0 v1 v2 ray) ray.tfar)

/-- The three vertex reads `mesh.x_[mesh.tris_[primID].v0]`, `...v1`, `...v2` of the ray
callback. -/
def stored_vertices {F : Type} (A : FloatOps F) (meshes : List (Mesh (Vec3 F)))
    (geomID primID : Nat) : Vec3 F × Vec3 F × Vec3 F :=
  let mesh := meshes.getD geomID default
  (mesh.x_.getD (mesh.tris_.getD primID default).v0 ⟨A.zero, A.zero, A.zero⟩,
   mesh.x_.getD (mesh.tris_.getD primID default).v1 ⟨A.zero, A.zero, A.zero⟩,
   mesh.x_.getD (mesh.tris_.getD primID default).v2 ⟨A.zero, A.zero, A.zero⟩)

/-- The exact arithmetic of an ordered field as an instance: with it the callback is
`triangle_intersect_func`. -/
def exactOps (K : Type) [LinearOrderedField K] : FloatOps K where
  zero := 0
  one := 1
  add := fun a b => a + b
  mul := fun a b => a * b
  rcp := rcp
  vsub := Vec3.sub
  cross := cross
  dot := dot
  eq := fun a b => decide (a = b)
  lt := fun a b => decide (a < b)
  le := fun a b => decide (a ≤ b)

/-! ### Testing several triangles on one ray -/

/-- Modelled from the spec: the traversal (absent from `src/`) tests the primitives
`(geomID, primID)` of `seq` one after another with `triangle_intersect_func` on the same
ray. -/
def test_sequence {F : Type} (A : FloatOps F) (meshes : List (Mesh (Vec3 F)))
    (seq : List (Nat × Nat)) (ray : Ray F) : Ray F :=
  seq.foldl (fun r gp => triangle_intersect_func_arith A meshes gp.1 gp.2 r) ray

/-- In the words of the specification: the triangle `gp` passes the range checks and its
computed distance lies in `(tnear, tfar)` of `ray`. -/
def passes_checks {F : Type} (A : FloatOps F) (meshes : List (Mesh (Vec3 F)))
    (ray : Ray F) (gp : Nat × Nat) : Bool :=
  computed_hit A (stored_vertices A meshes gp.1 gp.2).1 (stored_vertices A meshes gp.1 gp.2).2.1
    (stored_vertices A meshes gp.1 gp.2).2.2 ray

/-- The computed distance `t` of the triangle `gp` along `ray`. -/
def distance_t {F : Type} (A : FloatOps F) (meshes : List (Mesh (Vec3 F)))
    (ray : Ray F) (gp : Nat × Nat) : F :=
  computed_t A (stored_vertices A meshes gp.1 gp.2).1 (stored_vertices A meshes gp.1 gp.2).2.1
    (stored_vertices A meshes gp.1 gp.2).2.2 ray

/-! ## Single precision

A model of the scalar type `float` of the code, good for evaluating the callback on given
inputs: the finite values `m * 2^e`, the two infinities and NaN, every operation rounded to
the nearest value of 24 significant bits, ties to the even one, with gradual underflow and
overflow to infinity.  The sign of a zero is not recorded. -/

/-- Modelled from the spec: the values of `float` (IEEE 754 binary32, not defined in
`src/`).  `fin m e` stands for `m * 2^e`; several pairs stand for the same number, and the
comparisons `eq`, `lt`, `le` compare numbers, not pairs. -/
inductive F32 where
  | fin (m : Int) (e : Int)
  | inf (neg : Bool)
  | nan
  deriving DecidableEq, Repr

namespace F32

/-- Number of binary digits of `n`, by halving; `fuel` bounds the recursion. -/
def bitLengthAux : Nat → Nat → Nat
  | 0, _ => 0
  | fuel + 1, n => if n = 0 then 0 else 1 + bitLengthAux fuel (n / 2)

/-- Number of binary digits of `n` (`0` for `0`). -/
def bitLength (n : Nat) : Nat := bitLengthAux n n

/-- The value `± n * 2^e` for `n` of at most 24 digits and `e ≥ -149`, brought to the
form with a 24-digit mantissa (or exponent `-149` for a subnormal); infinity when it
exceeds the largest finite value. -/
def pack (neg : Bool) (n : Nat) (e : Int) : F32 :=
  if n = 0 then fin 0 0
  else if (bitLength n : Int) + e > 128 then inf neg
  else
    let k : Nat := (min (24 - (bitLength n : Int)) (e + 149)).toNat
    fin ((if neg then -1 else 1) * (n * 2 ^ k : Nat)) (e - k)

/-- Modelled from the spec: rounding of the exact value `m * 2^e` to `float`, to the
nearest value, ties to the even mantissa. -/
def round (m e : Int) : F32 :=
  let n := m.natAbs
  let shift : Int := max ((bitLength n : Int) - 24) (-149 - e)
  if shift ≤ 0 then pack (decide (m < 0)) n e
  else
    let s := shift.toNat
    let q := n / 2 ^ s
    let r := n % 2 ^ s
    let half := 2 ^ (s - 1)
    let q1 := if r > half ∨ (r = half ∧ q % 2 = 1) then q + 1 else q
    pack (decide (m < 0)) q1 (e + s)

/-- Modelled from the spec: `+` of `float`, the exact sum rounded. -/
def add : F32 → F32 → F32
  | nan, _ => nan
  | _, nan => nan
  | inf a, inf b => if a = b then inf a else nan
  | inf a, fin _ _ => inf a
  | fin _ _, inf b => inf b
  | fin m1 e1, fin m2 e2 =>
    round (m1 * 2 ^ (e1 - min e1 e2).toNat + m2 * 2 ^ (e2 - min e1 e2).toNat) (min e1 e2)

/-- Modelled from the spec: unary `-` of `float`. -/
def neg : F32 → F32
  | nan => nan
  | inf a => inf (!a)
  | fin m e => fin (-m) e

/-- Modelled from the spec: binary `-` of `float`. -/
def sub (a b : F32) : F32 := add a (neg b)

/-- Modelled from the spec: `*` of `float`, the exact product rounded. -/
def mul : F32 → F32 → F32
  | nan, _ => nan
  | _, nan => nan
  | inf a, inf b => inf (a != b)
  | inf a, fin m _ => if m = 0 then nan else inf (a != decide (m < 0))
  | fin m _, inf b => if m = 0 then nan else inf (decide (m < 0) != b)
  | fin m1 e1, fin m2 e2 => round (m1 * m2) (e1 + e2)

/-- Modelled from the spec: `rcp` of the math library (absent from `src/`), taken here as
the correctly rounded reciprocal: the quotient to 64 further digits with a sticky digit,
rounded.  `rcp(0)` is infinity and `rcp` of an infinity is zero. -/
def rcp : F32 → F32
  | nan => nan
  | inf _ => fin 0 0
  | fin m e =>
    if m = 0 then inf false
    else
      let n := m.natAbs
      let k := bitLength n + 64
      let q := 2 ^ k / n
      let sticky := if 2 ^ k % n = 0 then 0 else 1
      round ((if m < 0 then -1 else 1) * ((2 * q + sticky : Nat) : Int)) (-(k : Int) - 1 - e)

/-- Modelled from the spec: `<` of `float`; false when an operand is NaN. -/
def lt : F32 → F32 → Bool
  | nan, _ => false
  | _, nan => false
  | inf a, inf b => a && !b
  | inf a, fin _ _ => a
  | fin _ _, inf b => !b
  | fin m1 e1, fin m2 e2 =>
    decide (m1 * 2 ^ (e1 - min e1 e2).toNat < m2 * 2 ^ (e2 - min e1 e2).toNat)

/-- Modelled from the spec: `==` of `float`; false when an operand is NaN. -/
def eq : F32 → F32 → Bool
  | nan, _ => false
  | _, nan => false
  | inf a, inf b => a == b
  | inf _, fin _ _ => false
  | fin _ _, inf _ => false
  | fin m1 e1, fin m2 e2 =>
    decide (m1 * 2 ^ (e1 - min e1 e2).toNat = m2 * 2 ^ (e2 - min e1 e2).toNat)

/-- Modelled from the spec: `<=` of `float`. -/
def le (a b : F32) : Bool := lt a b || eq a b

/-- The pair `fin m e` is a value of `float`: at most 24 digits, exponent at least `-149`,
magnitude below `2^128`. -/
def representable : F32 → Bool
  | fin m e =>
    decide (bitLength m.natAbs ≤ 24) && decide (-149 ≤ e)
      && decide ((bitLength m.natAbs : Int) + e ≤ 128)
  | _ => true

/-- The rational number a finite value stands for. -/
def toRat : F32 → Option ℚ
  | fin m e => some ((m : ℚ) * (2 : ℚ) ^ e)
  | _ => none

end F32

/-- Modelled from the spec: the arithmetic of the callback in single precision.  The vector
operations of the math library (absent from `src/`) are taken componentwise from their
usual formulas, every product and sum rounded, the three products of `dot` summed from left
to right. -/
def f32Ops : FloatOps F32 where
  zero := F32.fin 0 0
  one := F32.fin 1 0
  add := F32.add
  mul := F32.mul
  rcp := F32.rcp
  vsub := fun a b => ⟨a.x.sub b.x, a.y.sub b.y, a.z.sub b.z⟩
  cross := fun a b =>
    ⟨(a.y.mul b.z).sub (a.z.mul b.y), (a.z.mul b.x).sub (a.x.mul b.z),
     (a.x.mul b.y).sub (a.y.mul b.x)⟩
  dot := fun a b => ((a.x.mul b.x).add (a.y.mul b.y)).add (a.z.mul b.z)
  eq := F32.eq
  lt := F32.lt
  le := F32.le

/-- Triangle `A` in single precision: `(0,0,0), (1,0,0), (0,1,0)`. -/
def meshA32 : Mesh (Vec3 F32) :=
  ⟨[⟨F32.fin 0 0, F32.fin 0 0, F32.fin 0 0⟩, ⟨F32.fin 1 0, F32.fin 0 0, F32.fin 0 0⟩,
    ⟨F32.fin 0 0, F32.fin 1 0, F32.fin 0 0⟩],
   [⟨0, 1, 2⟩]⟩

/-- A ray falling from `(1/2, 1/2 + 2^-24, 1)` along `(0,0,-1)` with `tnear = 0`,
`tfar = 10` and a record naming geometry 99, primitive 99.  In exact arithmetic
`u + v = 1 + 2^-24 > 1`; in single precision the sum rounds to `1`. -/
def sampleEdgeRay : Ray F32 :=
  { org := ⟨F32.fin 1 (-1), F32.fin 8388609 (-24), F32.fin 1 0⟩
    dir := ⟨F32.fin 0 0, F32.fin 0 0, F32.fin (-1) 0⟩
    tnear := F32.fin 0 0
    tfar := F32.fin 10 0
    u := F32.fin 0 0
    v := F32.fin 0 0
    geomID := 99
    primID := 99
    Ng := ⟨F32.fin 0 0, F32.fin 0 0, F32.fin 0 0⟩ }

/-- A ray falling from `(2, 2, 1)` along `(0,0,-1)`: beside triangle `A`, `u + v = 4`. -/
def sampleMiss32 : Ray F32 :=
  { sampleEdgeRay with org := ⟨F32.fin 2 0, F32.fin 2 0, F32.fin 1 0⟩ }

/-- A ray falling on triangle `A` from `(1/4, 1/4, 1)` whose `tfar` is NaN. -/
def sampleNanRay : Ray F32 :=
  { sampleEdgeRay with
    org := ⟨F32.fin 1 (-2), F32.fin 1 (-2), F32.fin 1 0⟩
    tfar := F32.nan }

/-- A triangle of three points of the line `y = x/3`, `z = 0`:
`(12288, 4096, 0)`, `(3/2048, 1/2048, 0)`, `(12297, 4099, 0)`. -/
def meshCollinear : Mesh (Vec3 F32) :=
  ⟨[⟨F32.fin 12288 0, F32.fin 4096 0, F32.fin 0 0⟩,
    ⟨F32.fin 3 (-11), F32.fin 1 (-11), F32.fin 0 0⟩,
    ⟨F32.fin 12297 0, F32.fin 4099 0, F32.fin 0 0⟩],
   [⟨0, 1, 2⟩]⟩

/-- A ray falling from `(12288, 4096, 1)` along `(0,0,-1)` with `tnear = 0`, `tfar = 10`. -/
def sampleCollinearRay : Ray F32 :=
  { sampleEdgeRay with org := ⟨F32.fin 12288 0, F32.fin 4096 0, F32.fin 1 0⟩ }

/-- Two copies of triangle `A` at heights `0` and `1/2`, in single precision. -/
def meshStack32 : Mesh (Vec3 F32) :=
  ⟨[⟨F32.fin 0 0, F32.fin 0 0, F32.fin 0 0⟩, ⟨F32.fin 1 0, F32.fin 0 0, F32.fin 0 0⟩,
    ⟨F32.fin 0 0, F32.fin 1 0, F32.fin 0 0⟩,
    ⟨F32.fin 0 0, F32.fin 0 0, F32.fin 1 (-1)⟩, ⟨F32.fin 1 0, F32.fin 0 0, F32.fin 1 (-1)⟩,
    ⟨F32.fin 0 0, F32.fin 1 0, F32.fin 1 (-1)⟩],
   [⟨0, 1, 2⟩, ⟨3, 4, 5⟩]⟩

/-- A ray falling on the stacked triangles from `(1/4, 1/4, 1)`. -/
def sampleStackRay : Ray F32 :=
  { sampleEdgeRay with org := ⟨F32.fin 1 (-2), F32.fin 1 (-2), F32.fin 1 0⟩ }

/-- The rational vector a vector of finite values stands for. -/
def F32.vecToRat (a : Vec3 F32) : Option (Vec3 ℚ) :=
  match a.x.toRat, a.y.toRat, a.z.toRat with
  | some x, some y, some z => some ⟨x, y, z⟩
  | _, _, _ => none

/-- Every coordinate of the vector is a value of `float`. -/
def F32.vecRepresentable (a : Vec3 F32) : Bool :=
  a.x.representable && a.y.representable && a.z.representable

/-- A ray running inside the plane of triangle `A`, from `(-1, 1/4, 0)` along `(1,0,0)`,
in single precision. -/
def sampleParallel32 : Ray F32 :=
  { sampleEdgeRay with
    org := ⟨F32.fin (-1) 0, F32.fin 1 (-2), F32.fin 0 0⟩
    dir := ⟨F32.fin 1 0, F32.fin 0 0, F32.fin 0 0⟩ }

/-! ## Several threads running `CollideFunc`

An interleaving model.  Every thread runs one call of `CollideFunc` on a batch of its own.
What a call does to the lock and to the shared list is the event trace of the embedded
`CollideFunc`: nothing when no candidate survives, and otherwise the acquisition of the
lock, the `push_back`s, the release.  The filtering loop before it touches only the batch
of the thread and reads the registry, so the trace does not depend on the other threads
nor on the list.  The threads take their events one at a time, in any order. -/

/-- Modelled from the spec: the threads of the traversal that call the callback are not
part of `src/`.  The state shared by them: the global `mutex` (`SpinLock`, absent from
`src/`; free, or held by a thread), the list behind `userPtr`, and for every thread the
events of its call that are still to come. -/
structure SharedState where
  mutex : Option Nat
  sim_collisions : Collisions
  pending : List (List Event)
  deriving DecidableEq, Repr

/-- Modelled from the spec: one atomic step of thread `t`, its next event.  The lock is a
mutual-exclusion primitive: `acquire` succeeds only when the lock is free, and a thread
that finds it held spins (the state is unchanged); `push_back` appends to the shared list,
with or without the lock; `release` frees the lock.  A thread without events left has
returned. -/
def thread_step (t : Nat) (s : SharedState) : SharedState :=
  match s.pending.getD t [] with
  | [] => s
  | Event.acquire :: rest =>
    match s.mutex with
    | none => { s with mutex := some t, pending := s.pending.set t rest }
    | some _ => s
  | Event.push_back c :: rest =>
    { s with sim_collisions := s.sim_collisions ++ [c], pending := s.pending.set t rest }
  | Event.release :: rest => { s with mutex := none, pending := s.pending.set t rest }

/-- Modelled from the spec: an interleaving, the state after the threads named by
`schedule` took one step each, in that order. -/
def run_schedule (schedule : List Nat) (s : SharedState) : SharedState :=
  schedule.foldl (fun st t => thread_step t st) s

/-- The events of one call of `CollideFunc` on the batch `call`, in program order. -/
def call_events {V : Type} [Inhabited V] (isect : V → V → V → V → V → V → Bool)
    (meshes : List (Mesh V)) (call : List RTCCollision × Nat) : List Event :=
  (CollideFunc isect meshes [] call.1 call.2).trace

/-- All threads at the start of their call, the lock free, the list `userPtr`; thread `t`
runs `CollideFunc` on the batch `calls[t]`. -/
def initial_state {V : Type} [Inhabited V] (isect : V → V → V → V → V → V → Bool)
    (meshes : List (Mesh V)) (userPtr : Collisions)
    (calls : List (List RTCCollision × Nat)) : SharedState :=
  ⟨none, userPtr, calls.map (call_events isect meshes)⟩

/-- Every thread has returned. -/
def all_returned (s : SharedState) : Bool := s.pending.all List.isEmpty

/-- The number of events still to come, over all threads. -/
def remaining (s : SharedState) : Nat := (s.pending.map List.length).sum

/-- The survivors of the call of thread `t`: the entries `CollideFunc` appends to an empty
list on the batch `calls[t]`; threads beyond `calls` have no call. -/
def call_block {V : Type} [Inhabited V] (isect : V → V → V → V → V → V → Bool)
    (meshes : List (Mesh V)) (calls : List (List RTCCollision × Nat)) (t : Nat) :
    List Collision :=
  match calls[t]? with
  | some call => (CollideFunc isect meshes [] call.1 call.2).userPtr
  | none => []

/-- The events of a call that appends the entries `b`: none when `b` is empty, otherwise
the acquisition, one `push_back` per entry, the release. -/
def block_events (b : List Collision) : List Event :=
  if b = [] then [] else Event.acquire :: b.map Event.push_back ++ [Event.release]

/-- The invariant of the interleavings of `T` threads whose calls have the events
`block_events (block t)`: `done` lists the threads that have released the lock, in the
order of their release; the list is `userPtr`, then their blocks in that order, then what
the holder of the lock has pushed so far; every other thread has all its events to come. -/
def lock_invariant (block : Nat → List Collision) (T : Nat) (userPtr : Collisions)
    (s : SharedState) : Prop :=
  s.pending.length = T
    ∧ ∃ done : List Nat, done.Nodup ∧ (∀ t ∈ done, t < T ∧ s.pending.getD t [] = [])
      ∧ ((s.mutex = none
            ∧ (∀ t, t < T → t ∉ done → s.pending.getD t [] = block_events (block t))
            ∧ s.sim_collisions = userPtr ++ (done.map block).flatten)
        ∨ (∃ h pre rest, s.mutex = some h ∧ h < T ∧ h ∉ done ∧ block h = pre ++ rest
            ∧ s.pending.getD h [] = rest.map Event.push_back ++ [Event.release]
            ∧ (∀ t, t < T → t ∉ done → t ≠ h →
                s.pending.getD t [] = block_events (block t))
            ∧ s.sim_collisions = userPtr ++ (done.map block).flatten ++ pre))

/-- Three calls over `[meshStrip, meshFlat]`: the sample batch, a batch that is rejected
entirely, and a batch of one crossing pair. -/
def sampleCalls : List (List RTCCollision × Nat) :=
  [(sampleBatch, 5), ([⟨0, 1, 0, 1⟩, ⟨0, 0, 0, 1⟩], 2), ([⟨0, 1, 0, 2⟩], 1)]

/-- An interleaving of the three calls: thread 2 takes the lock first, thread 0 spins
meanwhile and appends after the release; thread 1 has nothing to append. -/
def sampleSchedule : List Nat := [2, 0, 2, 0, 1, 2, 0, 0, 0, 0]

/-- Two threads that push two entries each without taking the lock. -/
def unlockedState : SharedState :=
  ⟨none, [],
   [[Event.push_back ((0, 0), (0, 1)), Event.push_back ((0, 0), (0, 2))],
    [Event.push_back ((1, 0), (1, 1)), Event.push_back ((1, 0), (1, 2))]]⟩

/-- A triangle with edges of length `2^70`: `(0,0,0), (2^70,0,0), (0,2^70,0)`. -/
def meshHuge32 : Mesh (Vec3 F32) :=
  ⟨[⟨F32.fin 0 0, F32.fin 0 0, F32.fin 0 0⟩, ⟨F32.fin 1 70, F32.fin 0 0, F32.fin 0 0⟩,
    ⟨F32.fin 0 0, F32.fin 1 70, F32.fin 0 0⟩],
   [⟨0, 1, 2⟩]⟩

/-- A ray falling on the large triangle from `(2^68, 2^68, 1)` along `(0,0,-1)`. -/
def sampleHugeRay : Ray F32 :=
  { sampleEdgeRay with org := ⟨F32.fin 1 68, F32.fin 1 68, F32.fin 1 0⟩ }

/-! ## Lemmas on the filtering loop -/

theorem getD_middle {α : Type} (pre : List α) (x : α) (post : List α) (d : α) :
    (pre ++ x :: post).getD pre.length d = x := by
  rw [List.getD_eq_getElem?_getD, List.getElem?_append_right (Nat.le_refl _)]
  simp

theorem set_middle {α : Type} (pre : List α) (x y : α) (post : List α) :
    (pre ++ x :: post).set pre.length y = pre ++ y :: post := by
  simp

/-- The loop on an array `pre ++ W ++ post`, started at the first index of the window `W`
with `num_collisions` at its end: the window is rewritten to `s ++ st`, the survivors `s`
followed by stale entries `st`; `pre` and `post` are not touched. -/
theorem filterLoop_window (pred : RTCCollision → Bool) :
    ∀ (steps : Nat) (pre W post : List RTCCollision), W.length ≤ steps →
      ∃ s st : List RTCCollision,
        filterLoop pred steps (pre ++ W ++ post) pre.length (pre.length + W.length)
            = (pre ++ s ++ st ++ post, pre.length + s.length)
          ∧ s.Perm (W.filter pred) ∧ (∀ x ∈ s, pred x = true)
          ∧ s.length + st.length = W.length ∧ (∀ x ∈ st, x ∈ W) := by
  intro steps
  induction steps with
  | zero =>
    intro pre W post h
    have hW : W = [] := List.length_eq_zero.mp (Nat.le_zero.mp h)
    subst hW
    exact ⟨[], [], by simp [filterLoop], by simp, by simp, by simp, by simp⟩
  | succ steps ih =>
    intro pre W post h
    cases W with
    | nil => exact ⟨[], [], by simp [filterLoop], by simp, by simp, by simp, by simp⟩
    | cons x t =>
      have hlt : pre.length < pre.length + (x :: t).length := by simp
      have hget : (pre ++ x :: t ++ post).getD pre.length default = x := by
        rw [List.append_assoc, List.cons_append]; exact getD_middle _ _ _ _
      by_cases hp : pred x = true
      · -- the candidate passes: `i++`
        have hstep : filterLoop pred (steps + 1) (pre ++ x :: t ++ post) pre.length
            (pre.length + (x :: t).length)
            = filterLoop pred steps ((pre ++ [x]) ++ t ++ post) (pre ++ [x]).length
                ((pre ++ [x]).length + t.length) := by
          rw [filterLoop, if_pos hlt, hget, if_pos hp]
          simp [Nat.add_assoc, Nat.add_comm 1]
        obtain ⟨s, st, he, hperm, hall, hlen, hmem⟩ :=
          ih (pre ++ [x]) t post (by simpa using h)
        refine ⟨x :: s, st, ?_, ?_, ?_, ?_, ?_⟩
        · rw [hstep, he]; simp [Nat.add_assoc, Nat.add_comm 1]
        · simpa [List.filter_cons, hp] using hperm
        · intro y hy
          rcases List.mem_cons.mp hy with rfl | hy
          · exact hp
          · exact hall y hy
        · simp; omega
        · intro y hy; exact List.mem_cons_of_mem _ (hmem y hy)
      · -- the candidate fails: `collisions[i] = collisions[--num_collisions]`
        rcases List.eq_nil_or_concat t with ht | ⟨t', l, ht⟩
        · subst ht
          have hstep : filterLoop pred (steps + 1) (pre ++ [x] ++ post) pre.length
              (pre.length + [x].length)
              = filterLoop pred steps (pre ++ [] ++ (x :: post)) pre.length
                  (pre.length + ([] : List RTCCollision).length) := by
            rw [filterLoop, if_pos hlt, hget, if_neg hp]
            have h1 : pre.length + [x].length - 1 = pre.length := by simp
            rw [h1, hget]
            simp
          obtain ⟨s, st, he, hperm, hall, hlen, hmem⟩ :=
            ih pre [] (x :: post) (by simp)
          have hs : s = [] := by simpa using hperm
          have hst : st = [] := by
            subst hs; simpa using hlen
          subst hs; subst hst
          refine ⟨[], [x], ?_, ?_, ?_, ?_, ?_⟩
          · rw [hstep, he]; simp
          · simp [List.filter_cons, hp]
          · simp
          · simp
          · simp
        · rw [List.concat_eq_append] at ht
          subst ht
          have hlast : (pre ++ x :: (t' ++ [l]) ++ post).getD
              (pre.length + (x :: (t' ++ [l])).length - 1) default = l := by
            have h1 : pre.length + (x :: (t' ++ [l])).length - 1 = (pre ++ x :: t').length := by
              simp
            have h2 : pre ++ x :: (t' ++ [l]) ++ post = (pre ++ x :: t') ++ l :: post := by
              simp
            rw [h1, h2]; exact getD_middle _ _ _ _
          have hstep : filterLoop pred (steps + 1) (pre ++ x :: (t' ++ [l]) ++ post) pre.length
              (pre.length + (x :: (t' ++ [l])).length)
              = filterLoop pred steps (pre ++ (l :: t') ++ (l :: post)) pre.length
                  (pre.length + (l :: t').length) := by
            rw [filterLoop, if_pos hlt, hget, if_neg hp, hlast]
            have h2 : pre ++ x :: (t' ++ [l]) ++ post = pre ++ x :: (t' ++ l :: post) := by
              simp
            rw [h2, set_middle]
            simp
          obtain ⟨s, st, he, hperm, hall, hlen, hmem⟩ :=
            ih pre (l :: t') (l :: post) (by simpa using h)
          refine ⟨s, st ++ [l], ?_, ?_, ?_, ?_, ?_⟩
          · rw [hstep, he]; simp
          · refine hperm.trans ?_
            have : (l :: t').Perm (t' ++ [l]) := by
              simpa using (List.perm_append_comm : ([l] ++ t').Perm (t' ++ [l]))
            simpa [List.filter_cons, hp] using this.filter pred
          · exact hall
          · simp at hlen ⊢; omega
          · intro y hy
            rcases List.mem_append.mp hy with hy | hy
            · have := hmem y hy
              simp at this ⊢
              rcases this with rfl | h'
              · exact Or.inr (Or.inr rfl)
              · exact Or.inr (Or.inl h')
            · simp at hy; subst hy; simp

/-- When every entry of the window passes, the loop changes nothing. -/
theorem filterLoop_all_pass (pred : RTCCollision → Bool) :
    ∀ (steps : Nat) (pre W post : List RTCCollision), W.length ≤ steps →
      (∀ x ∈ W, pred x = true) →
      filterLoop pred steps (pre ++ W ++ post) pre.length (pre.length + W.length)
        = (pre ++ W ++ post, pre.length + W.length) := by
  intro steps
  induction steps with
  | zero =>
    intro pre W post h _
    simp [filterLoop]
  | succ steps ih =>
    intro pre W post h hall
    cases W with
    | nil => simp [filterLoop]
    | cons x t =>
      have hlt : pre.length < pre.length + (x :: t).length := by simp
      have hget : (pre ++ x :: t ++ post).getD pre.length default = x := by
        rw [List.append_assoc, List.cons_append]; exact getD_middle _ _ _ _
      have hp : pred x = true := hall x (List.mem_cons_self _ _)
      rw [filterLoop, if_pos hlt, hget, if_pos hp]
      have := ih (pre ++ [x]) t post (by simpa using h)
        (fun y hy => hall y (List.mem_cons_of_mem _ hy))
      simpa [Nat.add_assoc, Nat.add_comm 1] using this

/-- The loop on a batch of `n` candidates at the front of the array. -/
theorem filterLoop_batch (pred : RTCCollision → Bool) (collisions : List RTCCollision)
    (n : Nat) (h : n ≤ collisions.length) :
    ∃ s st : List RTCCollision,
      filterLoop pred n collisions 0 n = (s ++ st ++ collisions.drop n, s.length)
        ∧ s.Perm ((collisions.take n).filter pred) ∧ (∀ x ∈ s, pred x = true)
        ∧ s.length + st.length = n ∧ (∀ x ∈ st, x ∈ collisions.take n) := by
  have hlen : (collisions.take n).length = n := by simp [h]
  obtain ⟨s, st, he, h1, h2, h3, h4⟩ :=
    filterLoop_window pred n [] (collisions.take n) (collisions.drop n) (by simp)
  refine ⟨s, st, ?_, h1, h2, by omega, h4⟩
  simp only [List.nil_append, List.length_nil, Nat.zero_add, List.take_append_drop] at he
  rw [hlen] at he
  exact he

/-- The append loop pushes the first `n` array entries, in order. -/
theorem pushLoop_eq (collisions : List RTCCollision) (userPtr : Collisions)
    (trace : List Event) :
    ∀ n : Nat, n ≤ collisions.length →
      pushLoop collisions n userPtr trace
        = (userPtr ++ (collisions.take n).map make_collision,
           trace ++ (collisions.take n).map (fun c => Event.push_back (make_collision c))) := by
  intro n
  induction n with
  | zero => intro _; simp [pushLoop]
  | succ n ih =>
    intro h
    have hn : n < collisions.length := h
    have ih' := ih (Nat.le_of_lt hn)
    unfold pushLoop at ih' ⊢
    rw [List.range_succ, List.foldl_append, ih']
    have hget : collisions.getD n default = collisions[n] := by
      simp [List.getD_eq_getElem?_getD, hn]
    simp only [List.foldl_cons, List.foldl_nil]
    rw [hget, List.take_succ, List.getElem?_eq_getElem hn]
    simp only [Option.toList, List.map_append, List.map_cons, List.map_nil, List.append_assoc]

/-- The state after a call, in terms of the survivors `s` and the stale entries `st` left
behind them in the array. -/
theorem CollideFunc_state {V : Type} [Inhabited V]
    (isect : V → V → V → V → V → V → Bool) (meshes : List (Mesh V))
    (userPtr : Collisions) (collisions : List RTCCollision) (n : Nat)
    (h : n ≤ collisions.length) :
    ∃ s st : List RTCCollision,
      s.Perm ((collisions.take n).filter (intersect_candidate isect meshes))
        ∧ (∀ x ∈ s, intersect_candidate isect meshes x = true)
        ∧ s.length + st.length = n ∧ (∀ x ∈ st, x ∈ collisions.take n)
        ∧ (CollideFunc isect meshes userPtr collisions n).collisions
            = s ++ st ++ collisions.drop n
        ∧ (CollideFunc isect meshes userPtr collisions n).num_collisions = s.length
        ∧ (CollideFunc isect meshes userPtr collisions n).userPtr
            = userPtr ++ s.map make_collision
        ∧ (CollideFunc isect meshes userPtr collisions n).trace
            = (if s = [] then []
               else Event.acquire :: s.map (fun c => Event.push_back (make_collision c))
                      ++ [Event.release])
        ∧ (CollideFunc isect meshes userPtr collisions n).meshes = meshes := by
  obtain ⟨s, st, he, h1, h2, h3, h4⟩ :=
    filterLoop_batch (intersect_candidate isect meshes) collisions n h
  refine ⟨s, st, h1, h2, h3, h4, ?_⟩
  by_cases hs : s = []
  · subst hs
    simp [CollideFunc, he]
  · have hne : s.length ≠ 0 := fun h0 => hs (List.length_eq_zero.mp h0)
    have hle : s.length ≤ (s ++ st ++ List.drop n collisions).length := by simp
    have htake : (s ++ st ++ List.drop n collisions).take s.length = s := by
      rw [List.append_assoc, List.take_left]
    unfold CollideFunc
    simp only [he, pushLoop_eq _ _ _ _ hle, htake]
    simp [hne, hs]

/-! ## Lemmas on `intersect_triangle_triangle` -/

theorem getD_of_getElem? {α : Type} {xs : List α} {i : Nat} {a : α} (d : α)
    (h : xs[i]? = some a) : xs.getD i d = a := by
  simp [List.getD_eq_getElem?_getD, h]

theorem intersect_triangle_triangle_self {V : Type} [Inhabited V]
    (isect : V → V → V → V → V → V → Bool) (meshes : List (Mesh V)) (g p : Nat) :
    intersect_triangle_triangle isect meshes g p g p = false := by
  simp [intersect_triangle_triangle]

theorem topological_neighbors_eq (tri0 tri1 : Triangle) :
    topological_neighbors tri0 tri1 = shares_vertex_index tri0 tri1 := by
  simp only [topological_neighbors, shares_vertex_index, any, vint4.eq, vint4.broadcast,
    List.any_cons, List.any_nil, Bool.or_false]
  cases (tri1.v0 == tri0.v0) <;> cases (tri1.v0 == tri0.v1) <;> cases (tri1.v0 == tri0.v2) <;>
  cases (tri1.v1 == tri0.v0) <;> cases (tri1.v1 == tri0.v1) <;> cases (tri1.v1 == tri0.v2) <;>
  cases (tri1.v2 == tri0.v0) <;> cases (tri1.v2 == tri0.v1) <;> cases (tri1.v2 == tri0.v2) <;>
  rfl

theorem shares_vertex_index_iff (tri0 tri1 : Triangle) :
    shares_vertex_index tri0 tri1 = true ↔
      ∃ i ∈ [tri1.v0, tri1.v1, tri1.v2], ∃ j ∈ [tri0.v0, tri0.v1, tri0.v2], i = j := by
  simp [shares_vertex_index]

/-- The predicate when every array access is in range: the two guards, then the
intersector on the six stored positions. -/
theorem intersect_triangle_triangle_lookup {V : Type} [Inhabited V]
    (isect : V → V → V → V → V → V → Bool) (meshes : List (Mesh V))
    (g0 p0 g1 p1 : Nat) (mesh0 mesh1 : Mesh V) (tri0 tri1 : Triangle) (a0 a1 a2 b0 b1 b2 : V)
    (hm0 : meshes[g0]? = some mesh0) (hm1 : meshes[g1]? = some mesh1)
    (ht0 : mesh0.tris_[p0]? = some tri0) (ht1 : mesh1.tris_[p1]? = some tri1)
    (ha0 : mesh0.x_[tri0.v0]? = some a0) (ha1 : mesh0.x_[tri0.v1]? = some a1)
    (ha2 : mesh0.x_[tri0.v2]? = some a2) (hb0 : mesh1.x_[tri1.v0]? = some b0)
    (hb1 : mesh1.x_[tri1.v1]? = some b1) (hb2 : mesh1.x_[tri1.v2]? = some b2) :
    intersect_triangle_triangle isect meshes g0 p0 g1 p1
      = if g0 == g1 && p0 == p1 then false
        else if g0 == g1 && topological_neighbors tri0 tri1 then false
        else isect a0 a1 a2 b0 b1 b2 := by
  unfold intersect_triangle_triangle
  simp only [getD_of_getElem? _ hm0, getD_of_getElem? _ hm1, getD_of_getElem? _ ht0,
    getD_of_getElem? _ ht1, getD_of_getElem? _ ha0, getD_of_getElem? _ ha1,
    getD_of_getElem? _ ha2, getD_of_getElem? _ hb0, getD_of_getElem? _ hb1,
    getD_of_getElem? _ hb2]

/-! ## The collision callback -/

/-- C1: `CollideFunc` appends exactly the candidates that pass
`intersect_triangle_triangle`.  For a batch of `n` candidates at the front of the array, the
list grows by the image of the first `num_collisions` array entries; as multisets these
appended pairs are the passing candidates of the batch, each mapped to
`((geomID0,primID0),(geomID1,primID1))`, and the compacted prefix is the multiset of passing
candidates.  In particular one candidate of two different meshes that the intersector
reports as intersecting makes the list grow by exactly that pair. -/
theorem CollideFunc_appends_survivors {V : Type} [Inhabited V]
    (isect : V → V → V → V → V → V → Bool) (meshes : List (Mesh V))
    (userPtr : Collisions) (collisions : List RTCCollision) (n : Nat)
    (h : n ≤ collisions.length) :
    (CollideFunc isect meshes userPtr collisions n).userPtr
        = userPtr ++ ((CollideFunc isect meshes userPtr collisions n).collisions.take
            (CollideFunc isect meshes userPtr collisions n).num_collisions).map make_collision
      ∧ Multiset.ofList
          (((CollideFunc isect meshes userPtr collisions n).collisions.take
            (CollideFunc isect meshes userPtr collisions n).num_collisions).map make_collision)
        = Multiset.ofList
          (((collisions.take n).filter (fun c =>
              intersect_triangle_triangle isect meshes c.geomID0 c.primID0 c.geomID1 c.primID1)).map
            (fun c => ((c.geomID0, c.primID0), (c.geomID1, c.primID1))))
      ∧ Multiset.ofList
          ((CollideFunc isect meshes userPtr collisions n).collisions.take
            (CollideFunc isect meshes userPtr collisions n).num_collisions)
        = Multiset.ofList
          ((collisions.take n).filter (fun c =>
              intersect_triangle_triangle isect meshes c.geomID0 c.primID0 c.geomID1 c.primID1))
      ∧ (CollideFunc isect meshes userPtr collisions n).num_collisions
        = ((collisions.take n).filter (fun c =>
              intersect_triangle_triangle isect meshes c.geomID0 c.primID0 c.geomID1
                c.primID1)).length
      ∧ (∀ (g0 p0 g1 p1 : Nat) (mesh0 mesh1 : Mesh V) (tri0 tri1 : Triangle)
          (a0 a1 a2 b0 b1 b2 : V),
          g0 ≠ g1 →
          meshes[g0]? = some mesh0 → meshes[g1]? = some mesh1 →
          mesh0.tris_[p0]? = some tri0 → mesh1.tris_[p1]? = some tri1 →
          mesh0.x_[tri0.v0]? = some a0 → mesh0.x_[tri0.v1]? = some a1 →
          mesh0.x_[tri0.v2]? = some a2 → mesh1.x_[tri1.v0]? = some b0 →
          mesh1.x_[tri1.v1]? = some b1 → mesh1.x_[tri1.v2]? = some b2 →
          isect a0 a1 a2 b0 b1 b2 = true →
          (CollideFunc isect meshes userPtr [⟨g0, p0, g1, p1⟩] 1).userPtr
            = userPtr ++ [((g0, p0), (g1, p1))]) := by
  obtain ⟨s, st, hperm, _, _, _, hc, hn, hu, _, _⟩ :=
    CollideFunc_state isect meshes userPtr collisions n h
  have htake : (s ++ st ++ List.drop n collisions).take s.length = s := by
    rw [List.append_assoc, List.take_left]
  have hperm' : s.Perm ((collisions.take n).filter (fun c =>
      intersect_triangle_triangle isect meshes c.geomID0 c.primID0 c.geomID1 c.primID1)) :=
    hperm
  rw [hc, hn, hu, htake]
  refine ⟨rfl, ?_, Multiset.coe_eq_coe.mpr hperm', hperm'.length_eq, ?_⟩
  · exact Multiset.coe_eq_coe.mpr (hperm'.map _)
  · intro g0 p0 g1 p1 mesh0 mesh1 tri0 tri1 a0 a1 a2 b0 b1 b2 hg hm0 hm1 ht0 ht1 ha0 ha1 ha2
      hb0 hb1 hb2 hi
    have hpred : intersect_candidate isect meshes ⟨g0, p0, g1, p1⟩ = true := by
      unfold intersect_candidate
      rw [intersect_triangle_triangle_lookup isect meshes g0 p0 g1 p1 mesh0 mesh1 tri0 tri1
        a0 a1 a2 b0 b1 b2 hm0 hm1 ht0 ht1 ha0 ha1 ha2 hb0 hb1 hb2]
      simp [hg, hi]
    have hr : List.range 1 = [0] := rfl
    simp [CollideFunc, filterLoop, pushLoop, hpred, make_collision, hr]

/-- C1, instantiated: the triangles `A` and `B` of the end-to-end scenario, meshes 0 and 1,
submitted as the single candidate `(0,0,1,0)`. -/
theorem CollideFunc_appends_survivors_witness :
    1 ≤ [(⟨0, 0, 1, 0⟩ : RTCCollision)].length
      ∧ (CollideFunc straddle_oracle [meshA, meshB] [((7, 7), (8, 8))] [⟨0, 0, 1, 0⟩] 1).userPtr
          = [((7, 7), (8, 8))] ++ [((0, 0), (1, 0))] :=
  ⟨by decide,
   (CollideFunc_appends_survivors straddle_oracle [meshA, meshB] [((7, 7), (8, 8))]
      [⟨0, 0, 1, 0⟩] 1 (by decide)).2.2.2.2 0 0 1 0 meshA meshB ⟨0, 1, 2⟩ ⟨0, 1, 2⟩
      ⟨0, 0, 0⟩ ⟨1, 0, 0⟩ ⟨0, 1, 0⟩ ⟨1/2, 1/2, -1/2⟩ ⟨1/2, 1/2, 1/2⟩ ⟨1/2, -1/2, 0⟩
      (by decide) rfl rfl rfl rfl rfl rfl rfl rfl rfl rfl
      (by norm_num [straddle_oracle])⟩

/-- C2: self-pair exclusion.  `intersect_triangle_triangle(g,p,g,p)` is false for every
registry and all ids, and no entry that `CollideFunc` appends to the list has the same
(geometry id, primitive id) on both sides. -/
theorem self_pair_excluded {V : Type} [Inhabited V]
    (isect : V → V → V → V → V → V → Bool) (meshes : List (Mesh V)) :
    (∀ g p : Nat, intersect_triangle_triangle isect meshes g p g p = false)
      ∧ (∀ (userPtr : Collisions) (collisions : List RTCCollision) (n : Nat),
          n ≤ collisions.length →
          ∀ e ∈ (CollideFunc isect meshes userPtr collisions n).userPtr.drop userPtr.length,
            e.1 ≠ e.2) := by
  refine ⟨intersect_triangle_triangle_self isect meshes, ?_⟩
  intro userPtr collisions n h e he
  obtain ⟨s, st, _, hall, _, _, _, _, hu, _, _⟩ :=
    CollideFunc_state isect meshes userPtr collisions n h
  rw [hu, List.drop_left] at he
  obtain ⟨c, hc, rfl⟩ := List.mem_map.mp he
  intro heq
  have hp := hall c hc
  have h0 : c.geomID0 = c.geomID1 := congrArg Prod.fst heq
  have h1 : c.primID0 = c.primID1 := congrArg Prod.snd heq
  unfold intersect_candidate at hp
  rw [h0, h1, intersect_triangle_triangle_self] at hp
  exact Bool.false_ne_true hp

/-- C2, instantiated on the sample batch, which holds the self-pair `(0,1,0,1)`: the two
appended entries are `((0,0),(0,2))`, not a self-pair. -/
theorem self_pair_excluded_witness :
    5 ≤ sampleBatch.length
      ∧ ((0, 0), (0, 2)) ∈
          (CollideFunc straddle_oracle [meshStrip, meshFlat] [((7, 7), (8, 8))] sampleBatch
            5).userPtr.drop [((7, 7), (8, 8))].length
      ∧ (((0, 0), (0, 2)) : Collision).1 ≠ (((0, 0), (0, 2)) : Collision).2 :=
  ⟨by decide, by decide,
   (self_pair_excluded straddle_oracle [meshStrip, meshFlat]).2 [((7, 7), (8, 8))] sampleBatch
     5 (by decide) ((0, 0), (0, 2)) (by decide)⟩

/-- C3: adjacency filter.  For two triangles of the same mesh, the predicate is false as
soon as some index of triangle 1 equals some index of triangle 0, for every registry
(hence all vertex positions) and every intersector; and the test coded with the 4-lane
vector `(tri0.v0,tri0.v1,tri0.v2,tri0.v2)` fires exactly when the 3×3 comparison of the
two index triples finds an equal pair. -/
theorem adjacency_filter_excludes_neighbors {V : Type} [Inhabited V]
    (isect : V → V → V → V → V → V → Bool) (meshes : List (Mesh V))
    (g p0 p1 : Nat) (mesh : Mesh V) (tri0 tri1 : Triangle)
    (hm : meshes[g]? = some mesh)
    (ht0 : mesh.tris_[p0]? = some tri0) (ht1 : mesh.tris_[p1]? = some tri1)
    (hshare : ∃ i ∈ [tri1.v0, tri1.v1, tri1.v2], ∃ j ∈ [tri0.v0, tri0.v1, tri0.v2], i = j) :
    intersect_triangle_triangle isect meshes g p0 g p1 = false
      ∧ (∀ t0 t1 : Triangle,
          topological_neighbors t0 t1 = true ↔
            ∃ i ∈ [t1.v0, t1.v1, t1.v2], ∃ j ∈ [t0.v0, t0.v1, t0.v2], i = j) := by
  constructor
  · have hn : topological_neighbors tri0 tri1 = true := by
      rw [topological_neighbors_eq]; exact (shares_vertex_index_iff tri0 tri1).mpr hshare
    unfold intersect_triangle_triangle
    simp only [getD_of_getElem? _ hm, getD_of_getElem? _ ht0, getD_of_getElem? _ ht1, hn]
    simp
  · intro t0 t1
    rw [topological_neighbors_eq]; exact shares_vertex_index_iff t0 t1

/-- C3, instantiated: triangles 0 = (0,1,2) and 1 = (1,3,2) of the strip share the indices
1 and 2, and the oracle is not asked. -/
theorem adjacency_filter_excludes_neighbors_witness :
    (∃ i ∈ [(1 : Nat), 3, 2], ∃ j ∈ [(0 : Nat), 1, 2], i = j)
      ∧ intersect_triangle_triangle (fun _ _ _ _ _ _ => true) [meshStrip, meshFlat] 0 0 0 1
          = false :=
  ⟨by decide,
   (adjacency_filter_excludes_neighbors (fun _ _ _ _ _ _ => true) [meshStrip, meshFlat] 0 0 1
      meshStrip ⟨0, 1, 2⟩ ⟨1, 3, 2⟩ rfl rfl rfl (by decide)).1⟩

/-- C4: a candidate with valid ids that is neither a self-pair nor a same-mesh pair sharing
a vertex index gets exactly the answer of the intersector on the six stored positions
`mesh0.x[tri0.v0], mesh0.x[tri0.v1], mesh0.x[tri0.v2], mesh1.x[tri1.v0], mesh1.x[tri1.v1],
mesh1.x[tri1.v2]`; in particular for `geomID0 ≠ geomID1` this holds whatever the two index
triples are, also when they coincide. -/
theorem intersect_triangle_triangle_calls_intersector {V : Type} [Inhabited V]
    (isect : V → V → V → V → V → V → Bool) (meshes : List (Mesh V))
    (g0 p0 g1 p1 : Nat) (mesh0 mesh1 : Mesh V) (tri0 tri1 : Triangle) (a0 a1 a2 b0 b1 b2 : V)
    (hm0 : meshes[g0]? = some mesh0) (hm1 : meshes[g1]? = some mesh1)
    (ht0 : mesh0.tris_[p0]? = some tri0) (ht1 : mesh1.tris_[p1]? = some tri1)
    (ha0 : mesh0.x_[tri0.v0]? = some a0) (ha1 : mesh0.x_[tri0.v1]? = some a1)
    (ha2 : mesh0.x_[tri0.v2]? = some a2) (hb0 : mesh1.x_[tri1.v0]? = some b0)
    (hb1 : mesh1.x_[tri1.v1]? = some b1) (hb2 : mesh1.x_[tri1.v2]? = some b2) :
    (¬ (g0 = g1 ∧ p0 = p1) →
      ¬ (g0 = g1 ∧ ∃ i ∈ [tri1.v0, tri1.v1, tri1.v2], ∃ j ∈ [tri0.v0, tri0.v1, tri0.v2], i = j) →
      intersect_triangle_triangle isect meshes g0 p0 g1 p1 = isect a0 a1 a2 b0 b1 b2)
    ∧ (g0 ≠ g1 →
      intersect_triangle_triangle isect meshes g0 p0 g1 p1 = isect a0 a1 a2 b0 b1 b2) := by
  have hl := intersect_triangle_triangle_lookup isect meshes g0 p0 g1 p1 mesh0 mesh1 tri0 tri1
    a0 a1 a2 b0 b1 b2 hm0 hm1 ht0 ht1 ha0 ha1 ha2 hb0 hb1 hb2
  constructor
  · intro hself hadj
    rw [hl]
    have h1 : (g0 == g1 && p0 == p1) = false := by
      rw [Bool.eq_false_iff]; intro hc; apply hself; simpa using hc
    have h2 : (g0 == g1 && topological_neighbors tri0 tri1) = false := by
      rw [Bool.eq_false_iff]; intro hc
      apply hadj
      rw [Bool.and_eq_true, topological_neighbors_eq, shares_vertex_index_iff] at hc
      exact ⟨by simpa using hc.1, hc.2⟩
    rw [h1, h2]; simp
  · intro hg
    rw [hl]; simp [hg]

/-- C4, instantiated: triangle 0 of `meshA` against triangle 0 of `meshB`; both have the
index triple (0,1,2), the meshes differ, and the answer is the oracle's. -/
theorem intersect_triangle_triangle_calls_intersector_witness :
    ¬ ((0 : Nat) = 1 ∧ (0 : Nat) = 0)
      ∧ ¬ ((0 : Nat) = 1 ∧ ∃ i ∈ [(0 : Nat), 1, 2], ∃ j ∈ [(0 : Nat), 1, 2], i = j)
      ∧ intersect_triangle_triangle straddle_oracle [meshA, meshB] 0 0 1 0
          = straddle_oracle (⟨0, 0, 0⟩ : Vec3 ℚ) ⟨1, 0, 0⟩ ⟨0, 1, 0⟩ ⟨1/2, 1/2, -1/2⟩
              ⟨1/2, 1/2, 1/2⟩ ⟨1/2, -1/2, 0⟩ :=
  ⟨by decide, by decide,
   (intersect_triangle_triangle_calls_intersector straddle_oracle [meshA, meshB] 0 0 1 0
      meshA meshB ⟨0, 1, 2⟩ ⟨0, 1, 2⟩ ⟨0, 0, 0⟩ ⟨1, 0, 0⟩ ⟨0, 1, 0⟩ ⟨1/2, 1/2, -1/2⟩
      ⟨1/2, 1/2, 1/2⟩ ⟨1/2, -1/2, 0⟩ rfl rfl rfl rfl rfl rfl rfl rfl rfl rfl).1
      (by decide) (by decide)⟩

/-- C5: idempotence of the filtering.  After one call on a batch of `n` candidates, a
second run on the surviving prefix (the same array with the final `num_collisions`, or the
prefix alone) rejects nothing: array, order and count are those the first run left. -/
theorem filtering_idempotent {V : Type} [Inhabited V]
    (isect : V → V → V → V → V → V → Bool) (meshes : List (Mesh V))
    (userPtr userPtr' : Collisions) (collisions : List RTCCollision) (n : Nat)
    (h : n ≤ collisions.length) :
    filterLoop (intersect_candidate isect meshes)
        (CollideFunc isect meshes userPtr collisions n).num_collisions
        (CollideFunc isect meshes userPtr collisions n).collisions 0
        (CollideFunc isect meshes userPtr collisions n).num_collisions
      = ((CollideFunc isect meshes userPtr collisions n).collisions,
         (CollideFunc isect meshes userPtr collisions n).num_collisions)
    ∧ (CollideFunc isect meshes userPtr'
        ((CollideFunc isect meshes userPtr collisions n).collisions.take
          (CollideFunc isect meshes userPtr collisions n).num_collisions)
        (CollideFunc isect meshes userPtr collisions n).num_collisions).collisions
      = (CollideFunc isect meshes userPtr collisions n).collisions.take
          (CollideFunc isect meshes userPtr collisions n).num_collisions
    ∧ (CollideFunc isect meshes userPtr'
        ((CollideFunc isect meshes userPtr collisions n).collisions.take
          (CollideFunc isect meshes userPtr collisions n).num_collisions)
        (CollideFunc isect meshes userPtr collisions n).num_collisions).num_collisions
      = (CollideFunc isect meshes userPtr collisions n).num_collisions := by
  obtain ⟨s, st, _, hall, _, _, hc, hn, _, _, _⟩ :=
    CollideFunc_state isect meshes userPtr collisions n h
  have htake : (s ++ st ++ List.drop n collisions).take s.length = s := by
    rw [List.append_assoc, List.take_left]
  have h1 := filterLoop_all_pass (intersect_candidate isect meshes) s.length [] s
    (st ++ List.drop n collisions) (Nat.le_refl _) hall
  have h2 := filterLoop_all_pass (intersect_candidate isect meshes) s.length [] s []
    (Nat.le_refl _) hall
  simp only [List.nil_append, List.length_nil, Nat.zero_add, List.append_nil] at h1 h2
  rw [hc, hn, htake]
  refine ⟨?_, ?_, ?_⟩
  · rw [List.append_assoc]; exact h1
  · unfold CollideFunc; rw [h2]; dsimp only; split <;> rfl
  · unfold CollideFunc; rw [h2]; dsimp only; split <;> rfl

/-- C5, instantiated on the sample batch: the first run leaves two survivors, and the
second run on that prefix returns it as it is. -/
theorem filtering_idempotent_witness :
    5 ≤ sampleBatch.length
      ∧ (CollideFunc straddle_oracle [meshStrip, meshFlat] []
          ((CollideFunc straddle_oracle [meshStrip, meshFlat] [] sampleBatch 5).collisions.take
            (CollideFunc straddle_oracle [meshStrip, meshFlat] [] sampleBatch 5).num_collisions)
          (CollideFunc straddle_oracle [meshStrip, meshFlat] [] sampleBatch
            5).num_collisions).collisions
        = (CollideFunc straddle_oracle [meshStrip, meshFlat] [] sampleBatch 5).collisions.take
            (CollideFunc straddle_oracle [meshStrip, meshFlat] [] sampleBatch 5).num_collisions :=
  ⟨by decide,
   (filtering_idempotent straddle_oracle [meshStrip, meshFlat] [] [] sampleBatch 5
      (by decide)).2.1⟩

/-- C6: when every candidate of the batch is rejected (the empty batch included),
`CollideFunc` returns without acquiring the lock, its trace of lock and list events is
empty, and the list is unchanged. -/
theorem all_rejected_takes_no_lock {V : Type} [Inhabited V]
    (isect : V → V → V → V → V → V → Bool) (meshes : List (Mesh V))
    (userPtr : Collisions) (collisions : List RTCCollision) (n : Nat)
    (h : n ≤ collisions.length)
    (hrej : ∀ c ∈ collisions.take n,
      intersect_triangle_triangle isect meshes c.geomID0 c.primID0 c.geomID1 c.primID1 = false) :
    Event.acquire ∉ (CollideFunc isect meshes userPtr collisions n).trace
      ∧ (CollideFunc isect meshes userPtr collisions n).trace = []
      ∧ (CollideFunc isect meshes userPtr collisions n).userPtr = userPtr := by
  obtain ⟨s, st, hperm, _, _, _, _, _, hu, htr, _⟩ :=
    CollideFunc_state isect meshes userPtr collisions n h
  have hnil : (collisions.take n).filter (intersect_candidate isect meshes) = [] := by
    rw [List.filter_eq_nil_iff]
    intro c hc
    have := hrej c hc
    simp [intersect_candidate, this]
  rw [hnil] at hperm
  have hs : s = [] := List.Perm.eq_nil hperm
  subst hs
  rw [htr, hu]
  simp

/-- C6, instantiated: a batch of a self-pair and a pair of neighbours. -/
theorem all_rejected_takes_no_lock_witness :
    2 ≤ [(⟨0, 1, 0, 1⟩ : RTCCollision), ⟨0, 0, 0, 1⟩].length
      ∧ intersect_triangle_triangle straddle_oracle [meshStrip, meshFlat] 0 1 0 1 = false
      ∧ intersect_triangle_triangle straddle_oracle [meshStrip, meshFlat] 0 0 0 1 = false
      ∧ (CollideFunc straddle_oracle [meshStrip, meshFlat] [((7, 7), (8, 8))]
          [⟨0, 1, 0, 1⟩, ⟨0, 0, 0, 1⟩] 2).trace = []
      ∧ (CollideFunc straddle_oracle [meshStrip, meshFlat] [((7, 7), (8, 8))]
          [⟨0, 1, 0, 1⟩, ⟨0, 0, 0, 1⟩] 2).userPtr = [((7, 7), (8, 8))] :=
  ⟨by decide, by decide, by decide,
   (all_rejected_takes_no_lock straddle_oracle [meshStrip, meshFlat] [((7, 7), (8, 8))]
      [⟨0, 1, 0, 1⟩, ⟨0, 0, 0, 1⟩] 2 (by decide) (by decide)).2⟩

/-- C7: append-only.  The list after the call is the initial list followed by one block,
the images of the first `num_collisions` entries of the compacted array in array order;
these entries are the passing candidates of the batch; the initial list is a prefix of the
result, and the registry is unchanged. -/
theorem CollideFunc_append_only {V : Type} [Inhabited V]
    (isect : V → V → V → V → V → V → Bool) (meshes : List (Mesh V))
    (userPtr : Collisions) (collisions : List RTCCollision) (n : Nat)
    (h : n ≤ collisions.length) :
    (CollideFunc isect meshes userPtr collisions n).userPtr
        = userPtr ++ ((CollideFunc isect meshes userPtr collisions n).collisions.take
            (CollideFunc isect meshes userPtr collisions n).num_collisions).map
              (fun c => ((c.geomID0, c.primID0), (c.geomID1, c.primID1)))
      ∧ ((CollideFunc isect meshes userPtr collisions n).collisions.take
            (CollideFunc isect meshes userPtr collisions n).num_collisions).Perm
          ((collisions.take n).filter (fun c =>
            intersect_triangle_triangle isect meshes c.geomID0 c.primID0 c.geomID1 c.primID1))
      ∧ (CollideFunc isect meshes userPtr collisions n).userPtr.take userPtr.length = userPtr
      ∧ (∀ (i : Nat) (e : Collision), userPtr[i]? = some e →
          (CollideFunc isect meshes userPtr collisions n).userPtr[i]? = some e)
      ∧ (CollideFunc isect meshes userPtr collisions n).meshes = meshes := by
  obtain ⟨s, st, hperm, _, _, _, hc, hn, hu, _, hm⟩ :=
    CollideFunc_state isect meshes userPtr collisions n h
  have htake : (s ++ st ++ List.drop n collisions).take s.length = s := by
    rw [List.append_assoc, List.take_left]
  rw [hc, hn, hu, htake]
  refine ⟨rfl, hperm, List.take_left _ _, ?_, hm⟩
  intro i e hi
  have hlt : i < userPtr.length := by
    by_contra hge
    rw [List.getElem?_eq_none (Nat.le_of_not_lt hge)] at hi
    exact Option.noConfusion hi
  rw [List.getElem?_append_left hlt]; exact hi

/-- C7, instantiated on the sample batch with a non-empty initial list. -/
theorem CollideFunc_append_only_witness :
    5 ≤ sampleBatch.length
      ∧ (CollideFunc straddle_oracle [meshStrip, meshFlat] [((7, 7), (8, 8))] sampleBatch
          5).userPtr = [((7, 7), (8, 8))] ++ [((0, 0), (0, 2)), ((0, 0), (0, 2))]
      ∧ (CollideFunc straddle_oracle [meshStrip, meshFlat] [((7, 7), (8, 8))] sampleBatch
          5).userPtr.take [((7, 7), (8, 8))].length = [((7, 7), (8, 8))] :=
  ⟨by decide, by decide,
   (CollideFunc_append_only straddle_oracle [meshStrip, meshFlat] [((7, 7), (8, 8))] sampleBatch
      5 (by decide)).2.2.1⟩

/-! ## The ray callback -/

/-- The callback when every array access is in range: on a hit the six assignments, and
otherwise the ray as it was. -/
theorem triangle_intersect_func_lookup {K : Type} [LinearOrderedField K]
    (meshes : List (Mesh (Vec3 K))) (geomID primID : Nat) (ray : Ray K)
    (mesh : Mesh (Vec3 K)) (tri : Triangle) (v0 v1 v2 : Vec3 K)
    (hm : meshes[geomID]? = some mesh) (ht : mesh.tris_[primID]? = some tri)
    (h0 : mesh.x_[tri.v0]? = some v0) (h1 : mesh.x_[tri.v1]? = some v1)
    (h2 : mesh.x_[tri.v2]? = some v2) :
    (is_hit v0 v1 v2 ray →
      triangle_intersect_func meshes geomID primID ray
        = { org := ray.org, dir := ray.dir, tnear := ray.tnear,
            tfar := hit_t v0 v1 v2 ray, u := hit_u v0 v1 v2 ray, v := hit_v v0 v1 v2 ray,
            geomID := geomID, primID := primID, Ng := cross (v0.sub v1) (v2.sub v0) })
    ∧ (¬ is_hit v0 v1 v2 ray → triangle_intersect_func meshes geomID primID ray = ray) := by
  unfold triangle_intersect_func
  simp only [getD_of_getElem? _ hm, getD_of_getElem? _ ht, getD_of_getElem? _ h0,
    getD_of_getElem? _ h1, getD_of_getElem? _ h2, rcp, ← div_eq_mul_inv]
  constructor
  · intro hh
    obtain ⟨a, b, c, d, e, f⟩ := hh
    simp only [hit_den, hit_u, hit_v, hit_t] at a b c d e f
    simp [a, b, c, d, e, f]
    exact ⟨rfl, rfl, rfl⟩
  · intro hh
    simp only [is_hit, hit_den, hit_u, hit_v, hit_t] at hh
    split
    · rfl
    · split
      · rfl
      · rename_i hv1 hv2
        exfalso; apply hh
        simp only [Bool.not_eq_true, Bool.not_eq_false', Bool.and_eq_true, decide_eq_true_eq]
          at hv1 hv2
        exact ⟨hv1.1.1.1, hv1.1.1.2, hv1.1.2, hv1.2, hv2.2.1, hv2.2.2⟩

/-- With a non-zero denominator the point of the ray at parameter `t` is the barycentric
combination of the triangle's vertices with weights `1-u-v`, `u`, `v`. -/
theorem hit_point_eq {K : Type} [LinearOrderedField K] (v0 v1 v2 : Vec3 K) (ray : Ray K)
    (hden : hit_den v0 v1 v2 ray ≠ 0) :
    ray.org.add (ray.dir.smul (hit_t v0 v1 v2 ray))
      = ((v0.smul (1 - hit_u v0 v1 v2 ray - hit_v v0 v1 v2 ray)).add
          (v1.smul (hit_u v0 v1 v2 ray))).add (v2.smul (hit_v v0 v1 v2 ray)) := by
  obtain ⟨⟨ox, oy, oz⟩, ⟨dx, dy, dz⟩, tn, tf, ru, rv, rg, rp, rn⟩ := ray
  obtain ⟨x0, y0, z0⟩ := v0
  obtain ⟨x1, y1, z1⟩ := v1
  obtain ⟨x2, y2, z2⟩ := v2
  simp only [hit_den, dot, cross, Vec3.sub] at hden
  simp only [hit_t, hit_u, hit_v, hit_den, dot, cross, Vec3.sub, Vec3.add, Vec3.smul,
    Vec3.mk.injEq]
  refine ⟨?_, ?_, ?_⟩ <;> field_simp <;> ring

/-- With a non-zero denominator, a point of the ray that is a barycentric combination of the
vertices determines `t`, `u` and `v`. -/
theorem hit_unique {K : Type} [LinearOrderedField K] (v0 v1 v2 : Vec3 K) (ray : Ray K)
    (t β γ : K) (hden : hit_den v0 v1 v2 ray ≠ 0)
    (heq : ray.org.add (ray.dir.smul t)
      = ((v0.smul (1 - β - γ)).add (v1.smul β)).add (v2.smul γ)) :
    hit_t v0 v1 v2 ray = t ∧ hit_u v0 v1 v2 ray = β ∧ hit_v v0 v1 v2 ray = γ := by
  obtain ⟨⟨ox, oy, oz⟩, ⟨dx, dy, dz⟩, tn, tf, ru, rv, rg, rp, rn⟩ := ray
  obtain ⟨x0, y0, z0⟩ := v0
  obtain ⟨x1, y1, z1⟩ := v1
  obtain ⟨x2, y2, z2⟩ := v2
  simp only [hit_den, dot, cross, Vec3.sub] at hden
  simp only [Vec3.add, Vec3.smul, Vec3.mk.injEq] at heq
  obtain ⟨hx, hy, hz⟩ := heq
  have hox : ox = (1 - β - γ) * x0 + β * x1 + γ * x2 - t * dx := by linarith
  have hoy : oy = (1 - β - γ) * y0 + β * y1 + γ * y2 - t * dy := by linarith
  have hoz : oz = (1 - β - γ) * z0 + β * z1 + γ * z2 - t * dz := by linarith
  subst hox hoy hoz
  simp only [hit_t, hit_u, hit_v, hit_den, dot, cross, Vec3.sub]
  refine ⟨?_, ?_, ?_⟩ <;> rw [div_eq_iff hden] <;> ring

/-- The ray is changed by the callback exactly on a hit (a hit lowers `tfar`). -/
theorem triangle_intersect_func_ne_iff {K : Type} [LinearOrderedField K]
    (meshes : List (Mesh (Vec3 K))) (geomID primID : Nat) (ray : Ray K)
    (mesh : Mesh (Vec3 K)) (tri : Triangle) (v0 v1 v2 : Vec3 K)
    (hm : meshes[geomID]? = some mesh) (ht : mesh.tris_[primID]? = some tri)
    (h0 : mesh.x_[tri.v0]? = some v0) (h1 : mesh.x_[tri.v1]? = some v1)
    (h2 : mesh.x_[tri.v2]? = some v2) :
    triangle_intersect_func meshes geomID primID ray ≠ ray ↔ is_hit v0 v1 v2 ray := by
  have hl := triangle_intersect_func_lookup meshes geomID primID ray mesh tri v0 v1 v2
    hm ht h0 h1 h2
  constructor
  · intro hne
    by_contra hno
    exact hne (hl.2 hno)
  · intro hh heq
    have htf := congrArg Ray.tfar heq
    rw [hl.1 hh] at htf
    have hlt : hit_t v0 v1 v2 ray < ray.tfar := hh.2.2.2.2.2
    exact absurd htf (ne_of_lt hlt)

/-- The falling sample ray hits triangle `A`. -/
theorem sampleRay_is_hit :
    is_hit (⟨0, 0, 0⟩ : Vec3 ℚ) ⟨1, 0, 0⟩ ⟨0, 1, 0⟩ sampleRay := by
  norm_num [is_hit, hit_den, hit_u, hit_v, hit_t, dot, cross, Vec3.sub, sampleRay]

/-- C9: geometric soundness of the ray test in exact arithmetic.  When a hit is reported,
the point `org + t*dir` for the recorded `t = tfar` is the barycentric combination
`(1-u-v)*v0 + u*v1 + v*v2` of the recorded `u, v`, with `tnear < t < old tfar` and weights
`u ≥ 0`, `v ≥ 0`, `1-u-v ≥ 0`.  Conversely, if `den ≠ 0` and the ray meets the closed
triangle at a parameter `t` with `tnear < t < tfar`, a hit is reported with that `t`. -/
theorem triangle_intersect_func_sound {K : Type} [LinearOrderedField K]
    (meshes : List (Mesh (Vec3 K))) (geomID primID : Nat) (ray : Ray K)
    (mesh : Mesh (Vec3 K)) (tri : Triangle) (v0 v1 v2 : Vec3 K)
    (hm : meshes[geomID]? = some mesh) (ht : mesh.tris_[primID]? = some tri)
    (h0 : mesh.x_[tri.v0]? = some v0) (h1 : mesh.x_[tri.v1]? = some v1)
    (h2 : mesh.x_[tri.v2]? = some v2) :
    (triangle_intersect_func meshes geomID primID ray ≠ ray →
        ray.org.add (ray.dir.smul (triangle_intersect_func meshes geomID primID ray).tfar)
          = ((v0.smul (1 - (triangle_intersect_func meshes geomID primID ray).u
                  - (triangle_intersect_func meshes geomID primID ray).v)).add
              (v1.smul (triangle_intersect_func meshes geomID primID ray).u)).add
              (v2.smul (triangle_intersect_func meshes geomID primID ray).v)
        ∧ ray.tnear < (triangle_intersect_func meshes geomID primID ray).tfar
        ∧ (triangle_intersect_func meshes geomID primID ray).tfar < ray.tfar
        ∧ 0 ≤ (triangle_intersect_func meshes geomID primID ray).u
        ∧ 0 ≤ (triangle_intersect_func meshes geomID primID ray).v
        ∧ 0 ≤ 1 - (triangle_intersect_func meshes geomID primID ray).u
                - (triangle_intersect_func meshes geomID primID ray).v)
      ∧ (∀ t β γ : K,
          dot (cross (v0.sub v1) (v2.sub v0)) ray.dir ≠ 0 →
          0 ≤ β → 0 ≤ γ → β + γ ≤ 1 → ray.tnear < t → t < ray.tfar →
          ray.org.add (ray.dir.smul t)
            = ((v0.smul (1 - β - γ)).add (v1.smul β)).add (v2.smul γ) →
          triangle_intersect_func meshes geomID primID ray ≠ ray
            ∧ (triangle_intersect_func meshes geomID primID ray).tfar = t
            ∧ (triangle_intersect_func meshes geomID primID ray).u = β
            ∧ (triangle_intersect_func meshes geomID primID ray).v = γ) := by
  have hiff := triangle_intersect_func_ne_iff meshes geomID primID ray mesh tri v0 v1 v2
    hm ht h0 h1 h2
  have hl := triangle_intersect_func_lookup meshes geomID primID ray mesh tri v0 v1 v2
    hm ht h0 h1 h2
  constructor
  · intro hne
    have hh := hiff.mp hne
    rw [hl.1 hh]
    obtain ⟨a, b, c, d, e, f⟩ := hh
    exact ⟨hit_point_eq v0 v1 v2 ray a, e, f, b, c, by linarith⟩
  · intro t β γ hden hβ hγ hsum htn htf heq
    obtain ⟨et, eu, ev⟩ := hit_unique v0 v1 v2 ray t β γ hden heq
    have hh : is_hit v0 v1 v2 ray := by
      refine ⟨hden, ?_, ?_, ?_, ?_, ?_⟩
      · rw [eu]; exact hβ
      · rw [ev]; exact hγ
      · rw [eu, ev]; exact hsum
      · rw [et]; exact htn
      · rw [et]; exact htf
    refine ⟨hiff.mpr hh, ?_, ?_, ?_⟩
    · rw [hl.1 hh]; exact et
    · rw [hl.1 hh]; exact eu
    · rw [hl.1 hh]; exact ev

/-- C9, instantiated: the sample ray meets triangle `A` at `t = 1` in the point with
weights `1/2, 1/4, 1/4`, and the callback records exactly that. -/
theorem triangle_intersect_func_sound_witness :
    (triangle_intersect_func [meshA] 0 0 sampleRay ≠ sampleRay
        ∧ sampleRay.tnear < (triangle_intersect_func [meshA] 0 0 sampleRay).tfar
        ∧ (triangle_intersect_func [meshA] 0 0 sampleRay).tfar < sampleRay.tfar)
      ∧ ((triangle_intersect_func [meshA] 0 0 sampleRay).tfar = 1
        ∧ (triangle_intersect_func [meshA] 0 0 sampleRay).u = 1/4
        ∧ (triangle_intersect_func [meshA] 0 0 sampleRay).v = 1/4) := by
  have h := triangle_intersect_func_sound [meshA] 0 0 sampleRay meshA ⟨0, 1, 2⟩
    ⟨0, 0, 0⟩ ⟨1, 0, 0⟩ ⟨0, 1, 0⟩ rfl rfl rfl rfl rfl
  have hc := h.2 1 (1/4) (1/4)
    (by norm_num [dot, cross, Vec3.sub, sampleRay]) (by norm_num) (by norm_num)
    (by norm_num) (by norm_num [sampleRay]) (by norm_num [sampleRay])
    (by norm_num [Vec3.add, Vec3.smul, sampleRay])
  have hs := h.1 hc.1
  exact ⟨⟨hc.1, hs.2.1, hs.2.2.1⟩, hc.2⟩

/-! ## Winding, centroid and degenerate cases of the ray test -/

theorem hit_den_swap {K : Type} [LinearOrderedField K] (v0 v1 v2 : Vec3 K) (ray : Ray K) :
    hit_den v0 v2 v1 ray = -hit_den v0 v1 v2 ray := by
  simp only [hit_den, dot, cross, Vec3.sub]; ring

theorem hit_u_swap {K : Type} [LinearOrderedField K] (v0 v1 v2 : Vec3 K) (ray : Ray K) :
    hit_u v0 v2 v1 ray = hit_v v0 v1 v2 ray := by
  unfold hit_u hit_v
  rw [hit_den_swap]
  have hn : dot (cross ray.dir (v0.sub ray.org)) (v1.sub v0)
      = -dot (cross ray.dir (v0.sub ray.org)) (v0.sub v1) := by
    simp only [dot, cross, Vec3.sub]; ring
  rw [hn, neg_div_neg_eq]

theorem hit_v_swap {K : Type} [LinearOrderedField K] (v0 v1 v2 : Vec3 K) (ray : Ray K) :
    hit_v v0 v2 v1 ray = hit_u v0 v1 v2 ray := by
  unfold hit_u hit_v
  rw [hit_den_swap]
  have hn : dot (cross ray.dir (v0.sub ray.org)) (v0.sub v2)
      = -dot (cross ray.dir (v0.sub ray.org)) (v2.sub v0) := by
    simp only [dot, cross, Vec3.sub]; ring
  rw [hn, neg_div_neg_eq]

theorem hit_t_swap {K : Type} [LinearOrderedField K] (v0 v1 v2 : Vec3 K) (ray : Ray K) :
    hit_t v0 v2 v1 ray = hit_t v0 v1 v2 ray := by
  unfold hit_t
  rw [hit_den_swap]
  have hn : dot (cross (v0.sub v2) (v1.sub v0)) (v0.sub ray.org)
      = -dot (cross (v0.sub v1) (v2.sub v0)) (v0.sub ray.org) := by
    simp only [dot, cross, Vec3.sub]; ring
  rw [hn, neg_div_neg_eq]

theorem cross_swap {K : Type} [LinearOrderedField K] (v0 v1 v2 : Vec3 K) :
    cross (v0.sub v2) (v1.sub v0) = (cross (v0.sub v1) (v2.sub v0)).neg := by
  simp only [cross, Vec3.sub, Vec3.neg, Vec3.mk.injEq]
  refine ⟨?_, ?_, ?_⟩ <;> ring

theorem is_hit_swap {K : Type} [LinearOrderedField K] (v0 v1 v2 : Vec3 K) (ray : Ray K) :
    is_hit v0 v2 v1 ray ↔ is_hit v0 v1 v2 ray := by
  unfold is_hit
  rw [hit_den_swap v0 v1 v2, hit_u_swap v0 v1 v2, hit_v_swap v0 v1 v2, hit_t_swap v0 v1 v2,
    neg_ne_zero, add_comm (hit_v v0 v1 v2 ray)]
  tauto

/-- C19: winding independence in exact arithmetic.  If primitive `p` stores `(v0,v1,v2)`
and primitive `p'` stores the reversed winding `(v0,v2,v1)`, the callback reports a hit on
one exactly when it reports a hit on the other; on a hit both record the same `t`, `u` and
`v` are exchanged and the recorded normal is negated.  The denominators are opposite, so
both signs of `den` are accepted. -/
theorem winding_independent {K : Type} [LinearOrderedField K]
    (meshes : List (Mesh (Vec3 K))) (g p g' p' : Nat) (ray : Ray K)
    (mesh mesh' : Mesh (Vec3 K)) (tri tri' : Triangle) (v0 v1 v2 : Vec3 K)
    (hm : meshes[g]? = some mesh) (ht : mesh.tris_[p]? = some tri)
    (h0 : mesh.x_[tri.v0]? = some v0) (h1 : mesh.x_[tri.v1]? = some v1)
    (h2 : mesh.x_[tri.v2]? = some v2)
    (hm' : meshes[g']? = some mesh') (ht' : mesh'.tris_[p']? = some tri')
    (h0' : mesh'.x_[tri'.v0]? = some v0) (h1' : mesh'.x_[tri'.v1]? = some v2)
    (h2' : mesh'.x_[tri'.v2]? = some v1) :
    (triangle_intersect_func meshes g' p' ray ≠ ray ↔
        triangle_intersect_func meshes g p ray ≠ ray)
      ∧ (triangle_intersect_func meshes g p ray ≠ ray →
          (triangle_intersect_func meshes g' p' ray).tfar
              = (triangle_intersect_func meshes g p ray).tfar
            ∧ (triangle_intersect_func meshes g' p' ray).u
              = (triangle_intersect_func meshes g p ray).v
            ∧ (triangle_intersect_func meshes g' p' ray).v
              = (triangle_intersect_func meshes g p ray).u
            ∧ (triangle_intersect_func meshes g' p' ray).Ng
              = (triangle_intersect_func meshes g p ray).Ng.neg)
      ∧ dot (cross (v0.sub v2) (v1.sub v0)) ray.dir
          = -dot (cross (v0.sub v1) (v2.sub v0)) ray.dir := by
  have hiff := triangle_intersect_func_ne_iff meshes g p ray mesh tri v0 v1 v2 hm ht h0 h1 h2
  have hiff' := triangle_intersect_func_ne_iff meshes g' p' ray mesh' tri' v0 v2 v1
    hm' ht' h0' h1' h2'
  have hl := triangle_intersect_func_lookup meshes g p ray mesh tri v0 v1 v2 hm ht h0 h1 h2
  have hl' := triangle_intersect_func_lookup meshes g' p' ray mesh' tri' v0 v2 v1
    hm' ht' h0' h1' h2'
  refine ⟨?_, ?_, ?_⟩
  · rw [hiff, hiff', is_hit_swap]
  · intro hne
    have hh := hiff.mp hne
    have hh' := (is_hit_swap v0 v1 v2 ray).mpr hh
    rw [hl.1 hh, hl'.1 hh']
    exact ⟨hit_t_swap v0 v1 v2 ray, hit_u_swap v0 v1 v2 ray, hit_v_swap v0 v1 v2 ray,
      cross_swap v0 v1 v2⟩
  · exact hit_den_swap v0 v1 v2 ray

/-- C19, instantiated: the falling sample ray hits triangle `A` stored with either
winding, at the same `t`. -/
theorem winding_independent_witness :
    triangle_intersect_func [meshTwoSided] 0 0 sampleRay ≠ sampleRay
      ∧ triangle_intersect_func [meshTwoSided] 0 1 sampleRay ≠ sampleRay
      ∧ (triangle_intersect_func [meshTwoSided] 0 1 sampleRay).tfar
          = (triangle_intersect_func [meshTwoSided] 0 0 sampleRay).tfar
      ∧ (triangle_intersect_func [meshTwoSided] 0 1 sampleRay).Ng
          = (triangle_intersect_func [meshTwoSided] 0 0 sampleRay).Ng.neg := by
  have h := winding_independent [meshTwoSided] 0 0 0 1 sampleRay meshTwoSided meshTwoSided
    ⟨0, 1, 2⟩ ⟨0, 2, 1⟩ ⟨0, 0, 0⟩ ⟨1, 0, 0⟩ ⟨0, 1, 0⟩ rfl rfl rfl rfl rfl rfl rfl rfl rfl rfl
  have hne : triangle_intersect_func [meshTwoSided] 0 0 sampleRay ≠ sampleRay :=
    (triangle_intersect_func_ne_iff [meshTwoSided] 0 0 sampleRay meshTwoSided ⟨0, 1, 2⟩
      ⟨0, 0, 0⟩ ⟨1, 0, 0⟩ ⟨0, 1, 0⟩ rfl rfl rfl rfl rfl).mpr sampleRay_is_hit
  exact ⟨hne, h.1.mpr hne, (h.2.1 hne).1, (h.2.1 hne).2.2.2⟩

/-- A point of the ray inside the closed triangle at a parameter in `(tnear, tfar)`, with a
non-zero denominator, satisfies the hit condition and fixes `t`, `u`, `v`. -/
theorem is_hit_of_point {K : Type} [LinearOrderedField K] (v0 v1 v2 : Vec3 K) (ray : Ray K)
    (t β γ : K) (hden : hit_den v0 v1 v2 ray ≠ 0) (hβ : 0 ≤ β) (hγ : 0 ≤ γ) (hsum : β + γ ≤ 1)
    (htn : ray.tnear < t) (htf : t < ray.tfar)
    (heq : ray.org.add (ray.dir.smul t)
      = ((v0.smul (1 - β - γ)).add (v1.smul β)).add (v2.smul γ)) :
    is_hit v0 v1 v2 ray ∧ hit_t v0 v1 v2 ray = t ∧ hit_u v0 v1 v2 ray = β
      ∧ hit_v v0 v1 v2 ray = γ := by
  obtain ⟨et, eu, ev⟩ := hit_unique v0 v1 v2 ray t β γ hden heq
  refine ⟨⟨hden, ?_, ?_, ?_, ?_, ?_⟩, et, eu, ev⟩
  · rw [eu]; exact hβ
  · rw [ev]; exact hγ
  · rw [eu, ev]; exact hsum
  · rw [et]; exact htn
  · rw [et]; exact htf

/-- A ray along a non-zero multiple of a non-zero normal has a non-zero denominator. -/
theorem hit_den_ne_zero_of_normal {K : Type} [LinearOrderedField K] (v0 v1 v2 : Vec3 K)
    (ray : Ray K) (lam : K)
    (hnd : cross (v1.sub v0) (v2.sub v0) ≠ ⟨0, 0, 0⟩) (hlam : lam ≠ 0)
    (hdir : ray.dir = (cross (v1.sub v0) (v2.sub v0)).smul lam) :
    hit_den v0 v1 v2 ray ≠ 0 := by
  obtain ⟨⟨ox, oy, oz⟩, ⟨dx, dy, dz⟩, tn, tf, ru, rv, rg, rp, rn⟩ := ray
  obtain ⟨x0, y0, z0⟩ := v0
  obtain ⟨x1, y1, z1⟩ := v1
  obtain ⟨x2, y2, z2⟩ := v2
  simp only [cross, Vec3.sub, Vec3.smul, Vec3.mk.injEq, ne_eq] at hnd hdir
  obtain ⟨hx, hy, hz⟩ := hdir
  subst hx hy hz
  simp only [hit_den, dot, cross, Vec3.sub]
  intro h0
  have hsq : ((y1 - y0) * (z2 - z0) - (z1 - z0) * (y2 - y0)) ^ 2
      + ((z1 - z0) * (x2 - x0) - (x1 - x0) * (z2 - z0)) ^ 2
      + ((x1 - x0) * (y2 - y0) - (y1 - y0) * (x2 - x0)) ^ 2 = 0 := by
    have h1 : lam * (((y1 - y0) * (z2 - z0) - (z1 - z0) * (y2 - y0)) ^ 2
      + ((z1 - z0) * (x2 - x0) - (x1 - x0) * (z2 - z0)) ^ 2
      + ((x1 - x0) * (y2 - y0) - (y1 - y0) * (x2 - x0)) ^ 2) = 0 := by
      linear_combination -h0
    rcases mul_eq_zero.mp h1 with h | h
    · exact absurd h hlam
    · exact h
  apply hnd
  have ha := sq_nonneg ((y1 - y0) * (z2 - z0) - (z1 - z0) * (y2 - y0))
  have hb := sq_nonneg ((z1 - z0) * (x2 - x0) - (x1 - x0) * (z2 - z0))
  have hc := sq_nonneg ((x1 - x0) * (y2 - y0) - (y1 - y0) * (x2 - x0))
  refine ⟨?_, ?_, ?_⟩
  · exact pow_eq_zero_iff (two_ne_zero) |>.mp (by linarith)
  · exact pow_eq_zero_iff (two_ne_zero) |>.mp (by linarith)
  · exact pow_eq_zero_iff (two_ne_zero) |>.mp (by linarith)

/-- C12: centroid ray, exact arithmetic.  For a non-degenerate triangle with normal
`n = (v1-v0) x (v2-v0)` and centroid `c = (v0+v1+v2)/3`, a ray with direction a non-zero
multiple of `n` and origin `c - k*dir` with `tnear < k < tfar` is reported as a hit with
recorded `t = k` and `u = v = 1/3`. -/
theorem centroid_ray_hit {K : Type} [LinearOrderedField K]
    (meshes : List (Mesh (Vec3 K))) (geomID primID : Nat) (ray : Ray K)
    (mesh : Mesh (Vec3 K)) (tri : Triangle) (v0 v1 v2 : Vec3 K) (lam k : K)
    (hm : meshes[geomID]? = some mesh) (ht : mesh.tris_[primID]? = some tri)
    (h0 : mesh.x_[tri.v0]? = some v0) (h1 : mesh.x_[tri.v1]? = some v1)
    (h2 : mesh.x_[tri.v2]? = some v2)
    (hnd : cross (v1.sub v0) (v2.sub v0) ≠ ⟨0, 0, 0⟩) (hlam : lam ≠ 0)
    (hdir : ray.dir = (cross (v1.sub v0) (v2.sub v0)).smul lam)
    (horg : ray.org = (((v0.add v1).add v2).smul (1 / 3)).sub (ray.dir.smul k))
    (hk1 : ray.tnear < k) (hk2 : k < ray.tfar) :
    triangle_intersect_func meshes geomID primID ray ≠ ray
      ∧ (triangle_intersect_func meshes geomID primID ray).tfar = k
      ∧ (triangle_intersect_func meshes geomID primID ray).u = 1 / 3
      ∧ (triangle_intersect_func meshes geomID primID ray).v = 1 / 3
      ∧ 0 ≤ (triangle_intersect_func meshes geomID primID ray).u
      ∧ 0 ≤ (triangle_intersect_func meshes geomID primID ray).v
      ∧ (triangle_intersect_func meshes geomID primID ray).u
          + (triangle_intersect_func meshes geomID primID ray).v ≤ 1
      ∧ ray.tnear < (triangle_intersect_func meshes geomID primID ray).tfar
      ∧ (triangle_intersect_func meshes geomID primID ray).tfar < ray.tfar := by
  have hden := hit_den_ne_zero_of_normal v0 v1 v2 ray lam hnd hlam hdir
  have heq : ray.org.add (ray.dir.smul k)
      = ((v0.smul (1 - 1 / 3 - 1 / 3)).add (v1.smul (1 / 3))).add (v2.smul (1 / 3)) := by
    rw [horg]
    simp only [Vec3.add, Vec3.sub, Vec3.smul, Vec3.mk.injEq]
    refine ⟨?_, ?_, ?_⟩ <;> ring
  obtain ⟨hh, et, eu, ev⟩ := is_hit_of_point v0 v1 v2 ray k (1 / 3) (1 / 3) hden
    (by norm_num) (by norm_num) (by norm_num) hk1 hk2 heq
  have hl := triangle_intersect_func_lookup meshes geomID primID ray mesh tri v0 v1 v2
    hm ht h0 h1 h2
  have hne := (triangle_intersect_func_ne_iff meshes geomID primID ray mesh tri v0 v1 v2
    hm ht h0 h1 h2).mpr hh
  rw [hl.1 hh]
  refine ⟨?_, et, eu, ev, ?_, ?_, ?_, ?_, ?_⟩
  · rw [← hl.1 hh]; exact hne
  · show 0 ≤ hit_u v0 v1 v2 ray
    rw [eu]; norm_num
  · show 0 ≤ hit_v v0 v1 v2 ray
    rw [ev]; norm_num
  · show hit_u v0 v1 v2 ray + hit_v v0 v1 v2 ray ≤ 1
    rw [eu, ev]; norm_num
  · show ray.tnear < hit_t v0 v1 v2 ray
    rw [et]; exact hk1
  · show hit_t v0 v1 v2 ray < ray.tfar
    rw [et]; exact hk2

/-- C12, instantiated: the ray through the centroid `(1/3,1/3,0)` of triangle `A` along its
normal `(0,0,1)`, started at distance 2, is a hit at `t = 2` with `u = v = 1/3`. -/
theorem centroid_ray_hit_witness :
    sampleCentroidRay.tnear < 2 ∧ (2 : ℚ) < sampleCentroidRay.tfar
      ∧ triangle_intersect_func [meshA] 0 0 sampleCentroidRay ≠ sampleCentroidRay
      ∧ (triangle_intersect_func [meshA] 0 0 sampleCentroidRay).tfar = 2
      ∧ (triangle_intersect_func [meshA] 0 0 sampleCentroidRay).u = 1 / 3
      ∧ (triangle_intersect_func [meshA] 0 0 sampleCentroidRay).v = 1 / 3 := by
  have h := centroid_ray_hit [meshA] 0 0 sampleCentroidRay meshA ⟨0, 1, 2⟩
    ⟨0, 0, 0⟩ ⟨1, 0, 0⟩ ⟨0, 1, 0⟩ 1 2 rfl rfl rfl rfl rfl
    (by norm_num [cross, Vec3.sub]) (by norm_num)
    (by norm_num [cross, Vec3.sub, Vec3.smul, sampleCentroidRay])
    (by norm_num [Vec3.add, Vec3.sub, Vec3.smul, sampleCentroidRay])
    (by norm_num [sampleCentroidRay]) (by norm_num [sampleCentroidRay])
  exact ⟨by norm_num [sampleCentroidRay], by norm_num [sampleCentroidRay], h.1, h.2.1,
    h.2.2.1, h.2.2.2.1⟩

/-- A triangle with coincident or collinear vertices has the zero normal. -/
theorem cross_eq_zero_of_degenerate {K : Type} [LinearOrderedField K] (v0 v1 v2 : Vec3 K)
    (hdeg : v0 = v1 ∨ v0 = v2 ∨ v1 = v2 ∨ (∃ s : K, v2.sub v0 = (v1.sub v0).smul s)
      ∨ (∃ s : K, v1.sub v0 = (v2.sub v0).smul s)) :
    cross (v0.sub v1) (v2.sub v0) = ⟨0, 0, 0⟩ := by
  obtain ⟨x0, y0, z0⟩ := v0
  obtain ⟨x1, y1, z1⟩ := v1
  obtain ⟨x2, y2, z2⟩ := v2
  simp only [cross, Vec3.sub, Vec3.smul, Vec3.mk.injEq] at hdeg ⊢
  rcases hdeg with ⟨a, b, c⟩ | ⟨a, b, c⟩ | ⟨a, b, c⟩ | ⟨s, a, b, c⟩ | ⟨s, a, b, c⟩
  · subst a b c; refine ⟨?_, ?_, ?_⟩ <;> ring
  · subst a b c; refine ⟨?_, ?_, ?_⟩ <;> ring
  · subst a b c; refine ⟨?_, ?_, ?_⟩ <;> ring
  · have ex : x2 = x0 + s * (x1 - x0) := by linarith
    have ey : y2 = y0 + s * (y1 - y0) := by linarith
    have ez : z2 = z0 + s * (z1 - z0) := by linarith
    subst ex ey ez; refine ⟨?_, ?_, ?_⟩ <;> ring
  · have ex : x1 = x0 + s * (x2 - x0) := by linarith
    have ey : y1 = y0 + s * (y2 - y0) := by linarith
    have ez : z1 = z0 + s * (z2 - z0) := by linarith
    subst ex ey ez; refine ⟨?_, ?_, ?_⟩ <;> ring

theorem dot_zero_left {K : Type} [LinearOrderedField K] (d : Vec3 K) :
    dot (⟨0, 0, 0⟩ : Vec3 K) d = 0 := by
  simp [dot]

/-! ## The bounds callback -/

/-- C14: with the ids in range, `triangle_bounds_func` returns the box whose lower corner
is the componentwise minimum and whose upper corner is the componentwise maximum of the
three stored vertex positions; the box contains the three vertices and lies in every box
that contains them; for the triangle `(0,0,0), (1,0,0), (0,1,0)` it is
`min = (0,0,0)`, `max = (1,1,0)`. -/
theorem triangle_bounds_func_box {K : Type} [LinearOrderedField K]
    (meshes : List (Mesh (Vec3 K))) (geomID primID : Nat)
    (mesh : Mesh (Vec3 K)) (tri : Triangle) (v0 v1 v2 : Vec3 K)
    (hm : meshes[geomID]? = some mesh) (ht : mesh.tris_[primID]? = some tri)
    (h0 : mesh.x_[tri.v0]? = some v0) (h1 : mesh.x_[tri.v1]? = some v1)
    (h2 : mesh.x_[tri.v2]? = some v2) :
    triangle_bounds_func meshes geomID primID
        = ⟨⟨((min (min v0.x v1.x) v2.x : K) : WithTop K),
            ((min (min v0.y v1.y) v2.y : K) : WithTop K),
            ((min (min v0.z v1.z) v2.z : K) : WithTop K)⟩,
           ⟨((max (max v0.x v1.x) v2.x : K) : WithBot K),
            ((max (max v0.y v1.y) v2.y : K) : WithBot K),
            ((max (max v0.z v1.z) v2.z : K) : WithBot K)⟩⟩
      ∧ (triangle_bounds_func meshes geomID primID).contains v0
      ∧ (triangle_bounds_func meshes geomID primID).contains v1
      ∧ (triangle_bounds_func meshes geomID primID).contains v2
      ∧ (∀ b : BBox3fa K, b.contains v0 → b.contains v1 → b.contains v2 →
          (triangle_bounds_func meshes geomID primID).within b)
      ∧ (v0 = ⟨0, 0, 0⟩ → v1 = ⟨1, 0, 0⟩ → v2 = ⟨0, 1, 0⟩ →
          triangle_bounds_func meshes geomID primID
            = ⟨⟨((0 : K) : WithTop K), ((0 : K) : WithTop K), ((0 : K) : WithTop K)⟩,
               ⟨((1 : K) : WithBot K), ((1 : K) : WithBot K), ((0 : K) : WithBot K)⟩⟩) := by
  have heq : triangle_bounds_func meshes geomID primID
      = ⟨⟨((min (min v0.x v1.x) v2.x : K) : WithTop K),
          ((min (min v0.y v1.y) v2.y : K) : WithTop K),
          ((min (min v0.z v1.z) v2.z : K) : WithTop K)⟩,
         ⟨((max (max v0.x v1.x) v2.x : K) : WithBot K),
          ((max (max v0.y v1.y) v2.y : K) : WithBot K),
          ((max (max v0.z v1.z) v2.z : K) : WithBot K)⟩⟩ := by
    unfold triangle_bounds_func
    simp only [getD_of_getElem? _ hm, getD_of_getElem? _ ht, getD_of_getElem? _ h0,
      getD_of_getElem? _ h1, getD_of_getElem? _ h2, BBox3fa.extend, BBox3fa.empty]
    simp [WithTop.coe_min, WithBot.coe_max]
  refine ⟨heq, ?_, ?_, ?_, ?_, ?_⟩
  · rw [heq]; simp [BBox3fa.contains]
  · rw [heq]; simp [BBox3fa.contains]
  · rw [heq]; simp [BBox3fa.contains]
  · intro b c0 c1 c2
    rw [heq]
    obtain ⟨a0, a1, a2, a3, a4, a5⟩ := c0
    obtain ⟨b0, b1, b2, b3, b4, b5⟩ := c1
    obtain ⟨d0, d1, d2, d3, d4, d5⟩ := c2
    simp only [BBox3fa.within, WithTop.coe_min, WithBot.coe_max]
    exact ⟨le_min (le_min a0 b0) d0, le_min (le_min a1 b1) d1, le_min (le_min a2 b2) d2,
      max_le (max_le a3 b3) d3, max_le (max_le a4 b4) d4, max_le (max_le a5 b5) d5⟩
  · intro e0 e1 e2
    rw [heq, e0, e1, e2]
    simp

/-- C14, instantiated: the bounding box of triangle `A`. -/
theorem triangle_bounds_func_box_witness :
    triangle_bounds_func [meshA] 0 0
      = ⟨⟨((0 : ℚ) : WithTop ℚ), ((0 : ℚ) : WithTop ℚ), ((0 : ℚ) : WithTop ℚ)⟩,
         ⟨((1 : ℚ) : WithBot ℚ), ((1 : ℚ) : WithBot ℚ), ((0 : ℚ) : WithBot ℚ)⟩⟩ :=
  (triangle_bounds_func_box [meshA] 0 0 meshA ⟨0, 1, 2⟩ ⟨0, 0, 0⟩ ⟨1, 0, 0⟩ ⟨0, 1, 0⟩
    rfl rfl rfl rfl rfl).2.2.2.2.2 rfl rfl rfl

/-! ## Order of the survivors and lock discipline -/

/-- C20: the in-place removal is not order-preserving and copies instead of swapping.  On
the batch `[pass1, fail, pass2, pass3]` the array ends as `[pass1, pass3, pass2, pass3]`
with three survivors, appended in the order `pass1, pass3, pass2` while their input order is
`pass1, pass2, pass3`; the last slot holds a stale copy, the array is no permutation of the
input and the rejected candidate is gone from it.  In general every entry of the array
after the call is one of the entries it held before. -/
theorem removal_copies_and_reorders :
    (CollideFunc straddle_oracle [meshStrip, meshStrip] [] orderBatch 4).collisions
        = [⟨0, 0, 0, 2⟩, ⟨1, 0, 0, 2⟩, ⟨0, 1, 0, 2⟩, ⟨1, 0, 0, 2⟩]
      ∧ (CollideFunc straddle_oracle [meshStrip, meshStrip] [] orderBatch 4).num_collisions = 3
      ∧ (CollideFunc straddle_oracle [meshStrip, meshStrip] [] orderBatch 4).userPtr
        = [((0, 0), (0, 2)), ((1, 0), (0, 2)), ((0, 1), (0, 2))]
      ∧ (orderBatch.filter (intersect_candidate straddle_oracle [meshStrip, meshStrip]))
        = [⟨0, 0, 0, 2⟩, ⟨0, 1, 0, 2⟩, ⟨1, 0, 0, 2⟩]
      ∧ ¬ (CollideFunc straddle_oracle [meshStrip, meshStrip] [] orderBatch 4).collisions.Perm
          orderBatch
      ∧ (⟨0, 0, 0, 1⟩ : RTCCollision) ∈ orderBatch
      ∧ (⟨0, 0, 0, 1⟩ : RTCCollision)
          ∉ (CollideFunc straddle_oracle [meshStrip, meshStrip] [] orderBatch 4).collisions
      ∧ (∀ (V : Type) [Inhabited V] (isect : V → V → V → V → V → V → Bool)
          (meshes : List (Mesh V)) (userPtr : Collisions) (collisions : List RTCCollision)
          (n : Nat), n ≤ collisions.length →
          ∀ x ∈ (CollideFunc isect meshes userPtr collisions n).collisions,
            x ∈ collisions) := by
  refine ⟨by decide, by decide, by decide, by decide, ?_, by decide, by decide, ?_⟩
  · intro hperm
    have hcount := hperm.count_eq (⟨0, 0, 0, 1⟩ : RTCCollision)
    revert hcount
    decide
  · intro V _ isect meshes userPtr collisions n h x hx
    obtain ⟨s, st, hperm, _, _, hst, hc, _, _, _, _⟩ :=
      CollideFunc_state isect meshes userPtr collisions n h
    rw [hc] at hx
    rcases List.mem_append.mp hx with hx | hx
    · rcases List.mem_append.mp hx with hx | hx
      · exact List.mem_of_mem_take (List.mem_of_mem_filter (hperm.subset hx))
      · exact List.mem_of_mem_take (hst x hx)
    · exact List.mem_of_mem_drop hx

/-- C20, instantiated: the general part on the sample batch. -/
theorem removal_copies_and_reorders_witness :
    5 ≤ sampleBatch.length
      ∧ (⟨0, 0, 1, 0⟩ : RTCCollision)
          ∈ (CollideFunc straddle_oracle [meshStrip, meshFlat] [] sampleBatch 5).collisions
      ∧ (⟨0, 0, 1, 0⟩ : RTCCollision) ∈ sampleBatch :=
  ⟨by decide, by decide,
   removal_copies_and_reorders.2.2.2.2.2.2.2 (Vec3 ℤ) straddle_oracle [meshStrip, meshFlat] []
     sampleBatch 5 (by decide) ⟨0, 0, 1, 0⟩ (by decide)⟩

theorem lock_respected_pushes (cs : List Collision) (t : List Event) :
    lock_respected true (cs.map Event.push_back ++ t) = lock_respected true t := by
  induction cs with
  | nil => rfl
  | cons c cs ih => simpa [lock_respected] using ih

theorem pushed_entries_pushes (cs : List Collision) (t : List Event) :
    pushed_entries (cs.map Event.push_back ++ t) = cs ++ pushed_entries t := by
  induction cs with
  | nil => rfl
  | cons c cs ih => simpa [pushed_entries] using ih

theorem count_pushes (cs : List Collision) :
    (cs.map Event.push_back).count Event.acquire = 0
      ∧ (cs.map Event.push_back).count Event.release = 0 := by
  induction cs with
  | nil => simp
  | cons c cs ih =>
    simp only [List.map_cons]
    rw [List.count_cons_of_ne (by simp), List.count_cons_of_ne (by simp)]
    exact ih

theorem not_mem_pushes (cs : List Collision) :
    Event.acquire ∉ cs.map Event.push_back ∧ Event.release ∉ cs.map Event.push_back := by
  constructor <;> intro hm <;> obtain ⟨c, _, hc⟩ := List.mem_map.mp hm <;>
    exact Event.noConfusion hc

/-- Around any append of a trace `acquire, appends, release`: one `acquire` and no
`release` before it, no `acquire` and one `release` after it. -/
theorem trace_split (cs : List Collision) (pre post : List Event) (c : Collision)
    (h : Event.acquire :: cs.map Event.push_back ++ [Event.release]
      = pre ++ Event.push_back c :: post) :
    pre.count Event.acquire = 1 ∧ pre.count Event.release = 0
      ∧ post.count Event.acquire = 0 ∧ post.count Event.release = 1 := by
  obtain ⟨hna, hnr⟩ := not_mem_pushes cs
  cases pre with
  | nil => simp at h
  | cons e pre' =>
    rw [List.cons_append, List.cons_append, List.cons.injEq] at h
    obtain ⟨he, h⟩ := h
    subst he
    rcases List.append_eq_append_iff.mp h with ⟨a', h1, h2⟩ | ⟨c', h1, h2⟩
    · -- the append would lie in `[release]`
      exfalso
      cases a' with
      | nil => simp at h2
      | cons x a'' =>
        have hl := congrArg List.length h2
        simp at hl
    · have hpre : ∀ x ∈ pre', x ∈ cs.map Event.push_back := by
        intro x hx; rw [h1]; exact List.mem_append_left _ hx
      cases c' with
      | nil => simp at h2
      | cons y c'' =>
        rw [List.cons_append, List.cons.injEq] at h2
        obtain ⟨_, h2⟩ := h2
        have hc'' : ∀ x ∈ c'', x ∈ cs.map Event.push_back := by
          intro x hx; rw [h1]
          exact List.mem_append_right _ (List.mem_cons_of_mem _ hx)
        have e1 : pre'.count Event.acquire = 0 :=
          List.count_eq_zero_of_not_mem (fun hx => hna (hpre _ hx))
        have e2 : pre'.count Event.release = 0 :=
          List.count_eq_zero_of_not_mem (fun hx => hnr (hpre _ hx))
        have e3 : c''.count Event.acquire = 0 :=
          List.count_eq_zero_of_not_mem (fun hx => hna (hc'' _ hx))
        have e4 : c''.count Event.release = 0 :=
          List.count_eq_zero_of_not_mem (fun hx => hnr (hc'' _ hx))
        rw [h2, List.count_cons_self, List.count_cons_of_ne (by simp), List.count_append,
          List.count_append, e1, e2, e3, e4]
        simp

/-- C16: locking discipline of one call, on its trace of acquire / push_back / release
events.  The trace always respects the lock (no append without the lock, no lock left
held), and its appends are exactly the entries added to the list.  When at least one
candidate survives, the trace is one `acquire`, then the appends of the compacted prefix
left by the finished filtering, then one `release`: the lock is acquired exactly once and
before the first append, and released exactly once, after the last. -/
theorem locking_discipline {V : Type} [Inhabited V]
    (isect : V → V → V → V → V → V → Bool) (meshes : List (Mesh V))
    (userPtr : Collisions) (collisions : List RTCCollision) (n : Nat)
    (h : n ≤ collisions.length) :
    lock_respected false (CollideFunc isect meshes userPtr collisions n).trace = true
      ∧ (CollideFunc isect meshes userPtr collisions n).userPtr
          = userPtr ++ pushed_entries (CollideFunc isect meshes userPtr collisions n).trace
      ∧ ((CollideFunc isect meshes userPtr collisions n).num_collisions ≠ 0 →
          (CollideFunc isect meshes userPtr collisions n).trace
              = Event.acquire ::
                  (((CollideFunc isect meshes userPtr collisions n).collisions.take
                      (CollideFunc isect meshes userPtr collisions n).num_collisions).map
                    (fun c => Event.push_back (make_collision c)) ++ [Event.release])
            ∧ (CollideFunc isect meshes userPtr collisions n).trace.count Event.acquire = 1
            ∧ (CollideFunc isect meshes userPtr collisions n).trace.count Event.release = 1
            ∧ (∀ (pre post : List Event) (c : Collision),
                (CollideFunc isect meshes userPtr collisions n).trace
                    = pre ++ Event.push_back c :: post →
                  pre.count Event.acquire = 1 ∧ pre.count Event.release = 0
                    ∧ post.count Event.acquire = 0 ∧ post.count Event.release = 1))
      ∧ ((CollideFunc isect meshes userPtr collisions n).num_collisions = 0 →
          (CollideFunc isect meshes userPtr collisions n).trace = []) := by
  obtain ⟨s, st, _, _, _, _, hc, hn, hu, htr, _⟩ :=
    CollideFunc_state isect meshes userPtr collisions n h
  have htake : (s ++ st ++ List.drop n collisions).take s.length = s := by
    rw [List.append_assoc, List.take_left]
  have hmap : s.map (fun c => Event.push_back (make_collision c))
      = (s.map make_collision).map Event.push_back := by
    rw [List.map_map]; rfl
  rw [hc, hn, hu, htr, htake]
  by_cases hs : s = []
  · subst hs
    simp [lock_respected, pushed_entries]
  · have hne : s.length ≠ 0 := fun h0 => hs (List.length_eq_zero.mp h0)
    rw [if_neg hs, hmap]
    have hcnt := count_pushes (s.map make_collision)
    refine ⟨?_, ?_, ?_, fun h0 => absurd h0 hne⟩
    · rw [List.cons_append]
      show lock_respected true
        ((s.map make_collision).map Event.push_back ++ [Event.release]) = true
      rw [lock_respected_pushes]
      rfl
    · rw [List.cons_append]
      show userPtr ++ s.map make_collision
        = userPtr ++ pushed_entries
            ((s.map make_collision).map Event.push_back ++ [Event.release])
      rw [pushed_entries_pushes]
      simp [pushed_entries]
    · intro _
      refine ⟨rfl, ?_, ?_, ?_⟩
      · rw [List.cons_append, List.count_cons_self, List.count_append, hcnt.1]
        rfl
      · rw [List.cons_append, List.count_cons_of_ne (by simp), List.count_append, hcnt.2]
        rfl
      · intro pre post c hsplit
        exact trace_split (s.map make_collision) pre post c hsplit

/-- C16, instantiated on the sample batch: two survivors, appended between one `acquire`
and one `release`. -/
theorem locking_discipline_witness :
    5 ≤ sampleBatch.length
      ∧ (CollideFunc straddle_oracle [meshStrip, meshFlat] [] sampleBatch 5).trace
          = [Event.acquire, Event.push_back ((0, 0), (0, 2)), Event.push_back ((0, 0), (0, 2)),
              Event.release]
      ∧ lock_respected false
          (CollideFunc straddle_oracle [meshStrip, meshFlat] [] sampleBatch 5).trace = true :=
  ⟨by decide, by decide,
   (locking_discipline straddle_oracle [meshStrip, meshFlat] [] sampleBatch 5 (by decide)).1⟩

/-! ## Termination and cost of the filtering loop -/

theorem filterLoop_eq_filterIter (pred : RTCCollision → Bool) :
    ∀ (steps : Nat) (collisions : List RTCCollision) (i n : Nat),
      filterLoop pred steps collisions i n
        = ((filterIter pred steps ⟨collisions, i, n⟩).collisions,
           (filterIter pred steps ⟨collisions, i, n⟩).num_collisions) := by
  intro steps
  induction steps with
  | zero => intro collisions i n; rfl
  | succ steps ih =>
    intro collisions i n
    rw [filterLoop, filterIter]
    by_cases hlt : i < n
    · simp only [hlt, if_true]
      by_cases hp : pred (collisions.getD i default) = true
      · have hb : filterBody pred ⟨collisions, i, n⟩ = ⟨collisions, i + 1, n⟩ := by
          unfold filterBody; dsimp only; rw [if_pos hp]
        rw [if_pos hp, ih, hb]
      · have hb : filterBody pred ⟨collisions, i, n⟩
            = ⟨collisions.set i (collisions.getD (n - 1) default), i, n - 1⟩ := by
          unfold filterBody; dsimp only; rw [if_neg hp]
        rw [if_neg hp, ih, hb]
    · simp only [hlt, if_false]

/-- Every iteration lowers `num_collisions - i` by one. -/
theorem filterBody_measure (pred : RTCCollision → Bool) (st : LoopState)
    (h : st.i < st.num_collisions) :
    (filterBody pred st).num_collisions - (filterBody pred st).i + 1
      = st.num_collisions - st.i := by
  unfold filterBody
  split <;> simp <;> omega

theorem filterIter_measure (pred : RTCCollision → Bool) :
    ∀ (k : Nat) (st : LoopState),
      (filterIter pred k st).num_collisions - (filterIter pred k st).i
        = (st.num_collisions - st.i) - k := by
  intro k
  induction k with
  | zero => intro st; rfl
  | succ k ih =>
    intro st
    rw [filterIter]
    by_cases hlt : st.i < st.num_collisions
    · rw [if_pos hlt, ih]
      have := filterBody_measure pred st hlt
      omega
    · rw [if_neg hlt]; omega

theorem evaluated_length (pred : RTCCollision → Bool) :
    ∀ (k : Nat) (st : LoopState),
      (evaluated pred k st).length = min k (st.num_collisions - st.i) := by
  intro k
  induction k with
  | zero => intro st; simp [evaluated]
  | succ k ih =>
    intro st
    rw [evaluated]
    by_cases hlt : st.i < st.num_collisions
    · rw [if_pos hlt, List.length_cons, ih]
      have := filterBody_measure pred st hlt
      omega
    · rw [if_neg hlt]; simp; omega

theorem filterBody_pass (pred : RTCCollision → Bool) (pre : List RTCCollision)
    (x : RTCCollision) (t post : List RTCCollision) (hp : pred x = true) :
    filterBody pred ⟨pre ++ x :: t ++ post, pre.length, pre.length + (x :: t).length⟩
      = ⟨(pre ++ [x]) ++ t ++ post, (pre ++ [x]).length, (pre ++ [x]).length + t.length⟩ := by
  have hget : (pre ++ x :: t ++ post).getD pre.length default = x := by
    rw [List.append_assoc, List.cons_append]; exact getD_middle _ _ _ _
  unfold filterBody
  simp only [hget, hp, if_true]
  simp [Nat.add_assoc, Nat.add_comm 1]

theorem filterBody_reject_last (pred : RTCCollision → Bool) (pre : List RTCCollision)
    (x : RTCCollision) (post : List RTCCollision) (hp : ¬ pred x = true) :
    filterBody pred ⟨pre ++ [x] ++ post, pre.length, pre.length + [x].length⟩
      = ⟨pre ++ [] ++ (x :: post), pre.length,
          pre.length + ([] : List RTCCollision).length⟩ := by
  have hget : (pre ++ [x] ++ post).getD pre.length default = x := by
    rw [List.append_assoc, List.cons_append]; exact getD_middle _ _ _ _
  have h1 : pre.length + [x].length - 1 = pre.length := by simp
  unfold filterBody
  simp only [hget, hp, h1]
  simp

theorem filterBody_reject (pred : RTCCollision → Bool) (pre : List RTCCollision)
    (x : RTCCollision) (t' : List RTCCollision) (l : RTCCollision)
    (post : List RTCCollision) (hp : ¬ pred x = true) :
    filterBody pred ⟨pre ++ x :: (t' ++ [l]) ++ post, pre.length,
        pre.length + (x :: (t' ++ [l])).length⟩
      = ⟨pre ++ (l :: t') ++ (l :: post), pre.length, pre.length + (l :: t').length⟩ := by
  have hget : (pre ++ x :: (t' ++ [l]) ++ post).getD pre.length default = x := by
    rw [List.append_assoc, List.cons_append]; exact getD_middle _ _ _ _
  have hlast : (pre ++ x :: (t' ++ [l]) ++ post).getD
      (pre.length + (x :: (t' ++ [l])).length - 1) default = l := by
    have h1 : pre.length + (x :: (t' ++ [l])).length - 1 = (pre ++ x :: t').length := by
      simp
    have h2 : pre ++ x :: (t' ++ [l]) ++ post = (pre ++ x :: t') ++ l :: post := by
      simp
    rw [h1, h2]; exact getD_middle _ _ _ _
  have h2 : pre ++ x :: (t' ++ [l]) ++ post = pre ++ x :: (t' ++ l :: post) := by
    simp
  unfold filterBody
  simp only [hget, hp, hlast]
  rw [h2, set_middle]
  simp

/-- The candidates evaluated by the loop on a window are the entries of the window, each
once. -/
theorem evaluated_window (pred : RTCCollision → Bool) :
    ∀ (steps : Nat) (pre W post : List RTCCollision), W.length ≤ steps →
      (evaluated pred steps ⟨pre ++ W ++ post, pre.length, pre.length + W.length⟩).Perm W := by
  intro steps
  induction steps with
  | zero =>
    intro pre W post h
    have hW : W = [] := List.length_eq_zero.mp (Nat.le_zero.mp h)
    subst hW
    simp [evaluated]
  | succ steps ih =>
    intro pre W post h
    cases W with
    | nil => simp [evaluated]
    | cons x t =>
      have hlt : pre.length < pre.length + (x :: t).length := by simp
      have hget : (pre ++ x :: t ++ post).getD pre.length default = x := by
        rw [List.append_assoc, List.cons_append]; exact getD_middle _ _ _ _
      rw [evaluated]
      dsimp only
      rw [if_pos hlt, hget]
      by_cases hp : pred x = true
      · rw [filterBody_pass pred pre x t post hp]
        exact (ih (pre ++ [x]) t post (by simpa using h)).cons x
      · rcases List.eq_nil_or_concat t with ht | ⟨t', l, ht⟩
        · subst ht
          rw [filterBody_reject_last pred pre x post hp]
          exact (ih pre [] (x :: post) (by simp)).cons x
        · rw [List.concat_eq_append] at ht
          subst ht
          rw [filterBody_reject pred pre x t' l post hp]
          refine ((ih pre (l :: t') (l :: post) (by simpa using h)).cons x).trans ?_
          refine List.Perm.cons x ?_
          simpa using (List.perm_append_comm : ([l] ++ t').Perm (t' ++ [l]))

/-- C18: the filtering loop terminates and is linear.  Every iteration lowers
`num_collisions - i`; started on a batch of `N` candidates the loop condition holds before
each of the first `N` iterations and fails after the `N`-th, where the state is the one
`CollideFunc` continues with; the predicate is evaluated `N` times in all, on a
rearrangement of the `N` original candidates; an iteration that rejects writes the single
slot `collisions[i]` and leaves every other slot and the length alone, an iteration that
accepts writes nothing. -/
theorem filter_loop_terminates_linear {V : Type} [Inhabited V]
    (isect : V → V → V → V → V → V → Bool) (meshes : List (Mesh V)) :
    (∀ st : LoopState, st.i < st.num_collisions →
        (filterBody (intersect_candidate isect meshes) st).num_collisions
            - (filterBody (intersect_candidate isect meshes) st).i
          < st.num_collisions - st.i)
      ∧ (∀ (collisions : List RTCCollision) (N : Nat),
          (∀ k : Nat, k < N →
              (filterIter (intersect_candidate isect meshes) k ⟨collisions, 0, N⟩).i
                < (filterIter (intersect_candidate isect meshes) k
                    ⟨collisions, 0, N⟩).num_collisions)
            ∧ ¬ ((filterIter (intersect_candidate isect meshes) N ⟨collisions, 0, N⟩).i
                < (filterIter (intersect_candidate isect meshes) N
                    ⟨collisions, 0, N⟩).num_collisions)
            ∧ (∀ userPtr : Collisions,
                (CollideFunc isect meshes userPtr collisions N).collisions
                    = (filterIter (intersect_candidate isect meshes) N
                        ⟨collisions, 0, N⟩).collisions
                  ∧ (CollideFunc isect meshes userPtr collisions N).num_collisions
                    = (filterIter (intersect_candidate isect meshes) N
                        ⟨collisions, 0, N⟩).num_collisions)
            ∧ (∀ k : Nat,
                (evaluated (intersect_candidate isect meshes) k ⟨collisions, 0, N⟩).length
                  = min k N)
            ∧ (N ≤ collisions.length →
                (evaluated (intersect_candidate isect meshes) N ⟨collisions, 0, N⟩).Perm
                  (collisions.take N)))
      ∧ (∀ st : LoopState,
          intersect_candidate isect meshes (st.collisions.getD st.i default) = false →
          (filterBody (intersect_candidate isect meshes) st).collisions
              = st.collisions.set st.i (st.collisions.getD (st.num_collisions - 1) default)
            ∧ (filterBody (intersect_candidate isect meshes) st).collisions.length
              = st.collisions.length
            ∧ (∀ j : Nat, j ≠ st.i →
                (filterBody (intersect_candidate isect meshes) st).collisions[j]?
                  = st.collisions[j]?))
      ∧ (∀ st : LoopState,
          intersect_candidate isect meshes (st.collisions.getD st.i default) = true →
          (filterBody (intersect_candidate isect meshes) st).collisions = st.collisions) := by
  refine ⟨?_, ?_, ?_, ?_⟩
  · intro st h
    have := filterBody_measure (intersect_candidate isect meshes) st h
    omega
  · intro collisions N
    have hm := fun k => filterIter_measure (intersect_candidate isect meshes) k
      ⟨collisions, 0, N⟩
    refine ⟨?_, ?_, ?_, ?_, ?_⟩
    · intro k hk
      have := hm k
      simp only at this
      omega
    · have := hm N
      simp only at this
      omega
    · intro userPtr
      have he := filterLoop_eq_filterIter (intersect_candidate isect meshes) N collisions 0 N
      unfold CollideFunc
      rw [he]
      dsimp only
      split <;> exact ⟨rfl, rfl⟩
    · intro k
      rw [evaluated_length]
      rfl
    · intro h
      have hlen : (collisions.take N).length = N := by simp [h]
      have hw := evaluated_window (intersect_candidate isect meshes) N []
        (collisions.take N) (collisions.drop N) (by simp)
      simp only [List.nil_append, List.length_nil, Nat.zero_add, List.take_append_drop] at hw
      rw [hlen] at hw
      exact hw
  · intro st hp
    have hb : (filterBody (intersect_candidate isect meshes) st).collisions
        = st.collisions.set st.i (st.collisions.getD (st.num_collisions - 1) default) := by
      unfold filterBody
      rw [hp]
      rfl
    rw [hb]
    refine ⟨rfl, List.length_set _ _ _, ?_⟩
    intro j hj
    exact List.getElem?_set_ne (Ne.symm hj)
  · intro st hp
    unfold filterBody
    rw [hp]
    rfl

/-- C18, instantiated on the sample batch: five candidates, five evaluations, among them
the copy moved from the last slot to slot 1. -/
theorem filter_loop_terminates_linear_witness :
    5 ≤ sampleBatch.length
      ∧ evaluated (intersect_candidate straddle_oracle [meshStrip, meshFlat]) 5
          ⟨sampleBatch, 0, 5⟩
        = [⟨0, 0, 0, 2⟩, ⟨0, 1, 0, 1⟩, ⟨0, 0, 0, 2⟩, ⟨0, 0, 0, 1⟩, ⟨0, 0, 1, 0⟩]
      ∧ (evaluated (intersect_candidate straddle_oracle [meshStrip, meshFlat]) 5
          ⟨sampleBatch, 0, 5⟩).Perm (sampleBatch.take 5) :=
  ⟨by decide, by decide,
   ((filter_loop_terminates_linear straddle_oracle [meshStrip, meshFlat]).2.1 sampleBatch
      5).2.2.2.2 (by decide)⟩

/-! ## Accesses stay in bounds -/

/-- A valid primitive of a valid registry has a mesh, a triangle and three stored
positions. -/
theorem valid_prim_lookup {V : Type} (meshes : List (Mesh V)) (g p : Nat)
    (hreg : valid_registry meshes) (hv : valid_prim meshes g p) :
    ∃ (mesh : Mesh V) (tri : Triangle) (v0 v1 v2 : V),
      meshes[g]? = some mesh ∧ mesh.tris_[p]? = some tri ∧ mesh.x_[tri.v0]? = some v0
        ∧ mesh.x_[tri.v1]? = some v1 ∧ mesh.x_[tri.v2]? = some v2 := by
  obtain ⟨mesh, hm, hp⟩ := hv
  have hmem : mesh ∈ meshes := List.getElem?_mem hm
  have htri : mesh.tris_[p] ∈ mesh.tris_ := List.getElem_mem hp
  obtain ⟨b0, b1, b2⟩ := hreg mesh hmem _ htri
  exact ⟨mesh, mesh.tris_[p], mesh.x_[(mesh.tris_[p]).v0], mesh.x_[(mesh.tris_[p]).v1],
    mesh.x_[(mesh.tris_[p]).v2], hm, List.getElem?_eq_getElem hp,
    List.getElem?_eq_getElem b0, List.getElem?_eq_getElem b1, List.getElem?_eq_getElem b2⟩

theorem intersect_triangle_triangle_checked_eq {V : Type} [Inhabited V]
    (isect : V → V → V → V → V → V → Bool) (meshes : List (Mesh V))
    (hreg : valid_registry meshes) (c : RTCCollision) (hv : valid_candidate meshes c) :
    intersect_triangle_triangle_checked isect meshes c.geomID0 c.primID0 c.geomID1 c.primID1
      = some (intersect_triangle_triangle isect meshes c.geomID0 c.primID0 c.geomID1
          c.primID1) := by
  obtain ⟨mesh0, tri0, a0, a1, a2, hm0, ht0, ha0, ha1, ha2⟩ :=
    valid_prim_lookup meshes c.geomID0 c.primID0 hreg hv.1
  obtain ⟨mesh1, tri1, b0, b1, b2, hm1, ht1, hb0, hb1, hb2⟩ :=
    valid_prim_lookup meshes c.geomID1 c.primID1 hreg hv.2
  rw [intersect_triangle_triangle_lookup isect meshes c.geomID0 c.primID0 c.geomID1
    c.primID1 mesh0 mesh1 tri0 tri1 a0 a1 a2 b0 b1 b2 hm0 hm1 ht0 ht1 ha0 ha1 ha2 hb0 hb1 hb2]
  unfold intersect_triangle_triangle_checked
  simp only [hm0, hm1, ht0, ht1, ha0, ha1, ha2, hb0, hb1, hb2, Option.bind_eq_bind,
    Option.some_bind]
  split
  · rfl
  · split <;> rfl

theorem getElem?_middle {α : Type} (pre : List α) (x : α) (post : List α) :
    (pre ++ x :: post)[pre.length]? = some x := by
  rw [List.getElem?_append_right (Nat.le_refl _)]
  simp

/-- On a window of candidates for which the checked predicate answers, the checked loop
answers, with the result of the loop. -/
theorem filterLoop_checked_window (predc : RTCCollision → Option Bool)
    (pred : RTCCollision → Bool) :
    ∀ (steps : Nat) (pre W post : List RTCCollision), W.length ≤ steps →
      (∀ c ∈ W, predc c = some (pred c)) →
      filterLoop_checked predc steps (pre ++ W ++ post) pre.length (pre.length + W.length)
        = some (filterLoop pred steps (pre ++ W ++ post) pre.length
            (pre.length + W.length)) := by
  intro steps
  induction steps with
  | zero =>
    intro pre W post h _
    have hW : W = [] := List.length_eq_zero.mp (Nat.le_zero.mp h)
    subst hW
    simp [filterLoop_checked, filterLoop]
  | succ steps ih =>
    intro pre W post h hok
    cases W with
    | nil => simp [filterLoop_checked, filterLoop]
    | cons x t =>
      have hlt : pre.length < pre.length + (x :: t).length := by simp
      have hget : (pre ++ x :: t ++ post).getD pre.length default = x := by
        rw [List.append_assoc, List.cons_append]; exact getD_middle _ _ _ _
      have hget? : (pre ++ x :: t ++ post)[pre.length]? = some x := by
        rw [List.append_assoc, List.cons_append]; exact getElem?_middle _ _ _
      have hx : predc x = some (pred x) := hok x (List.mem_cons_self _ _)
      rw [filterLoop_checked, filterLoop, if_pos hlt, if_pos hlt, hget, hget?]
      simp only [Option.bind_eq_bind, Option.some_bind, hx]
      by_cases hp : pred x = true
      · rw [if_pos hp, if_pos hp]
        have e1 : pre ++ x :: t ++ post = (pre ++ [x]) ++ t ++ post := by simp
        have e2 : pre.length + 1 = (pre ++ [x]).length := by simp
        have e3 : pre.length + (x :: t).length = (pre ++ [x]).length + t.length := by
          simp [Nat.add_assoc, Nat.add_comm 1]
        rw [e1, e2, e3]
        exact ih (pre ++ [x]) t post (by simpa using h)
          (fun c hc => hok c (List.mem_cons_of_mem _ hc))
      · rw [if_neg hp, if_neg hp]
        have hn0 : ¬ (pre.length + (x :: t).length = 0) := by simp
        rw [if_neg hn0]
        rcases List.eq_nil_or_concat t with ht | ⟨t', l, ht⟩
        · subst ht
          have h1 : pre.length + [x].length - 1 = pre.length := by simp
          rw [h1, hget, hget?]
          simp only [Option.some_bind]
          have e1 : (pre ++ [x] ++ post).set pre.length x = pre ++ [] ++ (x :: post) := by
            simp
          have e2 : pre.length = pre.length + ([] : List RTCCollision).length := by simp
          rw [e1]
          conv => lhs; arg 5; rw [e2]
          conv => rhs; arg 1; arg 5; rw [e2]
          exact ih pre [] (x :: post) (by simp) (by simp)
        · rw [List.concat_eq_append] at ht
          subst ht
          have h1 : pre.length + (x :: (t' ++ [l])).length - 1 = (pre ++ x :: t').length := by
            simp
          have h2 : pre ++ x :: (t' ++ [l]) ++ post = (pre ++ x :: t') ++ l :: post := by
            simp
          have hlast : (pre ++ x :: (t' ++ [l]) ++ post).getD
              (pre.length + (x :: (t' ++ [l])).length - 1) default = l := by
            rw [h1, h2]; exact getD_middle _ _ _ _
          have hlast? : (pre ++ x :: (t' ++ [l]) ++ post)[
              pre.length + (x :: (t' ++ [l])).length - 1]? = some l := by
            rw [h1, h2]; exact getElem?_middle _ _ _
          rw [hlast, hlast?]
          simp only [Option.some_bind]
          have e1 : (pre ++ x :: (t' ++ [l]) ++ post).set pre.length l
              = pre ++ (l :: t') ++ (l :: post) := by
            have h3 : pre ++ x :: (t' ++ [l]) ++ post = pre ++ x :: (t' ++ l :: post) := by
              simp
            rw [h3, set_middle]; simp
          have e2 : pre.length + (x :: (t' ++ [l])).length - 1
              = pre.length + (l :: t').length := by simp
          rw [e1, e2]
          exact ih pre (l :: t') (l :: post) (by simpa using h)
            (fun c hc => hok c (by
              rcases List.mem_cons.mp hc with rfl | hc
              · simp
              · exact List.mem_cons_of_mem _ (List.mem_append_left _ hc)))

theorem pushLoop_checked_eq (collisions : List RTCCollision) (userPtr : Collisions)
    (trace : List Event) :
    ∀ n : Nat, n ≤ collisions.length →
      pushLoop_checked collisions n userPtr trace
        = some (pushLoop collisions n userPtr trace) := by
  intro n
  induction n with
  | zero => intro _; rfl
  | succ n ih =>
    intro h
    have hn : n < collisions.length := h
    have ih' := ih (Nat.le_of_lt hn)
    unfold pushLoop_checked pushLoop at ih' ⊢
    rw [List.range_succ, List.foldlM_append, ih', List.foldl_append]
    have hget : collisions.getD n default = collisions[n] := by
      simp [List.getD_eq_getElem?_getD, hn]
    simp only [Option.bind_eq_bind, Option.some_bind, List.foldlM_cons, List.foldlM_nil,
      List.foldl_cons, List.foldl_nil, List.getElem?_eq_getElem hn, hget]
    rfl

theorem triangle_bounds_func_checked_eq {K : Type} [LinearOrderedField K]
    (meshes : List (Mesh (Vec3 K))) (geomID primID : Nat)
    (mesh : Mesh (Vec3 K)) (tri : Triangle) (v0 v1 v2 : Vec3 K)
    (hm : meshes[geomID]? = some mesh) (ht : mesh.tris_[primID]? = some tri)
    (h0 : mesh.x_[tri.v0]? = some v0) (h1 : mesh.x_[tri.v1]? = some v1)
    (h2 : mesh.x_[tri.v2]? = some v2) :
    triangle_bounds_func_checked meshes geomID primID
      = some (triangle_bounds_func meshes geomID primID) := by
  unfold triangle_bounds_func_checked triangle_bounds_func
  simp only [hm, ht, h0, h1, h2, Option.bind_eq_bind, Option.some_bind,
    getD_of_getElem? _ hm, getD_of_getElem? _ ht, getD_of_getElem? _ h0,
    getD_of_getElem? _ h1, getD_of_getElem? _ h2]

theorem triangle_intersect_func_checked_eq {K : Type} [LinearOrderedField K]
    (meshes : List (Mesh (Vec3 K))) (geomID primID : Nat) (ray : Ray K)
    (mesh : Mesh (Vec3 K)) (tri : Triangle) (v0 v1 v2 : Vec3 K)
    (hm : meshes[geomID]? = some mesh) (ht : mesh.tris_[primID]? = some tri)
    (h0 : mesh.x_[tri.v0]? = some v0) (h1 : mesh.x_[tri.v1]? = some v1)
    (h2 : mesh.x_[tri.v2]? = some v2) :
    triangle_intersect_func_checked meshes geomID primID ray
      = some (triangle_intersect_func meshes geomID primID ray) := by
  unfold triangle_intersect_func_checked triangle_intersect_func
  simp only [hm, ht, h0, h1, h2, Option.bind_eq_bind, Option.some_bind,
    getD_of_getElem? _ hm, getD_of_getElem? _ ht, getD_of_getElem? _ h0,
    getD_of_getElem? _ h1, getD_of_getElem? _ h2]
  split
  · rfl
  · split <;> rfl

theorem CollideFunc_checked_eq {V : Type} [Inhabited V]
    (isect : V → V → V → V → V → V → Bool) (meshes : List (Mesh V))
    (userPtr : Collisions) (collisions : List RTCCollision) (n : Nat)
    (hreg : valid_registry meshes) (h : n ≤ collisions.length)
    (hval : ∀ c ∈ collisions.take n, valid_candidate meshes c) :
    CollideFunc_checked isect meshes userPtr collisions n
      = some (CollideFunc isect meshes userPtr collisions n) := by
  have hlen : (collisions.take n).length = n := by simp [h]
  have hf := filterLoop_checked_window
    (fun c => intersect_triangle_triangle_checked isect meshes c.geomID0 c.primID0 c.geomID1
      c.primID1) (intersect_candidate isect meshes) n [] (collisions.take n)
    (collisions.drop n) (by simp)
    (fun c hc => intersect_triangle_triangle_checked_eq isect meshes hreg c (hval c hc))
  simp only [List.nil_append, List.length_nil, Nat.zero_add, List.take_append_drop] at hf
  rw [hlen] at hf
  obtain ⟨s, st, he, _, _, _, _⟩ :=
    filterLoop_batch (intersect_candidate isect meshes) collisions n h
  have hle : s.length ≤ (s ++ st ++ List.drop n collisions).length := by simp
  unfold CollideFunc_checked CollideFunc
  rw [hf, he]
  simp only [Option.bind_eq_bind, Option.some_bind]
  split
  · rfl
  · rw [pushLoop_checked_eq _ _ _ _ hle]
    rfl

/-- C15: safety under the stated preconditions.  If every triangle of the registry has its
three indices inside the vertex array of its mesh, the batch has `n` entries inside the
array, and every candidate of the batch names existing meshes and existing triangles, then
the bounds-checked embeddings of `CollideFunc` (batch reads `collisions[i]`, reads
`collisions[--num_collisions]` with a checked decrement, writes `collisions[i]`),
`intersect_triangle_triangle`, `triangle_bounds_func` and `triangle_intersect_func` never
take an error branch: they return the results of the unchecked embeddings. -/
theorem accesses_in_bounds {K : Type} [LinearOrderedField K]
    (isect : Vec3 K → Vec3 K → Vec3 K → Vec3 K → Vec3 K → Vec3 K → Bool)
    (meshes : List (Mesh (Vec3 K))) (userPtr : Collisions)
    (collisions : List RTCCollision) (n : Nat)
    (hreg : valid_registry meshes) (h : n ≤ collisions.length)
    (hval : ∀ c ∈ collisions.take n, valid_candidate meshes c) :
    CollideFunc_checked isect meshes userPtr collisions n
        = some (CollideFunc isect meshes userPtr collisions n)
      ∧ (∀ c ∈ collisions.take n,
          intersect_triangle_triangle_checked isect meshes c.geomID0 c.primID0 c.geomID1
              c.primID1
            = some (intersect_triangle_triangle isect meshes c.geomID0 c.primID0 c.geomID1
                c.primID1))
      ∧ (∀ g p : Nat, valid_prim meshes g p →
          triangle_bounds_func_checked meshes g p = some (triangle_bounds_func meshes g p)
            ∧ ∀ ray : Ray K,
                triangle_intersect_func_checked meshes g p ray
                  = some (triangle_intersect_func meshes g p ray)) := by
  refine ⟨CollideFunc_checked_eq isect meshes userPtr collisions n hreg h hval, ?_, ?_⟩
  · intro c hc
    exact intersect_triangle_triangle_checked_eq isect meshes hreg c (hval c hc)
  · intro g p hv
    obtain ⟨mesh, tri, v0, v1, v2, hm, ht, h0, h1, h2⟩ := valid_prim_lookup meshes g p hreg hv
    exact ⟨triangle_bounds_func_checked_eq meshes g p mesh tri v0 v1 v2 hm ht h0 h1 h2,
      fun ray => triangle_intersect_func_checked_eq meshes g p ray mesh tri v0 v1 v2
        hm ht h0 h1 h2⟩

theorem valid_registry_AB : valid_registry [meshA, meshB] := by
  intro mesh hmesh tri htri
  simp only [List.mem_cons, List.mem_singleton, List.not_mem_nil, or_false] at hmesh
  rcases hmesh with rfl | rfl
  · simp only [meshA, List.mem_singleton] at htri
    subst htri
    simp [meshA]
  · simp only [meshB, List.mem_singleton] at htri
    subst htri
    simp [meshB]

theorem valid_candidate_AB :
    ∀ c ∈ [(⟨0, 0, 1, 0⟩ : RTCCollision)].take 1, valid_candidate [meshA, meshB] c := by
  intro c hc
  simp only [List.take_succ_cons, List.take_zero, List.mem_singleton] at hc
  subst hc
  exact ⟨⟨meshA, rfl, by simp [meshA]⟩, ⟨meshB, rfl, by simp [meshB]⟩⟩

/-- C15, instantiated: the registry of the triangles `A` and `B` with the candidate
`(0,0,1,0)`, and the ray callbacks on primitive 0 of mesh 0. -/
theorem accesses_in_bounds_witness :
    1 ≤ [(⟨0, 0, 1, 0⟩ : RTCCollision)].length
      ∧ CollideFunc_checked straddle_oracle [meshA, meshB] [] [⟨0, 0, 1, 0⟩] 1
          = some (CollideFunc straddle_oracle [meshA, meshB] [] [⟨0, 0, 1, 0⟩] 1)
      ∧ triangle_bounds_func_checked [meshA, meshB] 0 0
          = some (triangle_bounds_func [meshA, meshB] 0 0)
      ∧ triangle_intersect_func_checked [meshA, meshB] 0 0 sampleRay
          = some (triangle_intersect_func [meshA, meshB] 0 0 sampleRay) := by
  have h := accesses_in_bounds straddle_oracle [meshA, meshB] [] [⟨0, 0, 1, 0⟩] 1
    valid_registry_AB (by decide) valid_candidate_AB
  have hp := h.2.2 0 0 ⟨meshA, rfl, by simp [meshA]⟩
  exact ⟨by decide, h.1, hp.1, hp.2 sampleRay⟩

/-! ## The ray callback in every arithmetic -/

/-- With the ids in range the three vertex reads return the stored positions. -/
theorem stored_vertices_lookup {F : Type} (A : FloatOps F)
    (meshes : List (Mesh (Vec3 F))) (geomID primID : Nat)
    (mesh : Mesh (Vec3 F)) (tri : Triangle) (v0 v1 v2 : Vec3 F)
    (hm : meshes[geomID]? = some mesh) (ht : mesh.tris_[primID]? = some tri)
    (h0 : mesh.x_[tri.v0]? = some v0) (h1 : mesh.x_[tri.v1]? = some v1)
    (h2 : mesh.x_[tri.v2]? = some v2) :
    stored_vertices A meshes geomID primID = (v0, v1, v2) := by
  unfold stored_vertices
  simp only [getD_of_getElem? _ hm, getD_of_getElem? _ ht, getD_of_getElem? _ h0,
    getD_of_getElem? _ h1, getD_of_getElem? _ h2]

/-- The callback is the six assignments when the six comparisons on the computed values
hold, and the identity otherwise. -/
theorem triangle_intersect_func_arith_eq {F : Type} (A : FloatOps F)
    (meshes : List (Mesh (Vec3 F))) (geomID primID : Nat) (ray : Ray F) :
    triangle_intersect_func_arith A meshes geomID primID ray
      = if computed_hit A (stored_vertices A meshes geomID primID).1
            (stored_vertices A meshes geomID primID).2.1
            (stored_vertices A meshes geomID primID).2.2 ray = true then
          { org := ray.org, dir := ray.dir, tnear := ray.tnear,
            tfar := computed_t A (stored_vertices A meshes geomID primID).1
              (stored_vertices A meshes geomID primID).2.1
              (stored_vertices A meshes geomID primID).2.2 ray,
            u := computed_u A (stored_vertices A meshes geomID primID).1
              (stored_vertices A meshes geomID primID).2.1
              (stored_vertices A meshes geomID primID).2.2 ray,
            v := computed_v A (stored_vertices A meshes geomID primID).1
              (stored_vertices A meshes geomID primID).2.1
              (stored_vertices A meshes geomID primID).2.2 ray,
            geomID := geomID, primID := primID,
            Ng := A.cross
              (A.vsub (stored_vertices A meshes geomID primID).1
                (stored_vertices A meshes geomID primID).2.1)
              (A.vsub (stored_vertices A meshes geomID primID).2.2
                (stored_vertices A meshes geomID primID).1) }
        else ray := by
  unfold triangle_intersect_func_arith computed_hit range_checks computed_t computed_u
    computed_v computed_den stored_vertices
  dsimp only
  generalize ((meshes.getD geomID default).x_.getD
    ((meshes.getD geomID default).tris_.getD primID default).v0 ⟨A.zero, A.zero, A.zero⟩) = v0
  generalize ((meshes.getD geomID default).x_.getD
    ((meshes.getD geomID default).tris_.getD primID default).v1 ⟨A.zero, A.zero, A.zero⟩) = v1
  generalize ((meshes.getD geomID default).x_.getD
    ((meshes.getD geomID default).tris_.getD primID default).v2 ⟨A.zero, A.zero, A.zero⟩) = v2
  generalize (!(A.eq (A.dot (A.cross (A.vsub v0 v1) (A.vsub v2 v0)) ray.dir) A.zero)
    && A.le A.zero (A.mul (A.dot (A.cross ray.dir (A.vsub v0 ray.org)) (A.vsub v2 v0))
        (A.rcp (A.dot (A.cross (A.vsub v0 v1) (A.vsub v2 v0)) ray.dir)))
    && A.le A.zero (A.mul (A.dot (A.cross ray.dir (A.vsub v0 ray.org)) (A.vsub v0 v1))
        (A.rcp (A.dot (A.cross (A.vsub v0 v1) (A.vsub v2 v0)) ray.dir)))
    && A.le (A.add
        (A.mul (A.dot (A.cross ray.dir (A.vsub v0 ray.org)) (A.vsub v2 v0))
          (A.rcp (A.dot (A.cross (A.vsub v0 v1) (A.vsub v2 v0)) ray.dir)))
        (A.mul (A.dot (A.cross ray.dir (A.vsub v0 ray.org)) (A.vsub v0 v1))
          (A.rcp (A.dot (A.cross (A.vsub v0 v1) (A.vsub v2 v0)) ray.dir)))) A.one) = b1
  generalize (A.lt ray.tnear
      (A.mul (A.dot (A.cross (A.vsub v0 v1) (A.vsub v2 v0)) (A.vsub v0 ray.org))
        (A.rcp (A.dot (A.cross (A.vsub v0 v1) (A.vsub v2 v0)) ray.dir)))
    && A.lt (A.mul (A.dot (A.cross (A.vsub v0 v1) (A.vsub v2 v0)) (A.vsub v0 ray.org))
        (A.rcp (A.dot (A.cross (A.vsub v0 v1) (A.vsub v2 v0)) ray.dir))) ray.tfar) = b2
  cases b1 <;> cases b2 <;> simp

/-- The six comparisons spelt out. -/
theorem computed_hit_iff {F : Type} (A : FloatOps F) (v0 v1 v2 : Vec3 F) (ray : Ray F) :
    computed_hit A v0 v1 v2 ray = true ↔
      (A.eq (computed_den A v0 v1 v2 ray) A.zero = false
        ∧ A.le A.zero (computed_u A v0 v1 v2 ray) = true
        ∧ A.le A.zero (computed_v A v0 v1 v2 ray) = true
        ∧ A.le (A.add (computed_u A v0 v1 v2 ray) (computed_v A v0 v1 v2 ray)) A.one = true
        ∧ A.lt ray.tnear (computed_t A v0 v1 v2 ray) = true
        ∧ A.lt (computed_t A v0 v1 v2 ray) ray.tfar = true) := by
  unfold computed_hit range_checks
  simp only [Bool.and_eq_true, Bool.not_eq_true', and_assoc]

/-- With the arithmetic of an ordered field the callback is `triangle_intersect_func`. -/
theorem triangle_intersect_func_arith_exact {K : Type} [LinearOrderedField K]
    (meshes : List (Mesh (Vec3 K))) (geomID primID : Nat) (ray : Ray K) :
    triangle_intersect_func_arith (exactOps K) meshes geomID primID ray
      = triangle_intersect_func meshes geomID primID ray := by
  unfold triangle_intersect_func_arith triangle_intersect_func exactOps
  simp only [decide_not, gt_iff_lt, ge_iff_le]
  rfl

/-- In the arithmetic of an ordered field the computed values are the quotients by `den`. -/
theorem computed_exact {K : Type} [LinearOrderedField K] (v0 v1 v2 : Vec3 K) (ray : Ray K) :
    computed_den (exactOps K) v0 v1 v2 ray = hit_den v0 v1 v2 ray
      ∧ computed_u (exactOps K) v0 v1 v2 ray = hit_u v0 v1 v2 ray
      ∧ computed_v (exactOps K) v0 v1 v2 ray = hit_v v0 v1 v2 ray
      ∧ computed_t (exactOps K) v0 v1 v2 ray = hit_t v0 v1 v2 ray := by
  simp only [computed_den, computed_u, computed_v, computed_t, hit_den, hit_u, hit_v, hit_t,
    exactOps, rcp, div_eq_mul_inv, and_self]

/-- The comparisons of an ordered field satisfy the laws of `FloatOps.Lawful`. -/
theorem exactOps_lawful (K : Type) [LinearOrderedField K] : (exactOps K).Lawful where
  lt_irrefl := by intro a; simp [exactOps]
  lt_trans := by
    intro a b c h1 h2
    simp only [exactOps, decide_eq_true_eq] at h1 h2 ⊢
    exact lt_trans h1 h2
  lt_not_le := by
    intro a b h
    simp only [exactOps, decide_eq_true_eq, decide_eq_false_iff_not, not_le] at h ⊢
    exact h
  eq_not_lt := by
    intro a b h
    simp only [exactOps, decide_eq_true_eq] at h
    subst h
    simp [exactOps]
  lt_connex := by
    intro c a b _ _
    simp only [exactOps, decide_eq_true_eq]
    rcases lt_trichotomy a b with h | h | h
    · exact Or.inl h
    · exact Or.inr (Or.inr h)
    · exact Or.inr (Or.inl h)

/-! ## The comparisons of the single-precision model -/

/-- Comparing the mantissas brought to the smaller exponent compares the numbers. -/
theorem F32.scaled_eq (m e0 e : Int) (h : e0 ≤ e) :
    ((m * 2 ^ (e - e0).toNat : Int) : ℚ) * (2 : ℚ) ^ e0 = (m : ℚ) * (2 : ℚ) ^ e := by
  have hk : ((e - e0).toNat : Int) = e - e0 := Int.toNat_of_nonneg (by omega)
  have he : e = e0 + ((e - e0).toNat : Int) := by omega
  have h2 : (2 : ℚ) ≠ 0 := by norm_num
  conv_rhs => rw [he, zpow_add₀ h2, zpow_natCast]
  push_cast
  ring

/-- The comparison `lt` of two finite values is `<` of the numbers they stand for. -/
theorem F32.lt_fin_iff (m1 e1 m2 e2 : Int) :
    F32.lt (F32.fin m1 e1) (F32.fin m2 e2) = true
      ↔ (m1 : ℚ) * (2 : ℚ) ^ e1 < (m2 : ℚ) * (2 : ℚ) ^ e2 := by
  have hp : (0 : ℚ) < (2 : ℚ) ^ (min e1 e2) := zpow_pos (by norm_num) _
  rw [← F32.scaled_eq m1 (min e1 e2) e1 (min_le_left _ _),
    ← F32.scaled_eq m2 (min e1 e2) e2 (min_le_right _ _), mul_lt_mul_right hp, Int.cast_lt]
  simp only [F32.lt, decide_eq_true_eq]

/-- The comparison `eq` of two finite values is `=` of the numbers they stand for. -/
theorem F32.eq_fin_iff (m1 e1 m2 e2 : Int) :
    F32.eq (F32.fin m1 e1) (F32.fin m2 e2) = true
      ↔ (m1 : ℚ) * (2 : ℚ) ^ e1 = (m2 : ℚ) * (2 : ℚ) ^ e2 := by
  have hp : (2 : ℚ) ^ (min e1 e2) ≠ 0 := (zpow_pos (by norm_num) _).ne'
  rw [← F32.scaled_eq m1 (min e1 e2) e1 (min_le_left _ _),
    ← F32.scaled_eq m2 (min e1 e2) e2 (min_le_right _ _), mul_left_inj' hp, Int.cast_inj]
  simp only [F32.eq, decide_eq_true_eq]

/-- Two finite values are comparable. -/
theorem F32.fin_connex (m1 e1 m2 e2 : Int) :
    F32.lt (F32.fin m1 e1) (F32.fin m2 e2) = true
      ∨ F32.lt (F32.fin m2 e2) (F32.fin m1 e1) = true
      ∨ F32.eq (F32.fin m1 e1) (F32.fin m2 e2) = true := by
  rw [F32.lt_fin_iff, F32.lt_fin_iff, F32.eq_fin_iff]
  rcases lt_trichotomy ((m1 : ℚ) * (2 : ℚ) ^ e1) ((m2 : ℚ) * (2 : ℚ) ^ e2) with h | h | h
  · exact Or.inl h
  · exact Or.inr (Or.inr h)
  · exact Or.inr (Or.inl h)

/-- The comparisons of the single-precision model satisfy the laws of `FloatOps.Lawful`. -/
theorem f32Ops_lawful : f32Ops.Lawful where
  lt_irrefl := by
    intro a
    show F32.lt a a = false
    cases a with
    | fin m e =>
      rw [← Bool.not_eq_true, F32.lt_fin_iff]
      exact lt_irrefl _
    | inf b => cases b <;> rfl
    | nan => rfl
  lt_trans := by
    intro a b c h1 h2
    change F32.lt a b = true at h1
    change F32.lt b c = true at h2
    show F32.lt a c = true
    cases a <;> cases b <;> cases c <;>
      first
      | (rw [F32.lt_fin_iff] at h1 h2 ⊢; exact lt_trans h1 h2)
      | (simp [F32.lt] at h1 h2 ⊢; try simp_all)
  lt_not_le := by
    intro a b h
    change F32.lt a b = true at h
    show F32.le b a = false
    unfold F32.le
    cases a <;> cases b <;>
      first
      | (rw [Bool.or_eq_false_iff, ← Bool.not_eq_true, ← Bool.not_eq_true, F32.lt_fin_iff,
          F32.eq_fin_iff]
         rw [F32.lt_fin_iff] at h
         exact ⟨not_lt.mpr h.le, h.ne'⟩)
      | (simp [F32.lt, F32.eq] at h ⊢; try simp_all)
  eq_not_lt := by
    intro a b h
    change F32.eq a b = true at h
    show F32.lt a b = false ∧ F32.lt b a = false
    cases a <;> cases b <;>
      first
      | (rw [← Bool.not_eq_true, ← Bool.not_eq_true, F32.lt_fin_iff, F32.lt_fin_iff]
         rw [F32.eq_fin_iff] at h
         exact ⟨not_lt.mpr h.ge, not_lt.mpr h.le⟩)
      | (simp [F32.lt, F32.eq] at h ⊢; try simp_all)
  lt_connex := by
    intro c a b h1 h2
    change F32.lt c a = true at h1
    change F32.lt c b = true at h2
    show F32.lt a b = true ∨ F32.lt b a = true ∨ F32.eq a b = true
    cases a <;> cases b <;> cases c <;>
      first
      | exact F32.fin_connex _ _ _ _
      | (simp [F32.lt, F32.eq] at h1 h2 ⊢; try simp_all)

/-! ## Hit and miss in the arithmetic of the code -/

/-- C8: in every arithmetic whose comparisons behave as those of floats (in particular in
single precision, whatever the rounding and whatever `rcp` returns), with the ids in range
and `v0, v1, v2` the stored positions of the triangle, `triangle_intersect_func` reports a
hit (changes the ray) if and only if the computed `den = dot(cross(v0-v1, v2-v0), dir)` is
not `== 0`, the computed `u` and `v` are `>= 0`, the computed `u+v` is `<= 1` and the
computed `t` satisfies `tnear < t < tfar`; on a hit the ray gets `tfar := t`, `u`, `v`, the
queried `geomID` and `primID` and `Ng := cross(v0-v1, v2-v0)`, while `org`, `dir`, `tnear`
keep their values; a computed `t` that is `== tnear` or `== tfar` is rejected.  The values
`u`, `v`, `t` are the products of `dot(cross(dir, v0-org), v2-v0)`,
`dot(cross(dir, v0-org), v0-v1)`, `dot(Ng, v0-org)` with `rcp(den)`. -/
theorem triangle_intersect_func_hit_iff {F : Type} (A : FloatOps F) (hA : A.Lawful)
    (meshes : List (Mesh (Vec3 F))) (geomID primID : Nat) (ray : Ray F)
    (mesh : Mesh (Vec3 F)) (tri : Triangle) (v0 v1 v2 : Vec3 F)
    (hm : meshes[geomID]? = some mesh) (ht : mesh.tris_[primID]? = some tri)
    (h0 : mesh.x_[tri.v0]? = some v0) (h1 : mesh.x_[tri.v1]? = some v1)
    (h2 : mesh.x_[tri.v2]? = some v2) :
    (triangle_intersect_func_arith A meshes geomID primID ray ≠ ray ↔
        (A.eq (computed_den A v0 v1 v2 ray) A.zero = false
          ∧ A.le A.zero (computed_u A v0 v1 v2 ray) = true
          ∧ A.le A.zero (computed_v A v0 v1 v2 ray) = true
          ∧ A.le (A.add (computed_u A v0 v1 v2 ray) (computed_v A v0 v1 v2 ray)) A.one = true
          ∧ A.lt ray.tnear (computed_t A v0 v1 v2 ray) = true
          ∧ A.lt (computed_t A v0 v1 v2 ray) ray.tfar = true))
      ∧ (triangle_intersect_func_arith A meshes geomID primID ray ≠ ray →
          triangle_intersect_func_arith A meshes geomID primID ray
            = { org := ray.org, dir := ray.dir, tnear := ray.tnear,
                tfar := computed_t A v0 v1 v2 ray, u := computed_u A v0 v1 v2 ray,
                v := computed_v A v0 v1 v2 ray, geomID := geomID, primID := primID,
                Ng := A.cross (A.vsub v0 v1) (A.vsub v2 v0) })
      ∧ (A.eq (computed_t A v0 v1 v2 ray) ray.tnear = true
            ∨ A.eq (computed_t A v0 v1 v2 ray) ray.tfar = true →
          triangle_intersect_func_arith A meshes geomID primID ray = ray)
      ∧ computed_den A v0 v1 v2 ray = A.dot (A.cross (A.vsub v0 v1) (A.vsub v2 v0)) ray.dir
      ∧ computed_u A v0 v1 v2 ray
          = A.mul (A.dot (A.cross ray.dir (A.vsub v0 ray.org)) (A.vsub v2 v0))
              (A.rcp (computed_den A v0 v1 v2 ray))
      ∧ computed_v A v0 v1 v2 ray
          = A.mul (A.dot (A.cross ray.dir (A.vsub v0 ray.org)) (A.vsub v0 v1))
              (A.rcp (computed_den A v0 v1 v2 ray))
      ∧ computed_t A v0 v1 v2 ray
          = A.mul (A.dot (A.cross (A.vsub v0 v1) (A.vsub v2 v0)) (A.vsub v0 ray.org))
              (A.rcp (computed_den A v0 v1 v2 ray)) := by
  have hs := stored_vertices_lookup A meshes geomID primID mesh tri v0 v1 v2 hm ht h0 h1 h2
  have he := triangle_intersect_func_arith_eq A meshes geomID primID ray
  rw [hs] at he
  dsimp only at he
  have hiff : triangle_intersect_func_arith A meshes geomID primID ray ≠ ray
      ↔ computed_hit A v0 v1 v2 ray = true := by
    constructor
    · intro hne
      by_contra hc
      rw [if_neg hc] at he
      exact hne he
    · intro hh heq
      rw [if_pos hh] at he
      have htf := congrArg Ray.tfar (he.symm.trans heq)
      have hlt := ((computed_hit_iff A v0 v1 v2 ray).mp hh).2.2.2.2.2
      dsimp only at htf
      rw [htf, hA.lt_irrefl] at hlt
      exact Bool.noConfusion hlt
  refine ⟨hiff.trans (computed_hit_iff A v0 v1 v2 ray), ?_, ?_, rfl, rfl, rfl, rfl⟩
  · intro hne
    rw [he, if_pos (hiff.mp hne)]
  · intro hedge
    by_contra hne
    have hh := (computed_hit_iff A v0 v1 v2 ray).mp (hiff.mp hne)
    rcases hedge with h | h
    · have := (hA.eq_not_lt _ _ h).2
      rw [hh.2.2.2.2.1] at this
      exact Bool.noConfusion this
    · have := (hA.eq_not_lt _ _ h).1
      rw [hh.2.2.2.2.2] at this
      exact Bool.noConfusion this

/-- C8, instantiated in single precision: the ray falling from `(1/2, 1/2 + 2^-24, 1)` on
triangle `A` has the computed `u = 1/2`, `v = 1/2 + 2^-24` and `u + v` rounded to `1`; the
six comparisons hold and the hit is recorded at `t = 1` with the normal `(0,0,-1)`. -/
theorem triangle_intersect_func_hit_iff_witness :
    f32Ops.Lawful
      ∧ triangle_intersect_func_arith f32Ops [meshA32] 0 0 sampleEdgeRay ≠ sampleEdgeRay
      ∧ triangle_intersect_func_arith f32Ops [meshA32] 0 0 sampleEdgeRay
          = { org := ⟨F32.fin 1 (-1), F32.fin 8388609 (-24), F32.fin 1 0⟩,
              dir := ⟨F32.fin 0 0, F32.fin 0 0, F32.fin (-1) 0⟩,
              tnear := F32.fin 0 0, tfar := F32.fin 8388608 (-23),
              u := F32.fin 8388608 (-24), v := F32.fin 8388609 (-24),
              geomID := 0, primID := 0,
              Ng := ⟨F32.fin 0 0, F32.fin 0 0, F32.fin (-8388608) (-23)⟩ } :=
  ⟨f32Ops_lawful,
   (triangle_intersect_func_hit_iff f32Ops f32Ops_lawful [meshA32] 0 0 sampleEdgeRay meshA32
      ⟨0, 1, 2⟩ ⟨F32.fin 0 0, F32.fin 0 0, F32.fin 0 0⟩
      ⟨F32.fin 1 0, F32.fin 0 0, F32.fin 0 0⟩ ⟨F32.fin 0 0, F32.fin 1 0, F32.fin 0 0⟩
      rfl rfl rfl rfl rfl).1.mpr (by decide),
   by decide⟩

/-- C10: in every arithmetic whose comparisons behave as those of floats, with the ids in
range, when the test finds no intersection (the computed `den == 0`, or `u < 0`, or
`v < 0`, or `u+v > 1`, or `t <= tnear`, or `tfar <= t`, or any of the six comparisons of
the code false, as with a NaN), the ray and its hit record (`org, dir, tnear, tfar, u, v,
geomID, primID, Ng`) are returned exactly as they were. -/
theorem triangle_intersect_func_miss {F : Type} (A : FloatOps F) (hA : A.Lawful)
    (meshes : List (Mesh (Vec3 F))) (geomID primID : Nat) (ray : Ray F)
    (mesh : Mesh (Vec3 F)) (tri : Triangle) (v0 v1 v2 : Vec3 F)
    (hm : meshes[geomID]? = some mesh) (ht : mesh.tris_[primID]? = some tri)
    (h0 : mesh.x_[tri.v0]? = some v0) (h1 : mesh.x_[tri.v1]? = some v1)
    (h2 : mesh.x_[tri.v2]? = some v2)
    (hmiss : A.eq (computed_den A v0 v1 v2 ray) A.zero = true
      ∨ A.lt (computed_u A v0 v1 v2 ray) A.zero = true
      ∨ A.lt (computed_v A v0 v1 v2 ray) A.zero = true
      ∨ A.lt A.one (A.add (computed_u A v0 v1 v2 ray) (computed_v A v0 v1 v2 ray)) = true
      ∨ A.le (computed_t A v0 v1 v2 ray) ray.tnear = true
      ∨ A.le ray.tfar (computed_t A v0 v1 v2 ray) = true
      ∨ computed_hit A v0 v1 v2 ray = false) :
    triangle_intersect_func_arith A meshes geomID primID ray = ray
      ∧ (triangle_intersect_func_arith A meshes geomID primID ray).org = ray.org
      ∧ (triangle_intersect_func_arith A meshes geomID primID ray).dir = ray.dir
      ∧ (triangle_intersect_func_arith A meshes geomID primID ray).tnear = ray.tnear
      ∧ (triangle_intersect_func_arith A meshes geomID primID ray).tfar = ray.tfar
      ∧ (triangle_intersect_func_arith A meshes geomID primID ray).u = ray.u
      ∧ (triangle_intersect_func_arith A meshes geomID primID ray).v = ray.v
      ∧ (triangle_intersect_func_arith A meshes geomID primID ray).geomID = ray.geomID
      ∧ (triangle_intersect_func_arith A meshes geomID primID ray).primID = ray.primID
      ∧ (triangle_intersect_func_arith A meshes geomID primID ray).Ng = ray.Ng := by
  have hs := stored_vertices_lookup A meshes geomID primID mesh tri v0 v1 v2 hm ht h0 h1 h2
  have he := triangle_intersect_func_arith_eq A meshes geomID primID ray
  rw [hs] at he
  dsimp only at he
  have hno : ¬ computed_hit A v0 v1 v2 ray = true := by
    intro hh
    have hc := (computed_hit_iff A v0 v1 v2 ray).mp hh
    rcases hmiss with h | h | h | h | h | h | h
    · rw [hc.1] at h
      exact Bool.noConfusion h
    · have := hA.lt_not_le _ _ h
      rw [hc.2.1] at this
      exact Bool.noConfusion this
    · have := hA.lt_not_le _ _ h
      rw [hc.2.2.1] at this
      exact Bool.noConfusion this
    · have := hA.lt_not_le _ _ h
      rw [hc.2.2.2.1] at this
      exact Bool.noConfusion this
    · have := hA.lt_not_le _ _ hc.2.2.2.2.1
      rw [h] at this
      exact Bool.noConfusion this
    · have := hA.lt_not_le _ _ hc.2.2.2.2.2
      rw [h] at this
      exact Bool.noConfusion this
    · rw [hh] at h
      exact Bool.noConfusion h
  rw [he, if_neg hno]
  exact ⟨rfl, rfl, rfl, rfl, rfl, rfl, rfl, rfl, rfl, rfl⟩

/-- C10, instantiated in single precision: the ray through `(2,2,·)` misses triangle `A`
(the computed `u + v` is `4 > 1`) and keeps its record naming geometry 99, primitive 99. -/
theorem triangle_intersect_func_miss_witness :
    f32Ops.Lawful
      ∧ f32Ops.lt f32Ops.one
          (f32Ops.add
            (computed_u f32Ops ⟨F32.fin 0 0, F32.fin 0 0, F32.fin 0 0⟩
              ⟨F32.fin 1 0, F32.fin 0 0, F32.fin 0 0⟩ ⟨F32.fin 0 0, F32.fin 1 0, F32.fin 0 0⟩
              sampleMiss32)
            (computed_v f32Ops ⟨F32.fin 0 0, F32.fin 0 0, F32.fin 0 0⟩
              ⟨F32.fin 1 0, F32.fin 0 0, F32.fin 0 0⟩ ⟨F32.fin 0 0, F32.fin 1 0, F32.fin 0 0⟩
              sampleMiss32)) = true
      ∧ triangle_intersect_func_arith f32Ops [meshA32] 0 0 sampleMiss32 = sampleMiss32 :=
  ⟨f32Ops_lawful, by decide,
   (triangle_intersect_func_miss f32Ops f32Ops_lawful [meshA32] 0 0 sampleMiss32 meshA32
      ⟨0, 1, 2⟩ ⟨F32.fin 0 0, F32.fin 0 0, F32.fin 0 0⟩
      ⟨F32.fin 1 0, F32.fin 0 0, F32.fin 0 0⟩ ⟨F32.fin 0 0, F32.fin 1 0, F32.fin 0 0⟩
      rfl rfl rfl rfl rfl (Or.inr (Or.inr (Or.inr (Or.inl (by decide)))))).1⟩

/-- A ray whose `tfar` is NaN is never hit: the comparison `t < tfar` is false. -/
theorem nan_tfar_is_miss :
    triangle_intersect_func_arith f32Ops [meshA32] 0 0 sampleNanRay = sampleNanRay := by
  decide

set_option maxRecDepth 8192 in
/-- Overflow: on the triangle with edges `2^70` the computed normal is infinite, the
denominator is infinite, its reciprocal is zero and the computed `u`, `v`, `t` are NaN, so
the ray through the inside of the triangle is returned as it was. -/
theorem overflow_is_miss :
    computed_den f32Ops ⟨F32.fin 0 0, F32.fin 0 0, F32.fin 0 0⟩
        ⟨F32.fin 1 70, F32.fin 0 0, F32.fin 0 0⟩ ⟨F32.fin 0 0, F32.fin 1 70, F32.fin 0 0⟩
        sampleHugeRay = F32.inf false
      ∧ computed_t f32Ops ⟨F32.fin 0 0, F32.fin 0 0, F32.fin 0 0⟩
          ⟨F32.fin 1 70, F32.fin 0 0, F32.fin 0 0⟩ ⟨F32.fin 0 0, F32.fin 1 70, F32.fin 0 0⟩
          sampleHugeRay = F32.nan
      ∧ triangle_intersect_func_arith f32Ops [meshHuge32] 0 0 sampleHugeRay
          = sampleHugeRay := by
  decide

/-! ## Closest hit over a sequence of triangles -/

/-- The computed values read the origin and the direction of the ray only. -/
theorem computed_congr {F : Type} (A : FloatOps F) (v0 v1 v2 : Vec3 F) (r ray : Ray F)
    (ho : r.org = ray.org) (hd : r.dir = ray.dir) :
    computed_t A v0 v1 v2 r = computed_t A v0 v1 v2 ray
      ∧ range_checks A v0 v1 v2 r = range_checks A v0 v1 v2 ray := by
  unfold range_checks computed_t computed_u computed_v computed_den
  rw [ho, hd]
  exact ⟨rfl, rfl⟩

/-- One test on a ray `r` that has the origin, direction and `tnear` of `ray`: either the
ray is returned as it was, or the triangle passes the range checks, its distance lies in
`(tnear, r.tfar)`, and the distance and the ids are recorded. -/
theorem test_step {F : Type} (A : FloatOps F) (meshes : List (Mesh (Vec3 F)))
    (gp : Nat × Nat) (r ray : Ray F)
    (ho : r.org = ray.org) (hd : r.dir = ray.dir) (hn : r.tnear = ray.tnear) :
    (triangle_intersect_func_arith A meshes gp.1 gp.2 r = r
        ∧ (range_checks A (stored_vertices A meshes gp.1 gp.2).1
              (stored_vertices A meshes gp.1 gp.2).2.1
              (stored_vertices A meshes gp.1 gp.2).2.2 ray = true →
            A.lt ray.tnear (distance_t A meshes ray gp) = true →
            A.lt (distance_t A meshes ray gp) r.tfar = false))
      ∨ (range_checks A (stored_vertices A meshes gp.1 gp.2).1
              (stored_vertices A meshes gp.1 gp.2).2.1
              (stored_vertices A meshes gp.1 gp.2).2.2 ray = true
          ∧ A.lt ray.tnear (distance_t A meshes ray gp) = true
          ∧ A.lt (distance_t A meshes ray gp) r.tfar = true
          ∧ (triangle_intersect_func_arith A meshes gp.1 gp.2 r).org = ray.org
          ∧ (triangle_intersect_func_arith A meshes gp.1 gp.2 r).dir = ray.dir
          ∧ (triangle_intersect_func_arith A meshes gp.1 gp.2 r).tnear = ray.tnear
          ∧ (triangle_intersect_func_arith A meshes gp.1 gp.2 r).tfar
              = distance_t A meshes ray gp
          ∧ (triangle_intersect_func_arith A meshes gp.1 gp.2 r).geomID = gp.1
          ∧ (triangle_intersect_func_arith A meshes gp.1 gp.2 r).primID = gp.2) := by
  have he := triangle_intersect_func_arith_eq A meshes gp.1 gp.2 r
  have hc := computed_congr A (stored_vertices A meshes gp.1 gp.2).1
    (stored_vertices A meshes gp.1 gp.2).2.1 (stored_vertices A meshes gp.1 gp.2).2.2 r ray
    ho hd
  unfold distance_t
  by_cases hh : computed_hit A (stored_vertices A meshes gp.1 gp.2).1
      (stored_vertices A meshes gp.1 gp.2).2.1 (stored_vertices A meshes gp.1 gp.2).2.2 r = true
  · right
    rw [if_pos hh] at he
    unfold computed_hit at hh
    rw [hc.1, hc.2, hn] at hh
    simp only [Bool.and_eq_true] at hh
    rw [he]
    exact ⟨hh.1, hh.2.1, hh.2.2, ho, hd, hn, hc.1, rfl, rfl⟩
  · left
    rw [if_neg hh] at he
    refine ⟨he, ?_⟩
    intro h1 h2
    by_contra h3
    apply hh
    unfold computed_hit
    rw [hc.1, hc.2, hn, h1, h2, Bool.not_eq_false _ |>.mp h3]
    rfl

/-- Testing a sequence that ends with `gp` is testing the sequence and then `gp`. -/
theorem test_sequence_append {F : Type} (A : FloatOps F) (meshes : List (Mesh (Vec3 F)))
    (p q : List (Nat × Nat)) (ray : Ray F) :
    test_sequence A meshes (p ++ q) ray
      = test_sequence A meshes q (test_sequence A meshes p ray) := by
  unfold test_sequence
  rw [List.foldl_append]

/-- Whether a triangle passes, spelt out. -/
theorem passes_checks_iff {F : Type} (A : FloatOps F) (meshes : List (Mesh (Vec3 F)))
    (ray : Ray F) (gp : Nat × Nat) :
    passes_checks A meshes ray gp = true ↔
      (range_checks A (stored_vertices A meshes gp.1 gp.2).1
          (stored_vertices A meshes gp.1 gp.2).2.1
          (stored_vertices A meshes gp.1 gp.2).2.2 ray = true
        ∧ A.lt ray.tnear (distance_t A meshes ray gp) = true
        ∧ A.lt (distance_t A meshes ray gp) ray.tfar = true) := by
  unfold passes_checks computed_hit distance_t
  simp only [Bool.and_eq_true]

/-- The invariant of the refinement: after any sequence the ray has its origin, direction
and `tnear`; it is the initial ray when no triangle of the sequence passes, and otherwise
records a passing triangle and its distance; no passing triangle is closer than `tfar`. -/
theorem test_sequence_invariant {F : Type} (A : FloatOps F) (hA : A.Lawful)
    (meshes : List (Mesh (Vec3 F))) (ray : Ray F) (p : List (Nat × Nat)) :
    (test_sequence A meshes p ray).org = ray.org
      ∧ (test_sequence A meshes p ray).dir = ray.dir
      ∧ (test_sequence A meshes p ray).tnear = ray.tnear
      ∧ ((test_sequence A meshes p ray = ray
            ∧ ∀ gp ∈ p, passes_checks A meshes ray gp = false)
          ∨ (∃ gp ∈ p, passes_checks A meshes ray gp = true
              ∧ (test_sequence A meshes p ray).tfar = distance_t A meshes ray gp
              ∧ (test_sequence A meshes p ray).geomID = gp.1
              ∧ (test_sequence A meshes p ray).primID = gp.2))
      ∧ (∀ gp ∈ p, passes_checks A meshes ray gp = true →
          A.lt (distance_t A meshes ray gp) (test_sequence A meshes p ray).tfar = false) := by
  induction p using List.reverseRecOn with
  | nil =>
    refine ⟨rfl, rfl, rfl, Or.inl ⟨rfl, ?_⟩, ?_⟩
    · intro gp hgp; cases hgp
    · intro gp hgp; cases hgp
  | append_singleton p gp ih =>
    obtain ⟨ho, hd, hn, hcase, hmin⟩ := ih
    have hstep : test_sequence A meshes (p ++ [gp]) ray
        = triangle_intersect_func_arith A meshes gp.1 gp.2 (test_sequence A meshes p ray) := by
      rw [test_sequence_append]
      rfl
    rw [hstep]
    rcases test_step A meshes gp (test_sequence A meshes p ray) ray ho hd hn with
      ⟨hsame, hfar⟩ | ⟨hr, hl, hlt, ho1, hd1, hn1, htf, hg, hpid⟩
    · rw [hsame]
      refine ⟨ho, hd, hn, ?_, ?_⟩
      · rcases hcase with ⟨hray, hnone⟩ | ⟨g, hg, hpass, hrec⟩
        · left
          refine ⟨hray, ?_⟩
          intro g hg
          rcases List.mem_append.mp hg with hg | hg
          · exact hnone g hg
          · rw [List.mem_singleton] at hg
            subst hg
            by_contra hp
            have hp1 := (passes_checks_iff A meshes ray g).mp ((Bool.not_eq_false _).mp hp)
            have := hfar hp1.1 hp1.2.1
            rw [hray, hp1.2.2] at this
            exact Bool.noConfusion this
        · right
          exact ⟨g, List.mem_append_left _ hg, hpass, hrec⟩
      · intro g hg hpass
        rcases List.mem_append.mp hg with hg | hg
        · exact hmin g hg hpass
        · rw [List.mem_singleton] at hg
          subst hg
          have hp1 := (passes_checks_iff A meshes ray g).mp hpass
          exact hfar hp1.1 hp1.2.1
    · have hpass : passes_checks A meshes ray gp = true := by
        rw [passes_checks_iff]
        refine ⟨hr, hl, ?_⟩
        rcases hcase with ⟨hray, _⟩ | ⟨g, _, hgpass, hgt, _⟩
        · rw [hray] at hlt
          exact hlt
        · rw [hgt] at hlt
          exact hA.lt_trans _ _ _ hlt ((passes_checks_iff A meshes ray g).mp hgpass).2.2
      refine ⟨ho1, hd1, hn1, Or.inr ⟨gp, List.mem_append_right _ (List.mem_singleton.mpr rfl),
        hpass, htf, hg, hpid⟩, ?_⟩
      intro g hg hgpass
      rw [htf]
      rcases List.mem_append.mp hg with hg | hg
      · by_contra hc
        have hc1 := (Bool.not_eq_false _).mp hc
        have := hmin g hg hgpass
        rw [hA.lt_trans _ _ _ hc1 hlt] at this
        exact Bool.noConfusion this
      · rw [List.mem_singleton] at hg
        subst hg
        exact hA.lt_irrefl _

/-- Testing further triangles leaves `tfar` as it is or lowers it. -/
theorem test_sequence_tfar {F : Type} (A : FloatOps F) (hA : A.Lawful)
    (meshes : List (Mesh (Vec3 F))) (q : List (Nat × Nat)) :
    ∀ r : Ray F, (test_sequence A meshes q r).tfar = r.tfar
      ∨ A.lt (test_sequence A meshes q r).tfar r.tfar = true := by
  induction q with
  | nil => intro r; exact Or.inl rfl
  | cons gp q ih =>
    intro r
    have hstep : test_sequence A meshes (gp :: q) r
        = test_sequence A meshes q (triangle_intersect_func_arith A meshes gp.1 gp.2 r) := rfl
    rw [hstep]
    rcases test_step A meshes gp r r rfl rfl rfl with
      ⟨hsame, _⟩ | ⟨_, _, hlt, _, _, _, htf, _, _⟩
    · rw [hsame]
      exact ih r
    · rcases ih (triangle_intersect_func_arith A meshes gp.1 gp.2 r) with h | h
      · right
        rw [h, htf]
        exact hlt
      · right
        rw [htf] at h
        exact hA.lt_trans _ _ _ h hlt

/-- C11: closest hit under refinement, in every arithmetic whose comparisons behave as
those of floats.  For every ray and every finite sequence of triangles tested one after
another on the same ray: `org`, `dir` and `tnear` never change; from any point of the
sequence to its end `tfar` stays as it is or gets smaller; the final `tfar` is the minimum
of the initial `tfar` and of the computed distances `t` of the triangles that pass the
range checks with `tnear < t < initial tfar`, that is, the final ray is the initial one
when no triangle passes, otherwise the final `tfar` is the distance of a passing triangle
whose ids are the recorded `geomID` and `primID`, and no passing triangle has a smaller
distance; hence for every other order of testing the final `tfar` is the same value (the
same float, or one that compares `==` to it). -/
theorem closest_hit_refinement {F : Type} (A : FloatOps F) (hA : A.Lawful)
    (meshes : List (Mesh (Vec3 F))) (seq : List (Nat × Nat)) (ray : Ray F) :
    (test_sequence A meshes seq ray).org = ray.org
      ∧ (test_sequence A meshes seq ray).dir = ray.dir
      ∧ (test_sequence A meshes seq ray).tnear = ray.tnear
      ∧ (∀ p q : List (Nat × Nat), seq = p ++ q →
          (test_sequence A meshes seq ray).tfar = (test_sequence A meshes p ray).tfar
            ∨ A.lt (test_sequence A meshes seq ray).tfar
                (test_sequence A meshes p ray).tfar = true)
      ∧ ((test_sequence A meshes seq ray = ray
            ∧ ∀ gp ∈ seq, passes_checks A meshes ray gp = false)
          ∨ (∃ gp ∈ seq, passes_checks A meshes ray gp = true
              ∧ (test_sequence A meshes seq ray).tfar = distance_t A meshes ray gp
              ∧ (test_sequence A meshes seq ray).geomID = gp.1
              ∧ (test_sequence A meshes seq ray).primID = gp.2))
      ∧ (∀ gp ∈ seq, passes_checks A meshes ray gp = true →
          A.lt (distance_t A meshes ray gp) (test_sequence A meshes seq ray).tfar = false)
      ∧ (∀ seq1 : List (Nat × Nat), seq1.Perm seq →
          (test_sequence A meshes seq1 ray).tfar = (test_sequence A meshes seq ray).tfar
            ∨ A.eq (test_sequence A meshes seq1 ray).tfar
                (test_sequence A meshes seq ray).tfar = true) := by
  obtain ⟨ho, hd, hn, hcase, hmin⟩ := test_sequence_invariant A hA meshes ray seq
  refine ⟨ho, hd, hn, ?_, hcase, hmin, ?_⟩
  · intro p q hpq
    rw [hpq, test_sequence_append]
    exact test_sequence_tfar A hA meshes q _
  · intro seq1 hperm
    obtain ⟨_, _, _, hcase1, hmin1⟩ := test_sequence_invariant A hA meshes ray seq1
    rcases hcase with ⟨hray, hnone⟩ | ⟨g, hg, hgpass, hgt, _⟩
    · rcases hcase1 with ⟨hray1, _⟩ | ⟨g1, hg1, hg1pass, _⟩
      · left
        rw [hray, hray1]
      · have := hnone g1 (hperm.mem_iff.mp hg1)
        rw [hg1pass] at this
        exact Bool.noConfusion this
    · rcases hcase1 with ⟨_, hnone1⟩ | ⟨g1, hg1, hg1pass, hg1t, _⟩
      · have := hnone1 g (hperm.mem_iff.mpr hg)
        rw [hgpass] at this
        exact Bool.noConfusion this
      · right
        rw [hgt, hg1t]
        have h1 := ((passes_checks_iff A meshes ray g1).mp hg1pass).2.1
        have h0 := ((passes_checks_iff A meshes ray g).mp hgpass).2.1
        rcases hA.lt_connex _ _ _ h1 h0 with h | h | h
        · have := hmin g1 (hperm.mem_iff.mp hg1) hg1pass
          rw [hgt, h] at this
          exact Bool.noConfusion this
        · have := hmin1 g (hperm.mem_iff.mpr hg) hgpass
          rw [hg1t, h] at this
          exact Bool.noConfusion this
        · exact h

/-- C11, instantiated in single precision: two copies of triangle `A` at heights `0` and
`1/2` under a ray falling from height `1`.  Both pass, at the distances `1` and `1/2`; in
either order of testing the final `tfar` is `1/2` and the record names primitive 1. -/
theorem closest_hit_refinement_witness :
    f32Ops.Lawful
      ∧ test_sequence f32Ops [meshStack32] [(0, 0), (0, 1)] sampleStackRay
          = test_sequence f32Ops [meshStack32] [(0, 1), (0, 0)] sampleStackRay
      ∧ (test_sequence f32Ops [meshStack32] [(0, 0), (0, 1)] sampleStackRay).tfar
          = F32.fin 8388608 (-24)
      ∧ (test_sequence f32Ops [meshStack32] [(0, 0), (0, 1)] sampleStackRay).primID = 1
      ∧ distance_t f32Ops [meshStack32] sampleStackRay (0, 0) = F32.fin 8388608 (-23)
      ∧ (∀ gp ∈ [((0 : Nat), (0 : Nat)), (0, 1)],
          passes_checks f32Ops [meshStack32] sampleStackRay gp = true →
          f32Ops.lt (distance_t f32Ops [meshStack32] sampleStackRay gp)
            (test_sequence f32Ops [meshStack32] [(0, 0), (0, 1)] sampleStackRay).tfar
              = false) :=
  ⟨f32Ops_lawful, by decide, by decide, by decide, by decide,
   (closest_hit_refinement f32Ops f32Ops_lawful [meshStack32] [(0, 0), (0, 1)]
      sampleStackRay).2.2.2.2.2.1⟩

/-! ## Parallel rays and degenerate triangles -/

/-- When the computed denominator compares equal to zero the ray is returned as it was,
in every arithmetic. -/
theorem no_hit_of_den_zero {F : Type} (A : FloatOps F)
    (meshes : List (Mesh (Vec3 F))) (geomID primID : Nat) (ray : Ray F)
    (mesh : Mesh (Vec3 F)) (tri : Triangle) (v0 v1 v2 : Vec3 F)
    (hm : meshes[geomID]? = some mesh) (ht : mesh.tris_[primID]? = some tri)
    (h0 : mesh.x_[tri.v0]? = some v0) (h1 : mesh.x_[tri.v1]? = some v1)
    (h2 : mesh.x_[tri.v2]? = some v2)
    (hden : A.eq (computed_den A v0 v1 v2 ray) A.zero = true) :
    triangle_intersect_func_arith A meshes geomID primID ray = ray := by
  have hs := stored_vertices_lookup A meshes geomID primID mesh tri v0 v1 v2 hm ht h0 h1 h2
  have he := triangle_intersect_func_arith_eq A meshes geomID primID ray
  rw [hs] at he
  dsimp only at he
  rw [he, if_neg]
  intro hh
  have := ((computed_hit_iff A v0 v1 v2 ray).mp hh).1
  rw [hden] at this
  exact Bool.noConfusion this

/-- C13, refuted as stated for degenerate triangles.  The vertices `(12288, 4096, 0)`,
`(3/2048, 1/2048, 0)`, `(12297, 4099, 0)` are values of `float` and lie on one line, so
the exact normal `cross(v0-v1, v2-v0)` is zero.  In single precision `12288 - 3/2048` is a
tie and rounds to `12288 - 2/1024`, the computed normal is `(0, 0, -1/256)`, and the ray
falling from `(12288, 4096, 1)` along `(0,0,-1)` is recorded as a hit at `t = 1`. -/
theorem degenerate_triangle_hit_single_precision :
    meshCollinear.x_.map F32.vecToRat
        = [some ⟨12288, 4096, 0⟩, some ⟨3/2048, 1/2048, 0⟩, some ⟨12297, 4099, 0⟩]
      ∧ meshCollinear.x_.all F32.vecRepresentable = true
      ∧ F32.vecRepresentable sampleCollinearRay.org = true
      ∧ F32.vecRepresentable sampleCollinearRay.dir = true
      ∧ (⟨12297, 4099, 0⟩ : Vec3 ℚ).sub ⟨12288, 4096, 0⟩
          = ((⟨3/2048, 1/2048, 0⟩ : Vec3 ℚ).sub ⟨12288, 4096, 0⟩).smul (-6144/8388607)
      ∧ cross ((⟨12288, 4096, 0⟩ : Vec3 ℚ).sub ⟨3/2048, 1/2048, 0⟩)
          ((⟨12297, 4099, 0⟩ : Vec3 ℚ).sub ⟨12288, 4096, 0⟩) = ⟨0, 0, 0⟩
      ∧ triangle_intersect_func_arith f32Ops [meshCollinear] 0 0 sampleCollinearRay
          ≠ sampleCollinearRay
      ∧ triangle_intersect_func_arith f32Ops [meshCollinear] 0 0 sampleCollinearRay
          = { org := ⟨F32.fin 12288 0, F32.fin 4096 0, F32.fin 1 0⟩,
              dir := ⟨F32.fin 0 0, F32.fin 0 0, F32.fin (-1) 0⟩,
              tnear := F32.fin 0 0, tfar := F32.fin 8388608 (-23),
              u := F32.fin 0 0, v := F32.fin 0 0, geomID := 0, primID := 0,
              Ng := ⟨F32.fin 0 0, F32.fin 0 0, F32.fin (-8388608) (-31)⟩ } := by
  refine ⟨?_, by decide, by decide, by decide, ?_, ?_, by decide, by decide⟩
  · norm_num [meshCollinear, F32.vecToRat, F32.toRat]
  · norm_num [Vec3.sub, Vec3.smul]
  · norm_num [cross, Vec3.sub]

/-- C13, amended: in every arithmetic, with the ids in range, a ray and a triangle whose
computed denominator `den = dot(cross(v0-v1, v2-v0), dir)` compares equal to zero give no
hit, the ray is returned as it was, and this does not depend on what `rcp` returns for that
denominator (the reciprocal is computed before the check, its value is not used).  This
covers the rays parallel to the plane of the triangle; it covers the triangles with
coincident or collinear vertices when the arithmetic is exact, where their normal is
zero. -/
theorem no_hit_when_parallel_or_degenerate {F : Type} (A : FloatOps F)
    (meshes : List (Mesh (Vec3 F))) (geomID primID : Nat) (ray : Ray F)
    (mesh : Mesh (Vec3 F)) (tri : Triangle) (v0 v1 v2 : Vec3 F)
    (hm : meshes[geomID]? = some mesh) (ht : mesh.tris_[primID]? = some tri)
    (h0 : mesh.x_[tri.v0]? = some v0) (h1 : mesh.x_[tri.v1]? = some v1)
    (h2 : mesh.x_[tri.v2]? = some v2)
    (hden : A.eq (computed_den A v0 v1 v2 ray) A.zero = true) :
    triangle_intersect_func_arith A meshes geomID primID ray = ray
      ∧ (∀ r : F → F,
          triangle_intersect_func_arith { A with rcp := r } meshes geomID primID ray = ray)
      ∧ computed_den A v0 v1 v2 ray = A.dot (A.cross (A.vsub v0 v1) (A.vsub v2 v0)) ray.dir
      ∧ (∀ (K : Type) [LinearOrderedField K] (meshesK : List (Mesh (Vec3 K)))
          (rayK : Ray K) (meshK : Mesh (Vec3 K)) (triK : Triangle) (w0 w1 w2 : Vec3 K),
          meshesK[geomID]? = some meshK → meshK.tris_[primID]? = some triK →
          meshK.x_[triK.v0]? = some w0 → meshK.x_[triK.v1]? = some w1 →
          meshK.x_[triK.v2]? = some w2 →
          (w0 = w1 ∨ w0 = w2 ∨ w1 = w2 ∨ (∃ s : K, w2.sub w0 = (w1.sub w0).smul s)
            ∨ (∃ s : K, w1.sub w0 = (w2.sub w0).smul s)) →
          cross (w0.sub w1) (w2.sub w0) = ⟨0, 0, 0⟩
            ∧ triangle_intersect_func_arith (exactOps K) meshesK geomID primID rayK
                = rayK) := by
  refine ⟨no_hit_of_den_zero A meshes geomID primID ray mesh tri v0 v1 v2 hm ht h0 h1 h2 hden,
    ?_, rfl, ?_⟩
  · intro r
    exact no_hit_of_den_zero { A with rcp := r } meshes geomID primID ray mesh tri v0 v1 v2
      hm ht h0 h1 h2 hden
  · intro K _ meshesK rayK meshK triK w0 w1 w2 km kt k0 k1 k2 hdeg
    have hz := cross_eq_zero_of_degenerate w0 w1 w2 hdeg
    refine ⟨hz, ?_⟩
    apply no_hit_of_den_zero (exactOps K) meshesK geomID primID rayK meshK triK w0 w1 w2
      km kt k0 k1 k2
    have hd : computed_den (exactOps K) w0 w1 w2 rayK = 0 := by
      show dot (cross (w0.sub w1) (w2.sub w0)) rayK.dir = 0
      rw [hz, dot_zero_left]
    rw [hd]
    simp [exactOps]

/-- C13 as amended, instantiated in single precision: for the ray running inside the plane
of triangle `A` the computed denominator is zero, its reciprocal is an infinity, and the
ray keeps its record naming geometry 99, primitive 99. -/
theorem no_hit_when_parallel_or_degenerate_witness :
    f32Ops.eq (computed_den f32Ops ⟨F32.fin 0 0, F32.fin 0 0, F32.fin 0 0⟩
        ⟨F32.fin 1 0, F32.fin 0 0, F32.fin 0 0⟩ ⟨F32.fin 0 0, F32.fin 1 0, F32.fin 0 0⟩
        sampleParallel32) f32Ops.zero = true
      ∧ f32Ops.rcp (computed_den f32Ops ⟨F32.fin 0 0, F32.fin 0 0, F32.fin 0 0⟩
          ⟨F32.fin 1 0, F32.fin 0 0, F32.fin 0 0⟩ ⟨F32.fin 0 0, F32.fin 1 0, F32.fin 0 0⟩
          sampleParallel32) = F32.inf false
      ∧ triangle_intersect_func_arith f32Ops [meshA32] 0 0 sampleParallel32
          = sampleParallel32 :=
  ⟨by decide, by decide,
   (no_hit_when_parallel_or_degenerate f32Ops [meshA32] 0 0 sampleParallel32 meshA32
      ⟨0, 1, 2⟩ ⟨F32.fin 0 0, F32.fin 0 0, F32.fin 0 0⟩
      ⟨F32.fin 1 0, F32.fin 0 0, F32.fin 0 0⟩ ⟨F32.fin 0 0, F32.fin 1 0, F32.fin 0 0⟩
      rfl rfl rfl rfl rfl (by decide)).1⟩

/-! ## Interleaved calls -/

theorem getD_set_self {α : Type} (l : List α) (t : Nat) (x d : α) (h : t < l.length) :
    (l.set t x).getD t d = x := by
  rw [List.getD_eq_getElem?_getD, List.getElem?_set_self h]
  rfl

theorem getD_set_ne {α : Type} (l : List α) (t u : Nat) (x d : α) (h : t ≠ u) :
    (l.set t x).getD u d = l.getD u d := by
  rw [List.getD_eq_getElem?_getD, List.getD_eq_getElem?_getD, List.getElem?_set_ne h]

theorem getD_nil_of_le {α : Type} (l : List (List α)) (t : Nat) (h : l.length ≤ t) :
    l.getD t [] = [] := by
  rw [List.getD_eq_getElem?_getD, List.getElem?_eq_none h]
  rfl

/-- Taking the first event of thread `t` lowers the number of events to come by one. -/
theorem sum_length_set {α : Type} (e : α) (rest : List α) :
    ∀ (l : List (List α)) (t : Nat), l.getD t [] = e :: rest →
      ((l.set t rest).map List.length).sum + 1 = (l.map List.length).sum := by
  intro l
  induction l with
  | nil => intro t h; cases h
  | cons a l ih =>
    intro t h
    cases t with
    | zero =>
      have ha : a = e :: rest := h
      subst ha
      simp only [List.set_cons_zero, List.map_cons, List.sum_cons, List.length_cons]
      omega
    | succ t =>
      have hl : l.getD t [] = e :: rest := h
      have := ih t hl
      simp only [List.set_cons_succ, List.map_cons, List.sum_cons]
      omega

theorem thread_step_nil (t : Nat) (s : SharedState) (h : s.pending.getD t [] = []) :
    thread_step t s = s := by
  unfold thread_step
  rw [h]

theorem thread_step_acquire_free (t : Nat) (s : SharedState) (rest : List Event)
    (h : s.pending.getD t [] = Event.acquire :: rest) (hm : s.mutex = none) :
    thread_step t s = { s with mutex := some t, pending := s.pending.set t rest } := by
  unfold thread_step
  rw [h]
  simp only [hm]

theorem thread_step_acquire_held (t k : Nat) (s : SharedState) (rest : List Event)
    (h : s.pending.getD t [] = Event.acquire :: rest) (hm : s.mutex = some k) :
    thread_step t s = s := by
  unfold thread_step
  rw [h]
  simp only [hm]

theorem thread_step_push (t : Nat) (s : SharedState) (c : Collision) (rest : List Event)
    (h : s.pending.getD t [] = Event.push_back c :: rest) :
    thread_step t s
      = { s with sim_collisions := s.sim_collisions ++ [c],
                 pending := s.pending.set t rest } := by
  unfold thread_step
  rw [h]

theorem thread_step_release (t : Nat) (s : SharedState) (rest : List Event)
    (h : s.pending.getD t [] = Event.release :: rest) :
    thread_step t s = { s with mutex := none, pending := s.pending.set t rest } := by
  unfold thread_step
  rw [h]

/-- A step leaves the state as it is (the thread has returned, or spins) or takes one
event of the thread. -/
theorem thread_step_remaining (t : Nat) (s : SharedState) :
    thread_step t s = s ∨ remaining (thread_step t s) + 1 = remaining s := by
  unfold remaining
  cases hp : s.pending.getD t [] with
  | nil => exact Or.inl (thread_step_nil t s hp)
  | cons e rest =>
    cases e with
    | acquire =>
      cases hm : s.mutex with
      | none =>
        right
        rw [thread_step_acquire_free t s rest hp hm]
        exact sum_length_set _ rest s.pending t hp
      | some k => exact Or.inl (thread_step_acquire_held t k s rest hp hm)
    | push_back c =>
      right
      rw [thread_step_push t s c rest hp]
      exact sum_length_set _ rest s.pending t hp
    | release =>
      right
      rw [thread_step_release t s rest hp]
      exact sum_length_set _ rest s.pending t hp

theorem block_events_eq_nil (b : List Collision) : block_events b = [] ↔ b = [] := by
  unfold block_events
  by_cases h : b = []
  · simp [h]
  · simp [h]

theorem flatten_map_nil {α β : Type} (block : α → List β) :
    ∀ l : List α, (∀ x ∈ l, block x = []) → (l.map block).flatten = [] := by
  intro l
  induction l with
  | nil => intro _; rfl
  | cons a t ih =>
    intro h
    simp only [List.map_cons, List.flatten_cons, h a (List.mem_cons_self _ _),
      ih (fun x hx => h x (List.mem_cons_of_mem _ hx)), List.append_nil]

/-- The invariant holds at the start. -/
theorem lock_invariant_initial (block : Nat → List Collision) (userPtr : Collisions)
    (progs : List (List Event))
    (hprog : ∀ t, t < progs.length → progs.getD t [] = block_events (block t)) :
    lock_invariant block progs.length userPtr ⟨none, userPtr, progs⟩ := by
  refine ⟨rfl, [], List.nodup_nil, ?_, Or.inl ⟨rfl, ?_, ?_⟩⟩
  · intro t ht; cases ht
  · intro t ht _
    exact hprog t ht
  · simp

/-- Every step of every thread keeps the invariant. -/
theorem lock_invariant_step (block : Nat → List Collision) (T : Nat) (userPtr : Collisions)
    (t : Nat) (s : SharedState) (h : lock_invariant block T userPtr s) :
    lock_invariant block T userPtr (thread_step t s) := by
  obtain ⟨hlen, done, hnd, hdone, hcase⟩ := h
  by_cases htT : t < T
  swap
  · rw [thread_step_nil t s (getD_nil_of_le _ _ (by omega))]
    exact ⟨hlen, done, hnd, hdone, hcase⟩
  by_cases htd : t ∈ done
  · rw [thread_step_nil t s (hdone t htd).2]
    exact ⟨hlen, done, hnd, hdone, hcase⟩
  have htl : t < s.pending.length := by omega
  rcases hcase with ⟨hm, hrest, hlist⟩ | ⟨k, pre, rest, hm, hk, hkd, hb, hpk, hrest, hlist⟩
  · -- the lock is free
    have hp := hrest t htT htd
    by_cases hbt : block t = []
    · rw [thread_step_nil t s (hp.trans ((block_events_eq_nil _).mpr hbt))]
      exact ⟨hlen, done, hnd, hdone, Or.inl ⟨hm, hrest, hlist⟩⟩
    · have hp1 : s.pending.getD t []
          = Event.acquire :: ((block t).map Event.push_back ++ [Event.release]) := by
        rw [hp]
        unfold block_events
        rw [if_neg hbt]
        rfl
      rw [thread_step_acquire_free t s _ hp1 hm]
      refine ⟨by simp [hlen], done, hnd, ?_, Or.inr ⟨t, [], block t, rfl, htT, htd, rfl, ?_,
        ?_, ?_⟩⟩
      · intro u hu
        have hne : t ≠ u := fun e => htd (e ▸ hu)
        refine ⟨(hdone u hu).1, ?_⟩
        show (s.pending.set t _).getD u [] = []
        rw [getD_set_ne _ _ _ _ _ hne]
        exact (hdone u hu).2
      · show (s.pending.set t _).getD t [] = _
        rw [getD_set_self _ _ _ _ htl]
      · intro u hu hud hut
        show (s.pending.set t _).getD u [] = _
        rw [getD_set_ne _ _ _ _ _ (Ne.symm hut)]
        exact hrest u hu hud
      · show s.sim_collisions = _
        rw [hlist, List.append_nil]
  · -- the lock is held by thread k
    by_cases htk : t = k
    · subst htk
      cases rest with
      | nil =>
        have hp1 : s.pending.getD t [] = Event.release :: [] := hpk
        rw [thread_step_release t s _ hp1]
        refine ⟨by simp [hlen], done ++ [t], ?_, ?_, Or.inl ⟨rfl, ?_, ?_⟩⟩
        · rw [List.nodup_append]
          refine ⟨hnd, List.nodup_singleton _, ?_⟩
          intro a ha hb1
          rw [List.mem_singleton] at hb1
          subst hb1
          exact htd ha
        · intro u hu
          rcases List.mem_append.mp hu with hu | hu
          · have hne : t ≠ u := fun e => htd (e ▸ hu)
            refine ⟨(hdone u hu).1, ?_⟩
            show (s.pending.set t _).getD u [] = []
            rw [getD_set_ne _ _ _ _ _ hne]
            exact (hdone u hu).2
          · rw [List.mem_singleton] at hu
            subst hu
            refine ⟨htT, ?_⟩
            show (s.pending.set u _).getD u [] = []
            rw [getD_set_self _ _ _ _ htl]
        · intro u hu hud
          have hud1 : u ∉ done := fun e => hud (List.mem_append_left _ e)
          have hut : u ≠ t := fun e => hud (List.mem_append_right _ (by simp [e]))
          show (s.pending.set t _).getD u [] = _
          rw [getD_set_ne _ _ _ _ _ (Ne.symm hut)]
          exact hrest u hu hud1 hut
        · show s.sim_collisions = _
          rw [hlist, List.map_append, List.flatten_append, List.append_assoc]
          simp [hb]
      | cons c rest =>
        have hp1 : s.pending.getD t []
            = Event.push_back c :: (rest.map Event.push_back ++ [Event.release]) := hpk
        rw [thread_step_push t s c _ hp1]
        refine ⟨by simp [hlen], done, hnd, ?_, Or.inr ⟨t, pre ++ [c], rest, hm, htT, htd, ?_,
          ?_, ?_, ?_⟩⟩
        · intro u hu
          have hne : t ≠ u := fun e => htd (e ▸ hu)
          refine ⟨(hdone u hu).1, ?_⟩
          show (s.pending.set t _).getD u [] = []
          rw [getD_set_ne _ _ _ _ _ hne]
          exact (hdone u hu).2
        · rw [hb]
          simp
        · show (s.pending.set t _).getD t [] = _
          rw [getD_set_self _ _ _ _ htl]
        · intro u hu hud hut
          show (s.pending.set t _).getD u [] = _
          rw [getD_set_ne _ _ _ _ _ (Ne.symm hut)]
          exact hrest u hu hud hut
        · show s.sim_collisions ++ [c] = _
          rw [hlist]
          simp
    · have hp := hrest t htT htd htk
      by_cases hbt : block t = []
      · rw [thread_step_nil t s (hp.trans ((block_events_eq_nil _).mpr hbt))]
        exact ⟨hlen, done, hnd, hdone,
          Or.inr ⟨k, pre, rest, hm, hk, hkd, hb, hpk, hrest, hlist⟩⟩
      · have hp1 : s.pending.getD t []
            = Event.acquire :: ((block t).map Event.push_back ++ [Event.release]) := by
          rw [hp]
          unfold block_events
          rw [if_neg hbt]
          rfl
        rw [thread_step_acquire_held t k s _ hp1 hm]
        exact ⟨hlen, done, hnd, hdone,
          Or.inr ⟨k, pre, rest, hm, hk, hkd, hb, hpk, hrest, hlist⟩⟩

/-- Every interleaving keeps the invariant. -/
theorem lock_invariant_run (block : Nat → List Collision) (T : Nat) (userPtr : Collisions) :
    ∀ (schedule : List Nat) (s : SharedState), lock_invariant block T userPtr s →
      lock_invariant block T userPtr (run_schedule schedule s) := by
  intro schedule
  induction schedule with
  | nil => intro s h; exact h
  | cons t schedule ih =>
    intro s h
    exact ih (thread_step t s) (lock_invariant_step block T userPtr t s h)

/-- Progress: while a thread has events to come, some thread can take its next event. -/
theorem lock_invariant_progress (block : Nat → List Collision) (T : Nat)
    (userPtr : Collisions) (s : SharedState) (h : lock_invariant block T userPtr s)
    (hnot : all_returned s = false) :
    ∃ t, t < T ∧ remaining (thread_step t s) + 1 = remaining s := by
  obtain ⟨hlen, done, hnd, hdone, hcase⟩ := h
  rcases hcase with ⟨hm, hrest, _⟩ | ⟨k, pre, rest, hm, hk, hkd, hb, hpk, _, _⟩
  · have hex : ∃ p ∈ s.pending, p.isEmpty = false := by
      unfold all_returned at hnot
      by_contra hc
      have : s.pending.all List.isEmpty = true := by
        rw [List.all_eq_true]
        intro p hp
        by_contra hp1
        exact hc ⟨p, hp, by simpa using hp1⟩
      rw [this] at hnot
      exact Bool.noConfusion hnot
    obtain ⟨p, hp, hpe⟩ := hex
    obtain ⟨t, htl, hpt⟩ := List.getElem_of_mem hp
    have hget : s.pending.getD t [] = p := by
      rw [List.getD_eq_getElem?_getD, List.getElem?_eq_getElem htl, hpt]
      rfl
    have htT : t < T := by omega
    have hpne : p ≠ [] := by
      intro e
      rw [e] at hpe
      exact Bool.noConfusion hpe
    have htd : t ∉ done := by
      intro e
      exact hpne (hget.symm.trans (hdone t e).2)
    have hp1 := hrest t htT htd
    have hbt : block t ≠ [] := by
      intro e
      exact hpne (hget.symm.trans (hp1.trans ((block_events_eq_nil _).mpr e)))
    have hp2 : s.pending.getD t []
        = Event.acquire :: ((block t).map Event.push_back ++ [Event.release]) := by
      rw [hp1]
      unfold block_events
      rw [if_neg hbt]
      rfl
    refine ⟨t, htT, ?_⟩
    rw [thread_step_acquire_free t s _ hp2 hm]
    exact sum_length_set _ _ s.pending t hp2
  · refine ⟨k, hk, ?_⟩
    cases rest with
    | nil =>
      have hp1 : s.pending.getD k [] = Event.release :: [] := hpk
      rw [thread_step_release k s _ hp1]
      exact sum_length_set _ _ s.pending k hp1
    | cons c rest =>
      have hp1 : s.pending.getD k []
          = Event.push_back c :: (rest.map Event.push_back ++ [Event.release]) := hpk
      rw [thread_step_push k s c _ hp1]
      exact sum_length_set _ _ s.pending k hp1

/-- Completion: from every state of an interleaving the threads can be scheduled so that
all of them return, within as many steps as there are events to come. -/
theorem lock_invariant_completion (block : Nat → List Collision) (T : Nat)
    (userPtr : Collisions) :
    ∀ (n : Nat) (s : SharedState), lock_invariant block T userPtr s → remaining s ≤ n →
      ∃ rest : List Nat, rest.length ≤ remaining s ∧ (∀ t ∈ rest, t < T)
        ∧ all_returned (run_schedule rest s) = true := by
  intro n
  induction n with
  | zero =>
    intro s h hn
    cases hr : all_returned s with
    | true => exact ⟨[], Nat.zero_le _, fun t ht => absurd ht (List.not_mem_nil t), hr⟩
    | false =>
      obtain ⟨t, _, ht⟩ := lock_invariant_progress block T userPtr s h hr
      omega
  | succ n ih =>
    intro s h hn
    cases hr : all_returned s with
    | true => exact ⟨[], Nat.zero_le _, fun t ht => absurd ht (List.not_mem_nil t), hr⟩
    | false =>
      obtain ⟨t, htT, ht⟩ := lock_invariant_progress block T userPtr s h hr
      obtain ⟨rest, hlen, hmem, hall⟩ := ih (thread_step t s)
        (lock_invariant_step block T userPtr t s h) (by omega)
      refine ⟨t :: rest, ?_, ?_, hall⟩
      · simp only [List.length_cons]
        omega
      · intro u hu
        rcases List.mem_cons.mp hu with e | e
        · rw [e]; exact htT
        · exact hmem u e

/-- When all threads have returned the list is the initial list followed by the blocks,
one whole block after the other, in some order of the threads. -/
theorem lock_invariant_final (block : Nat → List Collision) (T : Nat)
    (userPtr : Collisions) (s : SharedState) (h : lock_invariant block T userPtr s)
    (hall : all_returned s = true) :
    ∃ order : List Nat, order.Perm (List.range T)
      ∧ s.sim_collisions = userPtr ++ (order.map block).flatten := by
  obtain ⟨hlen, done, hnd, hdone, hcase⟩ := h
  have hnil : ∀ t, s.pending.getD t [] = [] := by
    intro t
    by_cases htl : t < s.pending.length
    · unfold all_returned at hall
      rw [List.all_eq_true] at hall
      have := hall (s.pending.get ⟨t, htl⟩) (List.get_mem _ _ _)
      rw [List.getD_eq_getElem?_getD, List.getElem?_eq_getElem htl]
      simpa using this
    · exact getD_nil_of_le _ _ (by omega)
  rcases hcase with ⟨_, hrest, hlist⟩ | ⟨k, pre, rest, _, _, _, _, hpk, _, _⟩
  · refine ⟨done ++ (List.range T).filter (fun t => decide (t ∉ done)), ?_, ?_⟩
    · rw [List.perm_ext_iff_of_nodup _ (List.nodup_range _)]
      · intro a
        simp only [List.mem_append, List.mem_filter, List.mem_range, decide_eq_true_eq]
        constructor
        · rintro (ha | ha)
          · exact (hdone a ha).1
          · exact ha.1
        · intro ha
          by_cases had : a ∈ done
          · exact Or.inl had
          · exact Or.inr ⟨ha, had⟩
      · rw [List.nodup_append]
        refine ⟨hnd, (List.nodup_range _).filter _, ?_⟩
        intro a ha hb
        simp only [List.mem_filter, decide_eq_true_eq] at hb
        exact hb.2 ha
    · rw [hlist, List.map_append, List.flatten_append, flatten_map_nil block
        ((List.range T).filter (fun t => decide (t ∉ done))), List.append_nil]
      intro x hx
      simp only [List.mem_filter, List.mem_range, decide_eq_true_eq] at hx
      exact (block_events_eq_nil _).mp ((hrest x hx.1 hx.2).symm.trans (hnil x))
  · have := hpk.symm.trans (hnil k)
    simp at this

/-- The events of the append loop do not depend on the list that is appended to. -/
theorem pushLoop_trace (collisions : List RTCCollision) (n : Nat) (u1 u2 : Collisions)
    (trace : List Event) :
    (pushLoop collisions n u1 trace).2 = (pushLoop collisions n u2 trace).2 := by
  unfold pushLoop
  generalize List.range n = l
  induction l generalizing u1 u2 trace with
  | nil => rfl
  | cons i l ih =>
    simp only [List.foldl_cons]
    exact ih _ _ _

/-- The events of a call do not depend on the list behind `userPtr`: they are the events
of the call on the empty list. -/
theorem CollideFunc_trace_userPtr {V : Type} [Inhabited V]
    (isect : V → V → V → V → V → V → Bool) (meshes : List (Mesh V))
    (userPtr : Collisions) (call : List RTCCollision × Nat) :
    (CollideFunc isect meshes userPtr call.1 call.2).trace = call_events isect meshes call := by
  unfold call_events CollideFunc
  dsimp only
  split
  · rfl
  · show (pushLoop _ _ userPtr [Event.acquire]).2 ++ [Event.release]
      = (pushLoop _ _ [] [Event.acquire]).2 ++ [Event.release]
    rw [pushLoop_trace _ _ userPtr []]

/-- The events of a call are the acquisition, one `push_back` per survivor and the
release, or nothing when no candidate survives. -/
theorem call_events_eq {V : Type} [Inhabited V]
    (isect : V → V → V → V → V → V → Bool) (meshes : List (Mesh V))
    (call : List RTCCollision × Nat) (h : call.2 ≤ call.1.length) :
    call_events isect meshes call
      = block_events (CollideFunc isect meshes [] call.1 call.2).userPtr := by
  obtain ⟨s, st, _, _, _, _, _, _, hu, htr, _⟩ :=
    CollideFunc_state isect meshes [] call.1 call.2 h
  unfold call_events block_events
  rw [htr, hu, List.nil_append]
  by_cases hs : s = []
  · subst hs
    rfl
  · have hne : s.map make_collision ≠ [] := by
      intro e
      exact hs (List.map_eq_nil_iff.mp e)
    rw [if_neg hs, if_neg hne, List.map_map]
    rfl

theorem call_block_range {V : Type} [Inhabited V] (isect : V → V → V → V → V → V → Bool)
    (meshes : List (Mesh V)) (calls : List (List RTCCollision × Nat)) :
    (List.range calls.length).map (call_block isect meshes calls)
      = calls.map (fun call => (CollideFunc isect meshes [] call.1 call.2).userPtr) := by
  apply List.ext_getElem
  · simp
  · intro i h1 h2
    have hi : i < calls.length := by simpa using h2
    simp [call_block, List.getElem?_eq_getElem hi]

/-- The invariant holds in every state of every interleaving of the calls. -/
theorem lock_invariant_calls {V : Type} [Inhabited V]
    (isect : V → V → V → V → V → V → Bool) (meshes : List (Mesh V)) (userPtr : Collisions)
    (calls : List (List RTCCollision × Nat)) (schedule : List Nat)
    (hcalls : ∀ call ∈ calls, call.2 ≤ call.1.length) :
    lock_invariant (call_block isect meshes calls) calls.length userPtr
      (run_schedule schedule (initial_state isect meshes userPtr calls)) := by
  apply lock_invariant_run
  have hi := lock_invariant_initial (call_block isect meshes calls) userPtr
    (calls.map (call_events isect meshes)) (by
      intro t ht
      have htl : t < calls.length := by simpa using ht
      rw [List.getD_eq_getElem?_getD, List.getElem?_map, List.getElem?_eq_getElem htl]
      simp only [Option.map_some', Option.getD_some, call_block,
        List.getElem?_eq_getElem htl]
      exact call_events_eq isect meshes calls[t] (hcalls _ (List.getElem_mem htl)))
  rw [List.length_map] at hi
  exact hi

/-- Without the lock the blocks of two threads can interleave: in the model the
contiguity of a block comes from the `acquire` and `release` events of the calls. -/
theorem unlocked_pushes_interleave :
    (run_schedule [0, 1, 0, 1] unlockedState).sim_collisions
      = [((0, 0), (0, 1)), ((1, 0), (1, 1)), ((0, 0), (0, 2)), ((1, 0), (1, 2))] := by
  decide

/-- C17: concurrent calls, in the interleaving model.  Threads `0 .. calls.length-1` each
run `CollideFunc` on a batch of their own; what a thread does to the lock and to the
shared list are the events of the embedded `CollideFunc`, whatever the list holds.  After
every schedule: the threads can be scheduled on so that all of them return, within as many
steps as there are events to come; while a thread has not returned some thread can take a
step; every step takes one event or leaves the state as it is.  In every state in which
all threads have returned the list is the initial list followed by the blocks of the
calls, one whole block after the other, in some order of the threads; its length is the
initial length plus the sum of the survivor counts, and it is a rearrangement of the
initial list together with all blocks: nothing is lost, nothing is duplicated. -/
theorem concurrent_calls_append_blocks {V : Type} [Inhabited V]
    (isect : V → V → V → V → V → V → Bool) (meshes : List (Mesh V)) (userPtr : Collisions)
    (calls : List (List RTCCollision × Nat)) (schedule : List Nat)
    (hcalls : ∀ call ∈ calls, call.2 ≤ call.1.length) :
    (∀ call ∈ calls, ∀ list : Collisions,
        (CollideFunc isect meshes list call.1 call.2).trace = call_events isect meshes call)
      ∧ (∃ rest : List Nat,
          rest.length
              ≤ remaining (run_schedule schedule (initial_state isect meshes userPtr calls))
            ∧ (∀ t ∈ rest, t < calls.length)
            ∧ all_returned (run_schedule (schedule ++ rest)
                (initial_state isect meshes userPtr calls)) = true)
      ∧ (all_returned (run_schedule schedule (initial_state isect meshes userPtr calls))
            = false →
          ∃ t, t < calls.length
            ∧ remaining (thread_step t
                  (run_schedule schedule (initial_state isect meshes userPtr calls))) + 1
                = remaining (run_schedule schedule (initial_state isect meshes userPtr calls)))
      ∧ (∀ t,
          thread_step t (run_schedule schedule (initial_state isect meshes userPtr calls))
              = run_schedule schedule (initial_state isect meshes userPtr calls)
            ∨ remaining (thread_step t
                  (run_schedule schedule (initial_state isect meshes userPtr calls))) + 1
                = remaining (run_schedule schedule (initial_state isect meshes userPtr calls)))
      ∧ (all_returned (run_schedule schedule (initial_state isect meshes userPtr calls))
            = true →
          (∃ order : List Nat, order.Perm (List.range calls.length)
              ∧ (run_schedule schedule
                  (initial_state isect meshes userPtr calls)).sim_collisions
                = userPtr ++ (order.map (call_block isect meshes calls)).flatten)
            ∧ (run_schedule schedule
                  (initial_state isect meshes userPtr calls)).sim_collisions.length
                = userPtr.length
                  + (calls.map (fun call =>
                      (CollideFunc isect meshes [] call.1 call.2).num_collisions)).sum
            ∧ (run_schedule schedule
                  (initial_state isect meshes userPtr calls)).sim_collisions.Perm
                (userPtr ++ (calls.map (fun call =>
                    (CollideFunc isect meshes [] call.1 call.2).userPtr)).flatten)) := by
  have hinv := lock_invariant_calls isect meshes userPtr calls schedule hcalls
  refine ⟨fun call _ list => CollideFunc_trace_userPtr isect meshes list call, ?_,
    lock_invariant_progress _ _ _ _ hinv, fun t => thread_step_remaining t _, ?_⟩
  · obtain ⟨rest, hlen, hmem, hall⟩ := lock_invariant_completion _ _ _ _ _ hinv (Nat.le_refl _)
    refine ⟨rest, hlen, hmem, ?_⟩
    unfold run_schedule at hall ⊢
    rw [List.foldl_append]
    exact hall
  · intro hall
    obtain ⟨order, hperm, hlist⟩ := lock_invariant_final _ _ _ _ hinv hall
    have hblocks : (order.map (call_block isect meshes calls)).flatten.Perm
        (calls.map (fun call =>
          (CollideFunc isect meshes [] call.1 call.2).userPtr)).flatten := by
      rw [← call_block_range]
      exact (hperm.map _).flatten
    have hsum : (calls.map (fun call =>
        (CollideFunc isect meshes [] call.1 call.2).userPtr)).flatten.length
        = (calls.map (fun call =>
            (CollideFunc isect meshes [] call.1 call.2).num_collisions)).sum := by
      rw [List.length_flatten, List.map_map]
      congr 1
      apply List.map_congr_left
      intro call hcall
      obtain ⟨s, st, _, _, _, _, _, hn, hu, _, _⟩ :=
        CollideFunc_state isect meshes [] call.1 call.2 (hcalls call hcall)
      simp only [Function.comp_apply]
      rw [hu, hn]
      simp
    refine ⟨⟨order, hperm, hlist⟩, ?_, ?_⟩
    · rw [hlist, List.length_append, hblocks.length_eq, hsum]
    · rw [hlist]
      exact List.Perm.append_left _ hblocks

/-- C17, instantiated: three calls interleaved so that thread 0 spins while thread 2
appends; thread 1 has no survivor.  All threads have returned, and the list ends as the
initial entry, the block of thread 2, then the block of thread 0. -/
theorem concurrent_calls_append_blocks_witness :
    (∀ call ∈ sampleCalls, call.2 ≤ call.1.length)
      ∧ all_returned (run_schedule sampleSchedule
          (initial_state straddle_oracle [meshStrip, meshFlat] [((7, 7), (8, 8))]
            sampleCalls)) = true
      ∧ (run_schedule sampleSchedule
          (initial_state straddle_oracle [meshStrip, meshFlat] [((7, 7), (8, 8))]
            sampleCalls)).sim_collisions
        = [((7, 7), (8, 8)), ((0, 1), (0, 2)), ((0, 0), (0, 2)), ((0, 0), (0, 2))]
      ∧ (run_schedule sampleSchedule
          (initial_state straddle_oracle [meshStrip, meshFlat] [((7, 7), (8, 8))]
            sampleCalls)).sim_collisions.length
        = [((7, 7), (8, 8))].length
          + (sampleCalls.map (fun call =>
              (CollideFunc straddle_oracle [meshStrip, meshFlat] [] call.1
                call.2).num_collisions)).sum :=
  ⟨by decide, by decide, by decide,
   ((concurrent_calls_append_blocks straddle_oracle [meshStrip, meshFlat] [((7, 7), (8, 8))]
      sampleCalls sampleSchedule (by decide)).2.2.2.2 (by decide)).2.1⟩

end embree
